import Mathlib

/-!
# Terrain queries (src/Terrain/TerrainQuery.cc)

A shallow embedding of `TerrainQuery.cc`:

* `TerrainAtCoordinateBatchManager`, which coalesces point queries into batches,
* `TerrainTileManager`, which answers queries from a tile cache and queues the ones that miss,
  with its path discretization `pathQueryToCoords`,
* the query classes in front of them: `TerrainAirMapQuery`, `TerrainOfflineAirMapQuery`,
  `UnitTestTerrainQuery`, `TerrainAtCoordinateQuery`, `TerrainPathQuery`, `TerrainPolyPathQuery`.

Every method is a function from the object's fields (and the method's arguments) to the new
fields together with the list of outward effects it performs, in the order it performs them
(signals emitted to callers, requests handed to the provider, tile fetches started).

Conventions.

* Objects (`TerrainAtCoordinateQuery*`, `TerrainOfflineAirMapQuery*`) are identified by a number.
* A `double` is either NaN or a value.  The two managers store heights, distances and
  coordinates, test them with `qIsNaN` and hand them on; the path discretization and the region
  query of the synthetic provider compute with them, and there arithmetic is exact (rounding is
  not modelled).
* `QList<T>` is `List T`, `int` counters are `Nat` (they only count list elements).
* Slots run to completion: a signal emitted by a method is recorded as an effect and the receiver
  does not call back into the manager before the method returns.  The provider's answer and the
  completion of a tile fetch are separate steps (`_coordinateHeights`, `_terrainDone`).
* The mutex `_tilesMutex` is not modelled (one thread of control).
-/

namespace TerrainQuery

/-- A C++ `double` as far as this file needs it: NaN, or a value. -/
inductive Double where
  | nan : Double
  | val (v : Rat) : Double
deriving DecidableEq, Repr

/-- The test `qIsNaN(d)`. -/
def qIsNaN : Double → Bool
  | Double.nan => true
  | Double.val _ => false

/-- A `QGeoCoordinate`: latitude and longitude. -/
structure QGeoCoordinate where
  latitude : Double
  longitude : Double
deriving DecidableEq, Repr

/-- The address of a `QObject` (a caller), used only for identity. -/
abbrev QObjectPtr := Nat

/-- The `enum class State` shared by both managers. -/
inductive State where
  | Idle : State
  | Downloading : State
deriving DecidableEq, Repr

/-- The call `QList::mid(pos, length)` for `pos ≥ 0` and `length ≥ 0`: at most `length` elements
starting at `pos`, fewer when the list ends before. -/
def QList.mid {α : Type} (l : List α) (pos length : Nat) : List α :=
  (l.drop pos).take length

/-- The call `QList::mid(pos)` with the default length: everything from `pos` on. -/
def QList.midFrom {α : Type} (l : List α) (pos : Nat) : List α :=
  l.drop pos

/-! ## TerrainAtCoordinateBatchManager -/

namespace TerrainAtCoordinateBatchManager

/-- An entry of `_requestQueue`. -/
structure QueuedRequestInfo_t where
  terrainAtCoordinateQuery : QObjectPtr
  coordinates : List QGeoCoordinate
deriving DecidableEq, Repr

/-- An entry of `_sentRequests`. -/
structure SentRequestInfo_t where
  terrainAtCoordinateQuery : QObjectPtr
  queryObjectDestroyed : Bool
  cCoord : Nat
deriving DecidableEq, Repr

/-- What the manager does to the outside. -/
inductive Effect where
  /-- The call `_terrainQuery.requestCoordinateHeights(coords)`. -/
  | requestCoordinateHeights (coords : List QGeoCoordinate) : Effect
  /-- The call `terrainAtCoordinateQuery->_signalTerrainData(success, heights)`. -/
  | _signalTerrainData (terrainAtCoordinateQuery : QObjectPtr) (success : Bool)
      (heights : List Double) : Effect
deriving DecidableEq, Repr

/-- The fields of the manager.  `_batchTimerActive` is `_batchTimer.isActive()`;
`_destroyedConnections` lists the connections from a caller's `destroyed` signal to
`_queryObjectDestroyed`, one element per `connect` call. -/
structure Manager where
  _state : State
  _requestQueue : List QueuedRequestInfo_t
  _sentRequests : List SentRequestInfo_t
  _batchTimerActive : Bool
  _destroyedConnections : List QObjectPtr
deriving DecidableEq, Repr

/-- The manager as constructed. -/
def init : Manager :=
  { _state := State.Idle, _requestQueue := [], _sentRequests := [],
    _batchTimerActive := false, _destroyedConnections := [] }

/-- The call `disconnect(q, &destroyed, this, &_queryObjectDestroyed)`: every such connection of
`q` is removed. -/
def disconnect (connections : List QObjectPtr) (q : QObjectPtr) : List QObjectPtr :=
  connections.filter (fun c => c != q)

/-- `TerrainAtCoordinateBatchManager::addQuery`. -/
def addQuery (m : Manager) (terrainAtCoordinateQuery : QObjectPtr)
    (coordinates : List QGeoCoordinate) : Manager :=
  if coordinates.length > 0 then
    { m with
      _destroyedConnections := m._destroyedConnections ++ [terrainAtCoordinateQuery]
      _requestQueue := m._requestQueue ++ [⟨terrainAtCoordinateQuery, coordinates⟩]
      _batchTimerActive := true }
  else
    m

/-- The loop of `_sendNextBatch` over `_requestQueue`, with its three accumulators
`_sentRequests`, `coords` and `requestQueueAdded`. -/
def _sendNextBatch.loop : List QueuedRequestInfo_t → List SentRequestInfo_t →
    List QGeoCoordinate → Nat → List SentRequestInfo_t × List QGeoCoordinate × Nat
  | [], sentRequests, coords, requestQueueAdded => (sentRequests, coords, requestQueueAdded)
  | requestInfo :: rest, sentRequests, coords, requestQueueAdded =>
    let sentRequests := sentRequests ++
      [⟨requestInfo.terrainAtCoordinateQuery, false, requestInfo.coordinates.length⟩]
    let coords := coords ++ requestInfo.coordinates
    let requestQueueAdded := requestQueueAdded + 1
    if coords.length > 50 then
      (sentRequests, coords, requestQueueAdded)
    else
      _sendNextBatch.loop rest sentRequests coords requestQueueAdded

/-- `TerrainAtCoordinateBatchManager::_sendNextBatch`, the slot of the batch timer. -/
def _sendNextBatch (m : Manager) : Manager × List Effect :=
  if m._state ≠ State.Idle then
    ({ m with _batchTimerActive := true }, [])
  else if m._requestQueue.length = 0 then
    (m, [])
  else
    let r := _sendNextBatch.loop m._requestQueue [] [] 0
    ({ m with
        _sentRequests := r.1
        _requestQueue := QList.midFrom m._requestQueue r.2.2
        _state := State.Downloading },
      [Effect.requestCoordinateHeights r.2.1])

/-- The single-shot batch timer fires: it is no longer active and its slot runs. -/
def timeout (m : Manager) : Manager × List Effect :=
  _sendNextBatch { m with _batchTimerActive := false }

/-- The loop of `_batchFailed` over `_sentRequests`: the connections left and the signals
emitted. -/
def _batchFailed.loop : List SentRequestInfo_t → List QObjectPtr →
    List QObjectPtr × List Effect
  | [], connections => (connections, [])
  | sentRequestInfo :: rest, connections =>
    if !sentRequestInfo.queryObjectDestroyed then
      let r := _batchFailed.loop rest
        (disconnect connections sentRequestInfo.terrainAtCoordinateQuery)
      (r.1, Effect._signalTerrainData sentRequestInfo.terrainAtCoordinateQuery false [] :: r.2)
    else
      _batchFailed.loop rest connections

/-- `TerrainAtCoordinateBatchManager::_batchFailed`. -/
def _batchFailed (m : Manager) : Manager × List Effect :=
  let r := _batchFailed.loop m._sentRequests m._destroyedConnections
  ({ m with _destroyedConnections := r.1, _sentRequests := [] }, r.2)

/-- The first loop of `_queryObjectDestroyed`: the entries of the caller are removed from
`_requestQueue` while scanning it from the front. -/
def _queryObjectDestroyed.removeLoop (terrainAtCoordinateQuery : QObjectPtr) :
    List QueuedRequestInfo_t → List QueuedRequestInfo_t
  | [] => []
  | requestInfo :: rest =>
    if requestInfo.terrainAtCoordinateQuery = terrainAtCoordinateQuery then
      _queryObjectDestroyed.removeLoop terrainAtCoordinateQuery rest
    else
      requestInfo :: _queryObjectDestroyed.removeLoop terrainAtCoordinateQuery rest

/-- The second loop of `_queryObjectDestroyed`: the entries of the caller in `_sentRequests`
are marked. -/
def _queryObjectDestroyed.markLoop (terrainAtCoordinateQuery : QObjectPtr) :
    List SentRequestInfo_t → List SentRequestInfo_t
  | [] => []
  | sentRequestInfo :: rest =>
    (if sentRequestInfo.terrainAtCoordinateQuery = terrainAtCoordinateQuery then
      { sentRequestInfo with queryObjectDestroyed := true }
    else
      sentRequestInfo) :: _queryObjectDestroyed.markLoop terrainAtCoordinateQuery rest

/-- `TerrainAtCoordinateBatchManager::_queryObjectDestroyed`. -/
def _queryObjectDestroyed (m : Manager) (terrainAtCoordinateQuery : QObjectPtr) : Manager :=
  { m with
    _requestQueue := _queryObjectDestroyed.removeLoop terrainAtCoordinateQuery m._requestQueue
    _sentRequests := _queryObjectDestroyed.markLoop terrainAtCoordinateQuery m._sentRequests }

/-- The loop of `_coordinateHeights` over `_sentRequests` on success, with its counter
`currentIndex`: the connections left and the signals emitted. -/
def _coordinateHeights.loop (heights : List Double) : List SentRequestInfo_t → Nat →
    List QObjectPtr → List QObjectPtr × List Effect
  | [], _, connections => (connections, [])
  | sentRequestInfo :: rest, currentIndex, connections =>
    if !sentRequestInfo.queryObjectDestroyed then
      let requestAltitudes := QList.mid heights currentIndex sentRequestInfo.cCoord
      let r := _coordinateHeights.loop heights rest (currentIndex + sentRequestInfo.cCoord)
        (disconnect connections sentRequestInfo.terrainAtCoordinateQuery)
      (r.1, Effect._signalTerrainData sentRequestInfo.terrainAtCoordinateQuery true
              requestAltitudes :: r.2)
    else
      _coordinateHeights.loop heights rest currentIndex connections

/-- `TerrainAtCoordinateBatchManager::_coordinateHeights`, the slot that receives the provider's
answer. -/
def _coordinateHeights (m : Manager) (success : Bool) (heights : List Double) :
    Manager × List Effect :=
  let m := { m with _state := State.Idle }
  if !success then
    _batchFailed m
  else
    let r := _coordinateHeights.loop heights m._sentRequests 0 m._destroyedConnections
    let m := { m with _destroyedConnections := r.1, _sentRequests := [] }
    if m._requestQueue.length ≠ 0 then
      ({ m with _batchTimerActive := true }, r.2)
    else
      (m, r.2)

/-- The queue entry `addQuery` makes of a submission. -/
def toQueued (s : QObjectPtr × List QGeoCoordinate) : QueuedRequestInfo_t := ⟨s.1, s.2⟩

/-- The record `_sendNextBatch` makes of a queue entry. -/
def toSent (requestInfo : QueuedRequestInfo_t) : SentRequestInfo_t :=
  ⟨requestInfo.terrainAtCoordinateQuery, false, requestInfo.coordinates.length⟩

/-- The submissions `addQuery(s.1, s.2)` made one after the other, in list order. -/
def submitAll (m : Manager) (subs : List (QObjectPtr × List QGeoCoordinate)) : Manager :=
  subs.foldl (fun m s => addQuery m s.1 s.2) m

/-- A coordinate for concrete evaluations: latitude and longitude `n`. -/
def sampleCoord (n : Nat) : QGeoCoordinate := ⟨Double.val n, Double.val n⟩

/-- The slices of a flat response for consecutive entries with the given coordinate counts, the
first slice starting at `offset`: entry `i` gets `heights.mid(offset + n_0 + ... + n_(i-1), n_i)`. -/
def slicesFrom (heights : List Double) : List Nat → Nat → List (List Double)
  | [], _ => []
  | n :: ns, offset => QList.mid heights offset n :: slicesFrom heights ns (offset + n)

end TerrainAtCoordinateBatchManager

/-! ## TerrainTileManager -/

/-- The bytes of a reply. -/
abbrev QByteArray := List Nat

/-- A `QNetworkReply::NetworkError`. -/
inductive NetworkError where
  | NoError : NetworkError
  | Error (code : Nat) : NetworkError
deriving DecidableEq, Repr

/-- A `QGeoTileSpec`. -/
structure QGeoTileSpec where
  x : Int
  y : Int
  zoom : Int
  mapId : Int
deriving DecidableEq, Repr

/-- A `TerrainTile` as the manager sees it: whether it is valid and the elevation it gives for a
coordinate.  The class is declared outside `TerrainQuery.cc`. -/
structure TerrainTile where
  isValid : Bool
  elevation : QGeoCoordinate → Double

/-- The functions `TerrainQuery.cc` calls and does not define: the tile addressing of
`QGCMapEngine` and its `urlFactory()`, and the constructor `TerrainTile(responseBytes)`.  They are
parameters of the embedding. -/
structure Externals where
  getTileHash : String → Int → Int → Int → String
  long2tileX : String → Double → Int → Int
  lat2tileY : String → Double → Int → Int
  getIdFromType : String → Int
  decodeTile : QByteArray → TerrainTile

namespace TerrainTileManager

/-- The `enum QueryMode` of a queued request. -/
inductive QueryMode where
  | QueryModeCoordinates : QueryMode
  | QueryModePath : QueryMode
  | QueryModeCarpet : QueryMode
deriving DecidableEq, Repr

/-- An entry of `_requestQueue`. -/
structure QueuedRequestInfo_t where
  terrainQueryInterface : QObjectPtr
  queryMode : QueryMode
  distanceBetween : Double
  finalDistanceBetween : Double
  coordinates : List QGeoCoordinate
deriving DecidableEq, Repr

/-- What the manager does to the outside. -/
inductive Effect where
  /-- A `new QGeoTiledMapReplyQGC(&_networkManager, request, spec)` whose `terrainDone` is
  connected to `_terrainDone`: a tile fetch is started. -/
  | fetch (spec : QGeoTileSpec) : Effect
  /-- The call `terrainQueryInterface->_signalCoordinateHeights(success, heights)`. -/
  | _signalCoordinateHeights (terrainQueryInterface : QObjectPtr) (success : Bool)
      (heights : List Double) : Effect
  /-- The call `terrainQueryInterface->_signalPathHeights(success, distanceBetween,
  finalDistanceBetween, heights)`. -/
  | _signalPathHeights (terrainQueryInterface : QObjectPtr) (success : Bool)
      (distanceBetween finalDistanceBetween : Double) (heights : List Double) : Effect
deriving DecidableEq, Repr

/-- The fields of the manager; `_tiles` is the `QHash<QString, TerrainTile>`. -/
structure Manager where
  _state : State
  _requestQueue : List QueuedRequestInfo_t
  _tiles : String → Option TerrainTile

/-- The call `_tiles.insert(hash, tile)`. -/
def QHash.insert (tiles : String → Option TerrainTile) (hash : String) (tile : TerrainTile) :
    String → Option TerrainTile :=
  fun key => if key = hash then some tile else tiles key

/-- `TerrainTileManager::_getTileHash`. -/
def _getTileHash (ext : Externals) (coordinate : QGeoCoordinate) : String :=
  ext.getTileHash "Airmap Elevation"
    (ext.long2tileX "Airmap Elevation" coordinate.longitude 1)
    (ext.lat2tileY "Airmap Elevation" coordinate.latitude 1)
    1

/-- The `spec` that `getAltitudesForCoordinates` builds for the fetch of a coordinate's tile. -/
def tileSpec (ext : Externals) (coordinate : QGeoCoordinate) : QGeoTileSpec :=
  { x := ext.long2tileX "Airmap Elevation" coordinate.longitude 1
    y := ext.lat2tileY "Airmap Elevation" coordinate.latitude 1
    zoom := 1
    mapId := ext.getIdFromType "Airmap Elevation" }

/-- What `getAltitudesForCoordinates` hands back: its return value, the two output parameters,
the manager afterwards and the effects. -/
structure GetAltitudesResult where
  ret : Bool
  altitudes : List Double
  error : Bool
  manager : Manager
  effects : List Effect

/-- The loop of `getAltitudesForCoordinates` over `coordinates`, with the output parameters
`altitudes` and `error` as accumulators. -/
def getAltitudesForCoordinates.loop (ext : Externals) (m : Manager) :
    List QGeoCoordinate → List Double → Bool → GetAltitudesResult
  | [], altitudes, error => ⟨true, altitudes, error, m, []⟩
  | coordinate :: rest, altitudes, error =>
    let tileHash := _getTileHash ext coordinate
    match m._tiles tileHash with
    | some tile =>
      let elevation := tile.elevation coordinate
      let error := if qIsNaN elevation then true else error
      getAltitudesForCoordinates.loop ext m rest (altitudes ++ [elevation]) error
    | none =>
      if m._state ≠ State.Downloading then
        ⟨false, altitudes, error, { m with _state := State.Downloading },
          [Effect.fetch (tileSpec ext coordinate)]⟩
      else
        ⟨false, altitudes, error, m, []⟩

/-- `TerrainTileManager::getAltitudesForCoordinates`; `altitudes` is the list the caller
passes in. -/
def getAltitudesForCoordinates (ext : Externals) (m : Manager)
    (coordinates : List QGeoCoordinate) (altitudes : List Double) : GetAltitudesResult :=
  getAltitudesForCoordinates.loop ext m coordinates altitudes false

/-- `TerrainTileManager::addCoordinateQuery`. -/
def addCoordinateQuery (ext : Externals) (m : Manager) (terrainQueryInterface : QObjectPtr)
    (coordinates : List QGeoCoordinate) : Manager × List Effect :=
  if coordinates.length > 0 then
    let r := getAltitudesForCoordinates ext m coordinates []
    if !r.ret then
      ({ r.manager with
          _requestQueue := r.manager._requestQueue ++
            [⟨terrainQueryInterface, QueryMode.QueryModeCoordinates, Double.val 0, Double.val 0,
              coordinates⟩] },
        r.effects)
    else if r.error then
      (r.manager, r.effects ++ [Effect._signalCoordinateHeights terrainQueryInterface false []])
    else
      (r.manager, r.effects ++ [Effect._signalCoordinateHeights terrainQueryInterface
        (coordinates.length == r.altitudes.length) r.altitudes])
  else
    (m, [])

/-- The body of the loop of `_tileFailed` for one queued request. -/
def _tileFailed.signal (requestInfo : QueuedRequestInfo_t) : List Effect :=
  match requestInfo.queryMode with
  | QueryMode.QueryModeCoordinates =>
    [Effect._signalCoordinateHeights requestInfo.terrainQueryInterface false []]
  | QueryMode.QueryModePath =>
    [Effect._signalPathHeights requestInfo.terrainQueryInterface false
      requestInfo.distanceBetween requestInfo.finalDistanceBetween []]
  | QueryMode.QueryModeCarpet => []

/-- The loop of `_tileFailed` over `_requestQueue`. -/
def _tileFailed.loop : List QueuedRequestInfo_t → List Effect
  | [] => []
  | requestInfo :: rest => _tileFailed.signal requestInfo ++ _tileFailed.loop rest

/-- `TerrainTileManager::_tileFailed`. -/
def _tileFailed (m : Manager) : Manager × List Effect :=
  ({ m with _requestQueue := [] }, _tileFailed.loop m._requestQueue)

/-- The signal `_terrainDone` emits for a queued request once `getAltitudesForCoordinates` has
returned true for it with the given `error` and `altitudes`. -/
def _terrainDone.signal (requestInfo : QueuedRequestInfo_t) (error : Bool)
    (altitudes : List Double) : List Effect :=
  match requestInfo.queryMode with
  | QueryMode.QueryModeCoordinates =>
    if error then
      [Effect._signalCoordinateHeights requestInfo.terrainQueryInterface false []]
    else
      [Effect._signalCoordinateHeights requestInfo.terrainQueryInterface
        (requestInfo.coordinates.length == altitudes.length) altitudes]
  | QueryMode.QueryModePath =>
    if error then
      [Effect._signalPathHeights requestInfo.terrainQueryInterface false
        requestInfo.distanceBetween requestInfo.finalDistanceBetween []]
    else
      [Effect._signalPathHeights requestInfo.terrainQueryInterface
        (requestInfo.coordinates.length == altitudes.length)
        requestInfo.distanceBetween requestInfo.finalDistanceBetween altitudes]
  | QueryMode.QueryModeCarpet => []

/-- The retry loop of `_terrainDone`, `for (int i = _requestQueue.count() - 1; i >= 0; i--)`:
the first argument is `i + 1`. -/
def _terrainDone.loop (ext : Externals) : Nat → Manager → Manager × List Effect
  | 0, m => (m, [])
  | i + 1, m =>
    match m._requestQueue[i]? with
    | none => _terrainDone.loop ext i m
    | some requestInfo =>
      let r := getAltitudesForCoordinates ext m requestInfo.coordinates []
      if r.ret then
        let signals := _terrainDone.signal requestInfo r.error r.altitudes
        let k := _terrainDone.loop ext i
          { r.manager with _requestQueue := r.manager._requestQueue.eraseIdx i }
        (k.1, r.effects ++ signals ++ k.2)
      else
        let k := _terrainDone.loop ext i r.manager
        (k.1, r.effects ++ k.2)

/-- `TerrainTileManager::_terrainDone`.  `reply` is `qobject_cast<QGeoTiledMapReplyQGC*>(sender())`
reduced to its `tileSpec()`, `none` when the cast gives a null pointer. -/
def _terrainDone (ext : Externals) (m : Manager) (reply : Option QGeoTileSpec)
    (responseBytes : QByteArray) (error : NetworkError) : Manager × List Effect :=
  let m := { m with _state := State.Idle }
  match reply with
  | none => (m, [])
  | some spec =>
    let hash := ext.getTileHash "Airmap Elevation" spec.x spec.y spec.zoom
    if error ≠ NetworkError.NoError then
      _tileFailed m
    else if responseBytes.isEmpty then
      _tileFailed m
    else
      let terrainTile := ext.decodeTile responseBytes
      let m :=
        if terrainTile.isValid then
          if !(m._tiles hash).isSome then
            { m with _tiles := QHash.insert m._tiles hash terrainTile }
          else
            m
        else
          m
      _terrainDone.loop ext m._requestQueue.length m

/-- Whether an effect is the start of a tile fetch. -/
def Effect.isFetch : Effect → Bool
  | Effect.fetch _ => true
  | _ => false

/-- Whether the tile of a coordinate is in the cache: `_tiles.contains(_getTileHash(c))`. -/
def cached (ext : Externals) (tiles : String → Option TerrainTile) (c : QGeoCoordinate) : Bool :=
  (tiles (_getTileHash ext c)).isSome

/-- The elevation the cache gives for a coordinate, `_tiles[_getTileHash(c)].elevation(c)`
(NaN when the tile is not cached). -/
def elevationAt (ext : Externals) (tiles : String → Option TerrainTile) (c : QGeoCoordinate) :
    Double :=
  match tiles (_getTileHash ext c) with
  | some tile => tile.elevation c
  | none => Double.nan

/-- A queued request all of whose tiles are in the cache. -/
def resolvable (ext : Externals) (tiles : String → Option TerrainTile)
    (requestInfo : QueuedRequestInfo_t) : Bool :=
  requestInfo.coordinates.all (cached ext tiles)

/-- The signal `_terrainDone` emits for a resolvable request, computed from the cache. -/
def answer (ext : Externals) (tiles : String → Option TerrainTile)
    (requestInfo : QueuedRequestInfo_t) : List Effect :=
  _terrainDone.signal requestInfo
    (requestInfo.coordinates.any (fun c => qIsNaN (elevationAt ext tiles c)))
    (requestInfo.coordinates.map (elevationAt ext tiles))

/-- The failure notification of a queued request as the specification words it: `success=false`
with an empty height list, a path request also getting its stored spacing values. -/
def failureNotification (requestInfo : QueuedRequestInfo_t) : Effect :=
  match requestInfo.queryMode with
  | QueryMode.QueryModePath =>
    Effect._signalPathHeights requestInfo.terrainQueryInterface false
      requestInfo.distanceBetween requestInfo.finalDistanceBetween []
  | _ => Effect._signalCoordinateHeights requestInfo.terrainQueryInterface false []

/-- A tile for concrete evaluations: valid, the elevation at a coordinate is its latitude, except
at latitude 0 where the tile has no data. -/
def sampleTile : TerrainTile :=
  ⟨true, fun c => if c.latitude = Double.val 0 then Double.nan else c.latitude⟩

/-- Externals for concrete evaluations: longitude 0 lies in the tile with hash "A", every other
longitude in the tile with hash "B"; bytes starting with 1 decode to `sampleTile`, all others to
an invalid tile. -/
def sampleExt : Externals :=
  { getTileHash := fun _ x _ _ => if x = 0 then "A" else "B"
    long2tileX := fun _ lon _ => if lon = Double.val 0 then 0 else 1
    lat2tileY := fun _ _ _ => 0
    getIdFromType := fun _ => 0
    decodeTile := fun bytes =>
      if bytes.head? = some 1 then sampleTile else ⟨false, fun _ => Double.nan⟩ }

/-- A manager for concrete evaluations: Idle, nothing queued, the tile "A" cached. -/
def sampleManager : Manager :=
  { _state := State.Idle, _requestQueue := [],
    _tiles := fun key => if key = "A" then some sampleTile else none }

/-- The manager as constructed: Idle, nothing queued, nothing cached. -/
def init : Manager :=
  { _state := State.Idle, _requestQueue := [], _tiles := fun _ => none }

end TerrainTileManager

/-! ## Arithmetic on doubles

The path discretization computes with doubles.  Here arithmetic is exact on values and NaN is
absorbing; the rounding of each operation is added in `TerrainTileManager.Rounded` below, for
the values of the interpolated points. -/

/-- The sum `a + b`. -/
def Double.add : Double → Double → Double
  | Double.val a, Double.val b => Double.val (a + b)
  | _, _ => Double.nan

/-- The difference `a - b`. -/
def Double.sub : Double → Double → Double
  | Double.val a, Double.val b => Double.val (a - b)
  | _, _ => Double.nan

/-- The product `a * b`. -/
def Double.mul : Double → Double → Double
  | Double.val a, Double.val b => Double.val (a * b)
  | _, _ => Double.nan

/-- The quotient `a / b`.  A zero divisor reads as NaN; the divisors the source uses are counts
that are not 0. -/
def Double.div : Double → Double → Double
  | Double.val a, Double.val b => if b = 0 then Double.nan else Double.val (a / b)
  | _, _ => Double.nan

instance : Add Double := ⟨Double.add⟩

instance : Sub Double := ⟨Double.sub⟩

instance : Mul Double := ⟨Double.mul⟩

instance : Div Double := ⟨Double.div⟩

/-- The comparison `a < b`, false when an operand is NaN. -/
def Double.lt : Double → Double → Bool
  | Double.val a, Double.val b => decide (a < b)
  | _, _ => false

/-- The comparison `a > b`, false when an operand is NaN. -/
def Double.gt (a b : Double) : Bool := Double.lt b a

/-- Qt's `qCeil`. -/
def qCeil (v : Rat) : Int := ⌈v⌉

/-- What `pathQueryToCoords` takes from outside `TerrainQuery.cc`: `QGeoCoordinate::distanceTo`
(`distanceTo a b` is `a.distanceTo(b)`, in metres) and the constant
`TerrainTile::tileValueSpacingMeters`.  As Qt documents it, `distanceTo` returns a number that is
not negative, and 0 when one of the two coordinates is invalid (here: has a NaN component); the
tile spacing is positive. -/
structure Geodesy where
  distanceTo : QGeoCoordinate → QGeoCoordinate → Rat
  tileValueSpacingMeters : Rat
  distanceTo_nonneg : ∀ a b, 0 ≤ distanceTo a b
  distanceTo_invalid : ∀ a b,
    (a.latitude = Double.nan ∨ a.longitude = Double.nan ∨
      b.latitude = Double.nan ∨ b.longitude = Double.nan) → distanceTo a b = 0
  tileValueSpacingMeters_pos : 0 < tileValueSpacingMeters

/-- The assignment `coordinates.last() = x` (a list with no last element is left as it is). -/
def QList.setLast {α : Type} (l : List α) (x : α) : List α :=
  match l with
  | [] => []
  | _ :: _ => l.dropLast ++ [x]

namespace TerrainTileManager

/-- The value `coordinates[i].distanceTo(coordinates[j])` (NaN when an index is outside the
list). -/
def distanceAt (g : Geodesy) (coordinates : List QGeoCoordinate) (i j : Nat) : Double :=
  match coordinates[i]?, coordinates[j]? with
  | some a, some b => Double.val (g.distanceTo a b)
  | _, _ => Double.nan

/-- `TerrainTileManager::pathQueryToCoords`: the coordinates along the path, `distanceBetween`
and `finalDistanceBetween`.  `steps` is a count: the quotient of a distance that is not negative
by a positive spacing has a ceiling that is not negative. -/
def pathQueryToCoords (g : Geodesy) (fromCoord toCoord : QGeoCoordinate) :
    List QGeoCoordinate × Double × Double :=
  let lat := fromCoord.latitude
  let lon := fromCoord.longitude
  let steps : Nat := (qCeil (g.distanceTo toCoord fromCoord / g.tileValueSpacingMeters)).toNat
  let latDiff := toCoord.latitude - lat
  let lonDiff := toCoord.longitude - lon
  if steps = 0 then
    let coordinates := [fromCoord, toCoord]
    (coordinates, distanceAt g coordinates 0 1, distanceAt g coordinates 0 1)
  else
    let coordinates := (List.range (steps + 1)).map (fun (i : Nat) =>
      QGeoCoordinate.mk (lat + latDiff * Double.val (i : Rat) / Double.val (steps : Rat))
        (lon + lonDiff * Double.val (i : Rat) / Double.val (steps : Rat)))
    let coordinates := QList.setLast coordinates toCoord
    (coordinates, distanceAt g coordinates 0 1,
      distanceAt g coordinates (coordinates.length - 2) (coordinates.length - 1))

/-- `TerrainTileManager::addPathQuery`. -/
def addPathQuery (ext : Externals) (g : Geodesy) (m : Manager)
    (terrainQueryInterface : QObjectPtr) (startPoint endPoint : QGeoCoordinate) :
    Manager × List Effect :=
  let p := pathQueryToCoords g startPoint endPoint
  let coordinates := p.1
  let distanceBetween := p.2.1
  let finalDistanceBetween := p.2.2
  let r := getAltitudesForCoordinates ext m coordinates []
  if !r.ret then
    ({ r.manager with
        _requestQueue := r.manager._requestQueue ++
          [⟨terrainQueryInterface, QueryMode.QueryModePath, distanceBetween,
            finalDistanceBetween, coordinates⟩] },
      r.effects)
  else if r.error then
    (r.manager, r.effects ++ [Effect._signalPathHeights terrainQueryInterface false
      distanceBetween finalDistanceBetween []])
  else
    (r.manager, r.effects ++ [Effect._signalPathHeights terrainQueryInterface
      (coordinates.length == r.altitudes.length) distanceBetween finalDistanceBetween
      r.altitudes])

/-- A geodesy for concrete evaluations: two valid, different coordinates are 20 m apart when
they have the same longitude and 60 m apart otherwise; the tile spacing is 30 m. -/
def sampleGeodesy : Geodesy where
  distanceTo a b :=
    if a.latitude = Double.nan ∨ a.longitude = Double.nan ∨
        b.latitude = Double.nan ∨ b.longitude = Double.nan then 0
    else if a = b then 0
    else if a.longitude = b.longitude then 20
    else 60
  tileValueSpacingMeters := 30
  distanceTo_nonneg := by
    intro a b
    dsimp only
    split_ifs <;> norm_num
  distanceTo_invalid := by
    intro a b h
    dsimp only
    rw [if_pos h]
  tileValueSpacingMeters_pos := by norm_num

end TerrainTileManager

/-! ## The query classes -/

/-- The signals of `TerrainQueryInterface`. -/
inductive Signal where
  | coordinateHeightsReceived (success : Bool) (heights : List Double) : Signal
  | pathHeightsReceived (success : Bool) (distanceBetween finalDistanceBetween : Double)
      (heights : List Double) : Signal
  | carpetHeightsReceived (success : Bool) (minHeight maxHeight : Double)
      (carpet : List (List Double)) : Signal
deriving DecidableEq, Repr

/-- The value `std::numeric_limits<double>::max()`, the largest finite double. -/
def DBL_MAX : Rat := (2 ^ 53 - 1) * 2 ^ 971

/-- The value `std::numeric_limits<double>::min()`, the smallest positive normal double. -/
def DBL_MIN : Rat := 1 / 2 ^ 1022

/-- Qt's `qMin(a, b)`, which is `(a < b) ? a : b`. -/
def qMin (a b : Double) : Double := if Double.lt a b then a else b

/-- Qt's `qMax(a, b)`, which is `(a < b) ? b : a`. -/
def qMax (a b : Double) : Double := if Double.lt a b then b else a

namespace UnitTestTerrainQuery

/-- A signal emitted by a `UnitTestTerrainQuery` object: through its parent, the query object that
created it (`emit qobject_cast<TerrainQueryInterface*>(parent())->...`), or as a signal of the
`UnitTestTerrainQuery` object itself. -/
inductive Emission where
  | onParent (s : Signal) : Emission
  | onSelf (s : Signal) : Emission
deriving DecidableEq, Repr

/-- The `UnitTestTerrainQuery::PathHeightInfo_t`. -/
structure PathHeightInfo_t where
  rgCoords : List QGeoCoordinate
  rgHeights : List Double
  distanceBetween : Double
  finalDistanceBetween : Double
deriving DecidableEq, Repr

/-- `UnitTestTerrainQuery::_requestPathHeights`.  `heightsOf` stands for
`UnitTestTerrainQuery::_requestCoordinateHeights`, the synthetic terrain, whose regions are
declared in the header and whose heights are computed with `std::round`, `pow` and `sqrt`; it is
a parameter. -/
def _requestPathHeights (g : Geodesy) (heightsOf : List QGeoCoordinate → List Double)
    (fromCoord toCoord : QGeoCoordinate) : PathHeightInfo_t :=
  let p := TerrainTileManager.pathQueryToCoords g fromCoord toCoord
  { rgCoords := p.1, rgHeights := heightsOf p.1, distanceBetween := p.2.1,
    finalDistanceBetween := p.2.2 }

/-- `UnitTestTerrainQuery::requestCoordinateHeights`. -/
def requestCoordinateHeights (heightsOf : List QGeoCoordinate → List Double)
    (coordinates : List QGeoCoordinate) : List Emission :=
  let result := heightsOf coordinates
  [Emission.onParent (Signal.coordinateHeightsReceived (result.length == coordinates.length)
    result)]

/-- `UnitTestTerrainQuery::requestPathHeights`. -/
def requestPathHeights (g : Geodesy) (heightsOf : List QGeoCoordinate → List Double)
    (fromCoord toCoord : QGeoCoordinate) : List Emission :=
  let pathHeightInfo := _requestPathHeights g heightsOf fromCoord toCoord
  [Emission.onParent (Signal.pathHeightsReceived (pathHeightInfo.rgHeights.length > 0)
    pathHeightInfo.distanceBetween pathHeightInfo.finalDistanceBetween
    pathHeightInfo.rgHeights)]

/-- The number of times the loop `for (double lat = sw.latitude(); lat < ne.latitude(); lat++)`
runs its body when no row is empty, with `lat++` exact. -/
def requestCarpetHeights.rows (swLatitude neLatitude : Double) : Nat :=
  match swLatitude, neLatitude with
  | Double.val a, Double.val b => (⌈b - a⌉).toNat
  | _, _ => 0

/-- The inner loop `for (const auto val : row)` of `requestCarpetHeights` with its two
accumulators `min` and `max`. -/
def requestCarpetHeights.minMax : List Double → Double → Double → Double × Double
  | [], min, max => (min, max)
  | val :: rest, min, max => requestCarpetHeights.minMax rest (qMin val min) (qMax val max)

/-- The loop of `requestCarpetHeights` over the latitudes; the first argument bounds the number of
rows left, `lat`, `min`, `max` and `carpet` are the variables of the source. -/
def requestCarpetHeights.loop (g : Geodesy) (heightsOf : List QGeoCoordinate → List Double)
    (swCoord neCoord : QGeoCoordinate) :
    Nat → Double → Double → Double → List (List Double) → List Emission
  | 0, _, min, max, carpet =>
    [Emission.onParent (Signal.carpetHeightsReceived true min max carpet)]
  | n + 1, lat, min, max, carpet =>
    if Double.lt lat neCoord.latitude then
      let fromCoord : QGeoCoordinate := ⟨lat, swCoord.longitude⟩
      let toCoord : QGeoCoordinate := ⟨lat, neCoord.longitude⟩
      let row := (_requestPathHeights g heightsOf fromCoord toCoord).rgHeights
      if row.length = 0 then
        [Emission.onSelf (Signal.carpetHeightsReceived false Double.nan Double.nan [])]
      else
        let mm := requestCarpetHeights.minMax row min max
        requestCarpetHeights.loop g heightsOf swCoord neCoord n (lat + Double.val 1) mm.1 mm.2
          (carpet ++ [row])
    else
      [Emission.onParent (Signal.carpetHeightsReceived true min max carpet)]

/-- `UnitTestTerrainQuery::requestCarpetHeights`. -/
def requestCarpetHeights (g : Geodesy) (heightsOf : List QGeoCoordinate → List Double)
    (swCoord neCoord : QGeoCoordinate) (_statsOnly : Bool) : List Emission :=
  if Double.gt swCoord.longitude neCoord.longitude ||
      Double.gt swCoord.latitude neCoord.latitude then
    [Emission.onParent (Signal.carpetHeightsReceived false Double.nan Double.nan [])]
  else
    requestCarpetHeights.loop g heightsOf swCoord neCoord
      (requestCarpetHeights.rows swCoord.latitude neCoord.latitude) swCoord.latitude
      (Double.val DBL_MAX) (Double.val DBL_MIN) []

end UnitTestTerrainQuery

namespace TerrainAirMapQuery

/-- The `enum QueryMode` of a remote query. -/
inductive QueryMode where
  | QueryModeCoordinates : QueryMode
  | QueryModePath : QueryMode
  | QueryModeCarpet : QueryMode
deriving DecidableEq, Repr

/-- The fields of a `TerrainAirMapQuery` that `TerrainQuery.cc` assigns. -/
structure Query where
  _queryMode : QueryMode
  _carpetStatsOnly : Bool
deriving DecidableEq, Repr

/-- What a `TerrainAirMapQuery` does to the outside: the emissions of the `UnitTestTerrainQuery`
it delegates to when unit tests are running, and `_sendQuery(path, urlQuery)`, the network
request, whose `points` item is kept as the list of coordinates it is printed from. -/
inductive Effect where
  | unitTest (e : UnitTestTerrainQuery.Emission) : Effect
  | _sendQuery (path : String) (points : List QGeoCoordinate) : Effect
deriving DecidableEq, Repr

/-- `TerrainAirMapQuery::requestCoordinateHeights`; `runningUnitTests` is
`qgcApp()->runningUnitTests()`. -/
def requestCoordinateHeights (runningUnitTests : Bool)
    (heightsOf : List QGeoCoordinate → List Double) (q : Query)
    (coordinates : List QGeoCoordinate) : Query × List Effect :=
  if runningUnitTests then
    (q, (UnitTestTerrainQuery.requestCoordinateHeights heightsOf coordinates).map
      Effect.unitTest)
  else
    ({ q with _queryMode := QueryMode.QueryModeCoordinates },
      [Effect._sendQuery "" coordinates])

/-- `TerrainAirMapQuery::requestPathHeights`. -/
def requestPathHeights (runningUnitTests : Bool) (g : Geodesy)
    (heightsOf : List QGeoCoordinate → List Double) (q : Query)
    (fromCoord toCoord : QGeoCoordinate) : Query × List Effect :=
  if runningUnitTests then
    (q, (UnitTestTerrainQuery.requestPathHeights g heightsOf fromCoord toCoord).map
      Effect.unitTest)
  else
    ({ q with _queryMode := QueryMode.QueryModePath },
      [Effect._sendQuery "/path" [fromCoord, toCoord]])

/-- `TerrainAirMapQuery::requestCarpetHeights`. -/
def requestCarpetHeights (runningUnitTests : Bool) (g : Geodesy)
    (heightsOf : List QGeoCoordinate → List Double) (q : Query)
    (swCoord neCoord : QGeoCoordinate) (statsOnly : Bool) : Query × List Effect :=
  if runningUnitTests then
    (q, (UnitTestTerrainQuery.requestCarpetHeights g heightsOf swCoord neCoord statsOnly).map
      Effect.unitTest)
  else
    ({ _queryMode := QueryMode.QueryModeCarpet, _carpetStatsOnly := statsOnly },
      [Effect._sendQuery "/carpet" [swCoord, neCoord]])

end TerrainAirMapQuery

namespace TerrainOfflineAirMapQuery

/-- What a `TerrainOfflineAirMapQuery` does to the outside: what the tile manager it calls does,
and the emissions of the `UnitTestTerrainQuery` it delegates to when unit tests are running. -/
inductive Effect where
  | tileManager (e : TerrainTileManager.Effect) : Effect
  | unitTest (e : UnitTestTerrainQuery.Emission) : Effect
deriving DecidableEq, Repr

/-- `TerrainOfflineAirMapQuery::requestCoordinateHeights`; `this` is the query object and `m`
the tile manager `_terrainTileManager()`. -/
def requestCoordinateHeights (runningUnitTests : Bool) (ext : Externals)
    (heightsOf : List QGeoCoordinate → List Double) (m : TerrainTileManager.Manager)
    (this : QObjectPtr) (coordinates : List QGeoCoordinate) :
    TerrainTileManager.Manager × List Effect :=
  if runningUnitTests then
    (m, (UnitTestTerrainQuery.requestCoordinateHeights heightsOf coordinates).map
      Effect.unitTest)
  else if coordinates.length = 0 then
    (m, [])
  else
    let r := TerrainTileManager.addCoordinateQuery ext m this coordinates
    (r.1, r.2.map Effect.tileManager)

/-- `TerrainOfflineAirMapQuery::requestPathHeights`. -/
def requestPathHeights (runningUnitTests : Bool) (ext : Externals) (g : Geodesy)
    (heightsOf : List QGeoCoordinate → List Double) (m : TerrainTileManager.Manager)
    (this : QObjectPtr) (fromCoord toCoord : QGeoCoordinate) :
    TerrainTileManager.Manager × List Effect :=
  if runningUnitTests then
    (m, (UnitTestTerrainQuery.requestPathHeights g heightsOf fromCoord toCoord).map
      Effect.unitTest)
  else
    let r := TerrainTileManager.addPathQuery ext g m this fromCoord toCoord
    (r.1, r.2.map Effect.tileManager)

/-- `TerrainOfflineAirMapQuery::requestCarpetHeights`: outside unit tests it only logs that
carpet queries are not supported from offline data. -/
def requestCarpetHeights (runningUnitTests : Bool) (g : Geodesy)
    (heightsOf : List QGeoCoordinate → List Double) (m : TerrainTileManager.Manager)
    (swCoord neCoord : QGeoCoordinate) (statsOnly : Bool) :
    TerrainTileManager.Manager × List Effect :=
  if runningUnitTests then
    (m, (UnitTestTerrainQuery.requestCarpetHeights g heightsOf swCoord neCoord statsOnly).map
      Effect.unitTest)
  else
    (m, [])

end TerrainOfflineAirMapQuery

namespace TerrainAtCoordinateQuery

/-- `TerrainAtCoordinateQuery::requestData`; `this` is the query object and `m` the batch manager
`_TerrainAtCoordinateBatchManager()`. -/
def requestData (m : TerrainAtCoordinateBatchManager.Manager) (this : QObjectPtr)
    (coordinates : List QGeoCoordinate) : TerrainAtCoordinateBatchManager.Manager :=
  if coordinates.length = 0 then
    m
  else
    TerrainAtCoordinateBatchManager.addQuery m this coordinates

/-- `TerrainAtCoordinateQuery::getAltitudesForCoordinates`, which hands the call on to the tile
manager. -/
def getAltitudesForCoordinates (ext : Externals) (m : TerrainTileManager.Manager)
    (coordinates : List QGeoCoordinate) (altitudes : List Double) :
    TerrainTileManager.GetAltitudesResult :=
  TerrainTileManager.getAltitudesForCoordinates ext m coordinates altitudes

end TerrainAtCoordinateQuery

/-- A synthetic terrain for concrete evaluations: 10 m at every coordinate. -/
def sampleTerrain (coordinates : List QGeoCoordinate) : List Double :=
  coordinates.map (fun _ => Double.val 10)

namespace TerrainPathQuery

/-- The `TerrainPathQuery::PathHeightInfo_t`. -/
structure PathHeightInfo_t where
  distanceBetween : Double
  finalDistanceBetween : Double
  heights : List Double
deriving DecidableEq, Repr

/-- What a `TerrainPathQuery` does to the outside. -/
inductive Effect where
  /-- The call `_terrainQuery.requestPathHeights(fromCoord, toCoord)`. -/
  | requestPathHeights (fromCoord toCoord : QGeoCoordinate) : Effect
  /-- The signal `terrainDataReceived(success, pathHeightInfo)`. -/
  | terrainDataReceived (success : Bool) (pathHeightInfo : PathHeightInfo_t) : Effect
  | deleteLater : Effect
deriving DecidableEq, Repr

/-- `TerrainPathQuery::requestData`. -/
def requestData (fromCoord toCoord : QGeoCoordinate) : List Effect :=
  [Effect.requestPathHeights fromCoord toCoord]

/-- `TerrainPathQuery::_pathHeights`. -/
def _pathHeights (_autoDelete : Bool) (success : Bool)
    (distanceBetween finalDistanceBetween : Double) (heights : List Double) : List Effect :=
  Effect.terrainDataReceived success ⟨distanceBetween, finalDistanceBetween, heights⟩ ::
    (if _autoDelete then [Effect.deleteLater] else [])

end TerrainPathQuery

namespace TerrainPolyPathQuery

/-- The fields of a `TerrainPolyPathQuery`. -/
structure Query where
  _autoDelete : Bool
  _rgCoords : List QGeoCoordinate
  _curIndex : Nat
  _rgPathHeightInfo : List TerrainPathQuery.PathHeightInfo_t
deriving DecidableEq, Repr

/-- What a `TerrainPolyPathQuery` does to the outside. -/
inductive Effect where
  /-- The call `_pathQuery.requestData(_rgCoords[i], _rgCoords[i+1])`; an index outside the list
  reads as `none`. -/
  | pathQuery_requestData (fromCoord toCoord : Option QGeoCoordinate) : Effect
  /-- The signal `terrainDataReceived(success, _rgPathHeightInfo)`. -/
  | terrainDataReceived (success : Bool)
      (rgPathHeightInfo : List TerrainPathQuery.PathHeightInfo_t) : Effect
  | deleteLater : Effect
deriving DecidableEq, Repr

/-- The object as constructed. -/
def init (autoDelete : Bool) : Query :=
  { _autoDelete := autoDelete, _rgCoords := [], _curIndex := 0, _rgPathHeightInfo := [] }

/-- `TerrainPolyPathQuery::requestData(const QList<QGeoCoordinate>&)`. -/
def requestData (q : Query) (polyPath : List QGeoCoordinate) : Query × List Effect :=
  let q := { q with _rgCoords := polyPath, _curIndex := 0 }
  (q, [Effect.pathQuery_requestData q._rgCoords[0]? q._rgCoords[1]?])

/-- `TerrainPolyPathQuery::_terrainDataReceived`, the slot that receives the result of the
segment query. -/
def _terrainDataReceived (q : Query) (success : Bool)
    (pathHeightInfo : TerrainPathQuery.PathHeightInfo_t) : Query × List Effect :=
  if !success then
    let q := { q with _rgPathHeightInfo := [] }
    (q, [Effect.terrainDataReceived false q._rgPathHeightInfo])
  else
    let q := { q with _rgPathHeightInfo := q._rgPathHeightInfo ++ [pathHeightInfo] }
    let q := { q with _curIndex := q._curIndex + 1 }
    if (q._curIndex : Int) ≥ (q._rgCoords.length : Int) - 1 then
      (q, Effect.terrainDataReceived true q._rgPathHeightInfo ::
        (if q._autoDelete then [Effect.deleteLater] else []))
    else
      (q, [Effect.pathQuery_requestData q._rgCoords[q._curIndex]?
        q._rgCoords[q._curIndex + 1]?])

/-- The segment results delivered one after the other: the object afterwards and what it did at
each delivery. -/
def deliverAll (q : Query) :
    List (Bool × TerrainPathQuery.PathHeightInfo_t) → Query × List (List Effect)
  | [] => (q, [])
  | result :: rest =>
    let r := _terrainDataReceived q result.1 result.2
    let k := deliverAll r.1 rest
    (k.1, r.2 :: k.2)

end TerrainPolyPathQuery

namespace TerrainTileManager

/-- The notification of a request that has become resolvable, as the specification words it:
`(true, one altitude per coordinate)` when no elevation is NaN and `(false, empty heights)`
otherwise, a path request carrying its stored spacing values. -/
def retryNotification (ext : Externals) (tiles : String → Option TerrainTile)
    (requestInfo : QueuedRequestInfo_t) : Effect :=
  let noData := requestInfo.coordinates.any (fun c => qIsNaN (elevationAt ext tiles c))
  let heights := if noData then [] else requestInfo.coordinates.map (elevationAt ext tiles)
  match requestInfo.queryMode with
  | QueryMode.QueryModePath =>
    Effect._signalPathHeights requestInfo.terrainQueryInterface (!noData)
      requestInfo.distanceBetween requestInfo.finalDistanceBetween heights
  | _ => Effect._signalCoordinateHeights requestInfo.terrainQueryInterface (!noData) heights

end TerrainTileManager

/-- A `QJsonValue`; a `QJsonArray` is the list of its values and a `QJsonObject` the list of its
keys with their values. -/
inductive QJsonValue where
  | null : QJsonValue
  | bool (b : Bool) : QJsonValue
  | double (d : Double) : QJsonValue
  | string (s : String) : QJsonValue
  | array (a : List QJsonValue) : QJsonValue
  | object (o : List (String × QJsonValue)) : QJsonValue
  | undefined : QJsonValue

/-- `QJsonValue::toArray()`: the array, or an empty array when the value is not an array. -/
def QJsonValue.toArray : QJsonValue → List QJsonValue
  | QJsonValue.array a => a
  | _ => []

/-- `QJsonValue::toObject()`: the object, or an empty object when the value is not an object. -/
def QJsonValue.toObject : QJsonValue → List (String × QJsonValue)
  | QJsonValue.object o => o
  | _ => []

/-- `QJsonValue::toDouble()`: the number, or 0 when the value is not a number. -/
def QJsonValue.toDouble : QJsonValue → Double
  | QJsonValue.double d => d
  | _ => Double.val 0

/-- `QJsonValue::toString()`: the string, or the empty string when the value is not a string. -/
def QJsonValue.toString : QJsonValue → String
  | QJsonValue.string s => s
  | _ => ""

/-- `QJsonObject::operator[](key)`: the value of the key, `Undefined` when the key is absent. -/
def QJsonObject.value (o : List (String × QJsonValue)) (key : String) : QJsonValue :=
  match o.lookup key with
  | some v => v
  | none => QJsonValue.undefined

/-- `QJsonArray::operator[](i)`: the value at the index, `Undefined` when it is out of bounds. -/
def QJsonArray.at (a : List QJsonValue) (i : Nat) : QJsonValue :=
  match a[i]? with
  | some v => v
  | none => QJsonValue.undefined

namespace TerrainAirMapQuery

/-- `TerrainAirMapQuery::_requestFailed`: the signals it emits. -/
def _requestFailed (q : Query) : List Signal :=
  match q._queryMode with
  | QueryMode.QueryModeCoordinates => [Signal.coordinateHeightsReceived false []]
  | QueryMode.QueryModePath =>
    [Signal.pathHeightsReceived false Double.nan Double.nan []]
  | QueryMode.QueryModeCarpet =>
    [Signal.carpetHeightsReceived false Double.nan Double.nan []]

/-- `TerrainAirMapQuery::_parseCoordinateData`. -/
def _parseCoordinateData (coordinateJson : QJsonValue) : List Signal :=
  let dataArray := coordinateJson.toArray
  let heights := dataArray.map QJsonValue.toDouble
  [Signal.coordinateHeightsReceived true heights]

/-- `TerrainAirMapQuery::_parsePathData`. -/
def _parsePathData (pathJson : QJsonValue) : List Signal :=
  let jsonObject := (QJsonArray.at pathJson.toArray 0).toObject
  let stepArray := (QJsonObject.value jsonObject "step").toArray
  let profileArray := (QJsonObject.value jsonObject "profile").toArray
  let latStep := (QJsonArray.at stepArray 0).toDouble
  let lonStep := (QJsonArray.at stepArray 1).toDouble
  let heights := profileArray.map QJsonValue.toDouble
  [Signal.pathHeightsReceived true latStep lonStep heights]

/-- `TerrainAirMapQuery::_parseCarpetData`. -/
def _parseCarpetData (q : Query) (carpetJson : QJsonValue) : List Signal :=
  let jsonObject := (QJsonArray.at carpetJson.toArray 0).toObject
  let statsObject := (QJsonObject.value jsonObject "stats").toObject
  let minHeight := (QJsonObject.value statsObject "min").toDouble
  let maxHeight := (QJsonObject.value statsObject "max").toDouble
  let carpet :=
    if !q._carpetStatsOnly then
      (QJsonObject.value jsonObject "carpet").toArray.map
        (fun rowArray => rowArray.toArray.map QJsonValue.toDouble)
    else
      []
  [Signal.carpetHeightsReceived true minHeight maxHeight carpet]

/-- `TerrainAirMapQuery::_requestFinished`: the signals it emits.  `replyError` is
`reply->error()` and `responseBytes` is `reply->readAll()`; `fromJson` stands for
`QJsonDocument::fromJson`, giving the document, or `none` when it reports a parse error. -/
def _requestFinished (fromJson : QByteArray → Option QJsonValue) (q : Query)
    (replyError : NetworkError) (responseBytes : QByteArray) : List Signal :=
  if replyError ≠ NetworkError.NoError then
    _requestFailed q
  else
    match fromJson responseBytes with
    | none => _requestFailed q
    | some responseJson =>
      let rootObject := responseJson.toObject
      let status := (QJsonObject.value rootObject "status").toString
      if status ≠ "success" then
        _requestFailed q
      else
        let jsonData := QJsonObject.value rootObject "data"
        match q._queryMode with
        | QueryMode.QueryModeCoordinates => _parseCoordinateData jsonData
        | QueryMode.QueryModePath => _parsePathData jsonData
        | QueryMode.QueryModeCarpet => _parseCarpetData q jsonData

/-- A JSON reader for concrete evaluations: the bytes `[1]` read as `{"status": "success"}`, the
bytes `[2]` as `{"status": "error"}`, all others are not JSON. -/
def sampleFromJson (bytes : QByteArray) : Option QJsonValue :=
  if bytes = [1] then some (QJsonValue.object [("status", QJsonValue.string "success")])
  else if bytes = [2] then some (QJsonValue.object [("status", QJsonValue.string "error")])
  else none

end TerrainAirMapQuery

namespace TerrainAtCoordinateBatchManager

/-- Whether an effect is a request handed to the provider. -/
def Effect.isRequest : Effect → Bool
  | Effect.requestCoordinateHeights _ => true
  | _ => false

/-- The coalescer together with the number of provider requests it has issued that are not yet
answered. -/
structure System where
  manager : Manager
  outstanding : Nat
deriving DecidableEq, Repr

/-- What happens to the coalescer: a submission, the firing of the batch timer, the provider's
answer to an outstanding request, the notification that a caller was destroyed. -/
inductive Event where
  | addQuery (terrainAtCoordinateQuery : QObjectPtr) (coordinates : List QGeoCoordinate) : Event
  | timeout : Event
  | coordinateHeights (success : Bool) (heights : List Double) : Event
  | queryObjectDestroyed (terrainAtCoordinateQuery : QObjectPtr) : Event
deriving DecidableEq, Repr

/-- One event; an answer can only arrive while a request is outstanding. -/
def step (s : System) : Event → Option System
  | Event.addQuery c coordinates => some ⟨addQuery s.manager c coordinates, s.outstanding⟩
  | Event.timeout =>
    some ⟨(timeout s.manager).1,
      s.outstanding + ((timeout s.manager).2.filter Effect.isRequest).length⟩
  | Event.coordinateHeights success heights =>
    if 0 < s.outstanding then
      some ⟨(_coordinateHeights s.manager success heights).1, s.outstanding - 1⟩
    else
      none
  | Event.queryObjectDestroyed c => some ⟨_queryObjectDestroyed s.manager c, s.outstanding⟩

/-- The events one after the other. -/
def run : System → List Event → Option System
  | s, [] => some s
  | s, e :: rest =>
    match step s e with
    | some s' => run s' rest
    | none => none

/-- The destruction of a caller as Qt delivers it: `_queryObjectDestroyed` runs only when a
connection from the caller's `destroyed` signal exists, and the caller's connections are gone
afterwards. -/
def callerDestroyed (m : Manager) (c : QObjectPtr) : Manager :=
  if c ∈ m._destroyedConnections then
    { _queryObjectDestroyed m c with
      _destroyedConnections := disconnect m._destroyedConnections c }
  else
    m

end TerrainAtCoordinateBatchManager

namespace TerrainTileManager

/-- The tiles whose fetch is started by the effects. -/
def fetches : List Effect → List QGeoTileSpec
  | [] => []
  | Effect.fetch spec :: rest => spec :: fetches rest
  | _ :: rest => fetches rest

/-- The tile manager together with the fetches it has started that have not yet completed. -/
structure System where
  manager : Manager
  outstanding : List QGeoTileSpec

/-- What happens to the tile manager: the three calls from outside and the completion of an
outstanding fetch. -/
inductive Event where
  | addCoordinateQuery (terrainQueryInterface : QObjectPtr)
      (coordinates : List QGeoCoordinate) : Event
  | addPathQuery (terrainQueryInterface : QObjectPtr) (startPoint endPoint : QGeoCoordinate) :
      Event
  | getAltitudesForCoordinates (coordinates : List QGeoCoordinate) (altitudes : List Double) :
      Event
  | terrainDone (spec : QGeoTileSpec) (responseBytes : QByteArray) (error : NetworkError) : Event

/-- One event; only an outstanding fetch can complete, and its reply is the sender of
`_terrainDone`. -/
def step (ext : Externals) (g : Geodesy) (s : System) : Event → Option System
  | Event.addCoordinateQuery c coordinates =>
    let r := addCoordinateQuery ext s.manager c coordinates
    some ⟨r.1, s.outstanding ++ fetches r.2⟩
  | Event.addPathQuery c startPoint endPoint =>
    let r := addPathQuery ext g s.manager c startPoint endPoint
    some ⟨r.1, s.outstanding ++ fetches r.2⟩
  | Event.getAltitudesForCoordinates coordinates altitudes =>
    let r := getAltitudesForCoordinates ext s.manager coordinates altitudes
    some ⟨r.manager, s.outstanding ++ fetches r.effects⟩
  | Event.terrainDone spec responseBytes error =>
    if spec ∈ s.outstanding then
      let r := _terrainDone ext s.manager (some spec) responseBytes error
      some ⟨r.1, s.outstanding.erase spec ++ fetches r.2⟩
    else
      none

/-- The events one after the other. -/
def run (ext : Externals) (g : Geodesy) : System → List Event → Option System
  | s, [] => some s
  | s, e :: rest =>
    match step ext g s e with
    | some s' => run ext g s' rest
    | none => none

end TerrainTileManager

/-- A terrain for concrete evaluations that lies below sea level: every coordinate has the height
-5. -/
def sampleNegativeTerrain (coordinates : List QGeoCoordinate) : List Double :=
  coordinates.map (fun _ => Double.val (-5))

/-! ## The path discretization with rounded arithmetic

The processor rounds the result of every operation on doubles to a double.  `Rounding` is that
rounding, a parameter; with it `pathQueryToCoords` is embedded once more, every operation of the
source rounded where the source rounds it.  Overflow is not modelled: the operands are latitudes,
longitudes, counts below 2^31 and their products. -/

/-- The rounding of the operations on doubles: `round q` is the double the processor returns
when the exact result of an operation is `q`.  Zero is a double, and rounding keeps the order. -/
structure Rounding where
  round : Rat → Rat
  round_zero : round 0 = 0
  round_mono : ∀ a b, a ≤ b → round a ≤ round b

namespace Rounding

/-- The sum `a + b` as the processor computes it. -/
def add (r : Rounding) : Double → Double → Double
  | Double.val a, Double.val b => Double.val (r.round (a + b))
  | _, _ => Double.nan

/-- The difference `a - b` as the processor computes it. -/
def sub (r : Rounding) : Double → Double → Double
  | Double.val a, Double.val b => Double.val (r.round (a - b))
  | _, _ => Double.nan

/-- The product `a * b` as the processor computes it. -/
def mul (r : Rounding) : Double → Double → Double
  | Double.val a, Double.val b => Double.val (r.round (a * b))
  | _, _ => Double.nan

/-- The quotient `a / b` as the processor computes it.  A zero divisor reads as NaN; the divisors
the source uses are counts that are not 0. -/
def div (r : Rounding) : Double → Double → Double
  | Double.val a, Double.val b => if b = 0 then Double.nan else Double.val (r.round (a / b))
  | _, _ => Double.nan

/-- No rounding: every result is kept as it is. -/
def exact : Rounding :=
  { round := fun q => q
    round_zero := rfl
    round_mono := fun _ _ h => h }

/-- A rounding for concrete evaluations: down to the next multiple of 1/8. -/
def sampleRounding : Rounding :=
  { round := fun q => (⌊q * 8⌋ : Rat) / 8
    round_zero := by norm_num
    round_mono := fun a b h => by
      have h8 : a * 8 ≤ b * 8 := by linarith
      have hf : (⌊a * 8⌋ : Rat) ≤ (⌊b * 8⌋ : Rat) := by exact_mod_cast Int.floor_mono h8
      exact div_le_div_of_nonneg_right hf (by norm_num) }

end Rounding

namespace TerrainTileManager

namespace Rounded

/-- `TerrainTileManager::pathQueryToCoords` with every operation on doubles rounded: the quotient
of the distance by the tile spacing, the two differences, and the product, the quotient and the
sum that make each interpolated latitude and longitude.  `steps` is the `int` that `qCeil`
returns, so it is stored in a double without rounding and the loop counter `i = i + 1` is exact;
it is not negative, since the rounded quotient of a distance by the spacing is not negative. -/
def pathQueryToCoords (r : Rounding) (g : Geodesy) (fromCoord toCoord : QGeoCoordinate) :
    List QGeoCoordinate × Double × Double :=
  let lat := fromCoord.latitude
  let lon := fromCoord.longitude
  let steps : Nat :=
    (qCeil (r.round (g.distanceTo toCoord fromCoord / g.tileValueSpacingMeters))).toNat
  let latDiff := r.sub toCoord.latitude lat
  let lonDiff := r.sub toCoord.longitude lon
  if steps = 0 then
    let coordinates := [fromCoord, toCoord]
    (coordinates, distanceAt g coordinates 0 1, distanceAt g coordinates 0 1)
  else
    let coordinates := (List.range (steps + 1)).map (fun (i : Nat) =>
      QGeoCoordinate.mk
        (r.add lat (r.div (r.mul latDiff (Double.val (i : Rat))) (Double.val (steps : Rat))))
        (r.add lon (r.div (r.mul lonDiff (Double.val (i : Rat))) (Double.val (steps : Rat)))))
    let coordinates := QList.setLast coordinates toCoord
    (coordinates, distanceAt g coordinates 0 1,
      distanceAt g coordinates (coordinates.length - 2) (coordinates.length - 1))

end Rounded

end TerrainTileManager

/-! ## Properties of the arithmetic on doubles and of lists -/

theorem Double.add_def (a b : Double) : a + b = Double.add a b := rfl

theorem Double.sub_def (a b : Double) : a - b = Double.sub a b := rfl

theorem Double.mul_def (a b : Double) : a * b = Double.mul a b := rfl

theorem Double.div_def (a b : Double) : a / b = Double.div a b := rfl

theorem QList.setLast_range_map {α : Type} (f : Nat → α) (n : Nat) (hn : n ≠ 0) (x : α) :
    (QList.setLast ((List.range (n + 1)).map f) x).length = n + 1 ∧
      (QList.setLast ((List.range (n + 1)).map f) x).head? = some (f 0) ∧
      (QList.setLast ((List.range (n + 1)).map f) x).getLast? = some x := by
  obtain ⟨k, rfl⟩ : ∃ k, n = k + 1 := ⟨n - 1, by omega⟩
  have hr : List.range (k + 1 + 1) = 0 :: 1 :: (List.range k).map (fun i => i + 2) := by
    rw [List.range_succ_eq_map, List.range_succ_eq_map]
    simp [Function.comp_def]
  have hlast : ∀ (a : α) (l : List α), (a :: (l ++ [x])).getLast? = some x := by
    intro a l
    have h := List.getLast?_concat (a :: l) (a := x)
    simpa using h
  rw [hr]
  simp [QList.setLast, List.dropLast, hlast]

theorem QList.setLast_concat {α : Type} (l : List α) (y x : α) :
    QList.setLast (l ++ [y]) x = l ++ [x] := by
  cases l with
  | nil => rfl
  | cons a t =>
    have h : (a :: t ++ [y]).dropLast = a :: t := List.dropLast_concat
    simp only [QList.setLast, List.cons_append] at h ⊢
    rw [h]
    rfl

theorem QList.setLast_range_map_eq {α : Type} (f : Nat → α) (n : Nat) (x : α) :
    QList.setLast ((List.range (n + 1)).map f) x = (List.range n).map f ++ [x] := by
  rw [List.range_succ, List.map_append, List.map_singleton, QList.setLast_concat]

theorem QList.setLast_range_map_getElem? {α : Type} (f : Nat → α) (n : Nat) (x : α) :
    (∀ i, i < n → (QList.setLast ((List.range (n + 1)).map f) x)[i]? = some (f i)) ∧
      (QList.setLast ((List.range (n + 1)).map f) x)[n]? = some x := by
  rw [QList.setLast_range_map_eq]
  constructor
  · intro i hi
    rw [List.getElem?_append_left (by simpa using hi)]
    simp [hi]
  · rw [List.getElem?_append_right (by simp)]
    simp

/-! ## Properties of TerrainAtCoordinateBatchManager -/

namespace TerrainAtCoordinateBatchManager

theorem foldl_addQuery (subs : List (QObjectPtr × List QGeoCoordinate))
    (hne : ∀ s ∈ subs, s.2 ≠ []) (m : Manager) :
    submitAll m subs =
      { m with
        _destroyedConnections := m._destroyedConnections ++ subs.map (fun s => s.1)
        _requestQueue := m._requestQueue ++ subs.map toQueued
        _batchTimerActive := if subs = [] then m._batchTimerActive else true } := by
  unfold submitAll
  induction subs generalizing m with
  | nil => simp
  | cons s rest ih =>
    have hs : s.2 ≠ [] := hne s (List.mem_cons_self _ _)
    have hpos : s.2.length > 0 := List.length_pos.mpr hs
    rw [List.foldl_cons, ih (fun t ht => hne t (List.mem_cons_of_mem _ ht))]
    simp [addQuery, hpos, toQueued]

theorem sendNextBatch_loop_under_cap (q : List QueuedRequestInfo_t)
    (sent : List SentRequestInfo_t) (coords : List QGeoCoordinate) (n : Nat)
    (h : coords.length + (q.flatMap (fun r => r.coordinates)).length ≤ 50) :
    _sendNextBatch.loop q sent coords n =
      (sent ++ q.map toSent, coords ++ q.flatMap (fun r => r.coordinates), n + q.length) := by
  induction q generalizing sent coords n with
  | nil => simp [_sendNextBatch.loop]
  | cons r rest ih =>
    simp only [List.flatMap_cons, List.length_append] at h
    have h1 : ¬ (coords ++ r.coordinates).length > 50 := by
      simp only [List.length_append]; omega
    have h2 : (coords ++ r.coordinates).length +
        (rest.flatMap (fun r => r.coordinates)).length ≤ 50 := by
      simp only [List.length_append]; omega
    simp only [_sendNextBatch.loop, h1, if_false]
    rw [ih _ _ _ h2]
    simp [toSent, List.append_assoc, Nat.add_comm, Nat.add_left_comm]

theorem length_flatMap_eq_sum (subs : List (QObjectPtr × List QGeoCoordinate)) :
    (subs.flatMap (fun s => s.2)).length = (subs.map (fun s => s.2.length)).sum := by
  induction subs with
  | nil => rfl
  | cons s rest ih => simp [List.flatMap_cons, ih]

theorem coordinateHeights_loop_alive (heights : List Double)
    (subs : List (QObjectPtr × List QGeoCoordinate)) (currentIndex : Nat)
    (connections : List QObjectPtr) :
    (_coordinateHeights.loop heights (subs.map (fun s => toSent (toQueued s))) currentIndex
        connections).2 =
      List.zipWith (fun s sl => Effect._signalTerrainData s.1 true sl) subs
        (slicesFrom heights (subs.map (fun s => s.2.length)) currentIndex) := by
  induction subs generalizing currentIndex connections with
  | nil => simp [_coordinateHeights.loop, slicesFrom]
  | cons s rest ih =>
    simp [_coordinateHeights.loop, slicesFrom, toSent, toQueued]
    exact ih _ _

theorem slicesFrom_lengths (heights : List Double)
    (subs : List (QObjectPtr × List QGeoCoordinate)) (offset : Nat)
    (h : offset + (subs.map (fun s => s.2.length)).sum ≤ heights.length) :
    List.Forall₂ (fun s sl => List.length sl = s.2.length) subs
      (slicesFrom heights (subs.map (fun s => s.2.length)) offset) := by
  induction subs generalizing offset with
  | nil => simp [slicesFrom]
  | cons s rest ih =>
    simp only [List.map_cons, List.sum_cons] at h
    simp only [List.map_cons, slicesFrom]
    refine List.Forall₂.cons ?_ (ih _ (by omega))
    simp only [QList.mid, List.length_take, List.length_drop]
    omega

theorem slicesFrom_flatten (heights : List Double) (ns : List Nat) (offset : Nat) :
    (slicesFrom heights ns offset).flatten = (heights.drop offset).take ns.sum := by
  induction ns generalizing offset with
  | nil => simp [slicesFrom]
  | cons n rest ih =>
    simp only [slicesFrom, List.flatten_cons, ih, List.sum_cons, QList.mid]
    rw [List.take_add, List.drop_drop]

theorem slicesFrom_getElem? (heights : List Double) (ns : List Nat) (offset i : Nat)
    (h : i < ns.length) :
    (slicesFrom heights ns offset)[i]? =
      some (QList.mid heights (offset + (ns.take i).sum) (ns.get ⟨i, h⟩)) := by
  induction ns generalizing offset i with
  | nil => simp at h
  | cons n rest ih =>
    cases i with
    | zero => simp [slicesFrom]
    | succ j =>
      simp only [List.length_cons, Nat.add_lt_add_iff_right] at h
      simp only [slicesFrom, List.getElem?_cons_succ, List.take_succ_cons, List.sum_cons,
        List.get_cons_succ]
      rw [ih (offset + n) j h, Nat.add_assoc]

theorem sendNextBatch_loop_general (q : List QueuedRequestInfo_t)
    (sent : List SentRequestInfo_t) (coords : List QGeoCoordinate) (n : Nat)
    (hq : q ≠ []) (hc : coords.length ≤ 50) :
    ∃ k, 0 < k ∧ k ≤ q.length ∧
      _sendNextBatch.loop q sent coords n =
        (sent ++ (q.take k).map toSent,
          coords ++ (q.take k).flatMap (fun r => r.coordinates), n + k) ∧
      (coords ++ (q.take (k - 1)).flatMap (fun r => r.coordinates)).length ≤ 50 ∧
      (k < q.length →
        50 < (coords ++ (q.take k).flatMap (fun r => r.coordinates)).length) := by
  induction q generalizing sent coords n with
  | nil => exact absurd rfl hq
  | cons r rest ih =>
    by_cases hbig : (coords ++ r.coordinates).length > 50
    · refine ⟨1, by omega, by simp, ?_, by simpa using hc, fun _ => by simpa using hbig⟩
      simp only [_sendNextBatch.loop, if_pos hbig]
      simp [toSent]
    · by_cases hrest : rest = []
      · subst hrest
        refine ⟨1, by omega, by simp, ?_, by simpa using hc, fun h => by simp at h⟩
        simp only [_sendNextBatch.loop, if_neg hbig]
        simp [toSent]
      · obtain ⟨k, hk0, hkl, hloop, hbound, hmin⟩ :=
          ih (sent ++ [toSent r]) (coords ++ r.coordinates) (n + 1) hrest (by omega)
        refine ⟨k + 1, by omega, by simp; omega, ?_, ?_, ?_⟩
        · simp only [_sendNextBatch.loop, if_neg hbig]
          have : (⟨r.terrainAtCoordinateQuery, false, r.coordinates.length⟩ :
              SentRequestInfo_t) = toSent r := rfl
          rw [this, hloop]
          simp [List.append_assoc, Nat.add_assoc, Nat.add_comm 1 k]
        · obtain ⟨j, rfl⟩ : ∃ j, k = j + 1 := ⟨k - 1, by omega⟩
          simpa [List.append_assoc] using hbound
        · intro h
          have h2 : k < rest.length := by simpa using h
          simpa [List.append_assoc] using hmin h2

/-- C1: starting from an Idle coalescer with empty pending queue (whatever its in-flight
record, timer and connections), after at least one submission `addQuery(caller_i, coords_i)`,
all with non-empty coordinate lists and at most 50 coordinates in total, the batch timer is
running; its firing issues exactly one provider request, the concatenation of the `coords_i` in
submission order, and leaves the pending queue empty; and a successful answer with one height per
requested coordinate is fanned out as exactly one `_signalTerrainData(true, slice_i)` per
submission, in submission order, where `slice_i` has the length of `coords_i`, is the part of the
answer starting at the number of coordinates submitted before it, and the slices concatenated are
the answer. -/
theorem C1_coalesced_batch_fans_out_in_order (m0 : Manager)
    (subs : List (QObjectPtr × List QGeoCoordinate)) (heights : List Double)
    (hidle : m0._state = State.Idle) (hq0 : m0._requestQueue = [])
    (hsubs : subs ≠ [])
    (hne : ∀ s ∈ subs, s.2 ≠ [])
    (hcap : (subs.map (fun s => s.2.length)).sum ≤ 50)
    (hlen : heights.length = (subs.map (fun s => s.2.length)).sum) :
    (submitAll m0 subs)._batchTimerActive = true ∧
    (timeout (submitAll m0 subs)).2 =
      [Effect.requestCoordinateHeights (subs.flatMap (fun s => s.2))] ∧
    (timeout (submitAll m0 subs)).1._requestQueue = [] ∧
    ∃ slices : List (List Double),
      (_coordinateHeights (timeout (submitAll m0 subs)).1 true heights).2 =
        List.zipWith (fun s sl => Effect._signalTerrainData s.1 true sl) subs slices ∧
      List.Forall₂ (fun s sl => List.length sl = s.2.length) subs slices ∧
      slices.flatten = heights ∧
      ∀ (i : Nat) (h : i < subs.length),
        slices[i]? = some (QList.mid heights ((subs.take i).map (fun s => s.2.length)).sum
          (subs.get ⟨i, h⟩).2.length) := by
  have hm := foldl_addQuery subs hne m0
  have hq : (subs.map toQueued).length ≠ 0 := by
    simpa using hsubs
  have hflat : (List.map toQueued subs).flatMap (fun r => r.coordinates) =
      subs.flatMap (fun s => s.2) := by
    simp [List.flatMap, List.map_map, Function.comp_def, toQueued]
  have hloop := sendNextBatch_loop_under_cap (subs.map toQueued) [] [] 0
    (by rw [hflat, length_flatMap_eq_sum]; simpa using hcap)
  have hsend : timeout (submitAll m0 subs) =
      ({ _state := State.Downloading, _requestQueue := [],
         _sentRequests := subs.map (fun s => toSent (toQueued s)),
         _batchTimerActive := false,
         _destroyedConnections := m0._destroyedConnections ++ subs.map (fun s => s.1) },
        [Effect.requestCoordinateHeights (subs.flatMap (fun s => s.2))]) := by
    rw [hm]
    simp only [timeout, _sendNextBatch, hidle, hq0, List.nil_append, hsubs, if_false]
    simp only [ne_eq, not_true_eq_false, if_false, hq, hloop]
    simp [QList.midFrom, hflat, List.map_map, Function.comp_def]
  refine ⟨by rw [hm]; simp [hsubs], by rw [hsend], by rw [hsend], ?_⟩
  refine ⟨slicesFrom heights (subs.map (fun s => s.2.length)) 0, ?_, ?_, ?_, ?_⟩
  · rw [hsend]
    simp only [_coordinateHeights, Bool.not_true, Bool.false_eq_true, if_false,
      List.length_nil, ne_eq, not_true_eq_false]
    exact coordinateHeights_loop_alive heights subs 0 _
  · exact slicesFrom_lengths heights subs 0 (by omega)
  · rw [slicesFrom_flatten, ← hlen]
    simp
  · intro i h
    have h2 : i < (subs.map (fun s => s.2.length)).length := by simpa using h
    rw [slicesFrom_getElem? heights _ 0 i h2]
    simp [List.map_take]

/-- C1 at two callers: caller 1 submits one coordinate and caller 2 two; the answer
`[5, 6, 7]` is split into `[5]` and `[6, 7]`. -/
theorem C1_coalesced_batch_fans_out_in_order_witness :
    (timeout (submitAll init [(1, [sampleCoord 1]), (2, [sampleCoord 2, sampleCoord 3])])).2 =
      [Effect.requestCoordinateHeights [sampleCoord 1, sampleCoord 2, sampleCoord 3]] ∧
    (_coordinateHeights
        (timeout (submitAll init [(1, [sampleCoord 1]), (2, [sampleCoord 2, sampleCoord 3])])).1
        true [Double.val 5, Double.val 6, Double.val 7]).2 =
      [Effect._signalTerrainData 1 true [Double.val 5],
        Effect._signalTerrainData 2 true [Double.val 6, Double.val 7]] :=
  ⟨(C1_coalesced_batch_fans_out_in_order init
      [(1, [sampleCoord 1]), (2, [sampleCoord 2, sampleCoord 3])]
      [Double.val 5, Double.val 6, Double.val 7]
      rfl rfl (by simp) (by simp) (by simp) (by simp)).2.1,
    by decide⟩

/-- C2 (the code departs from the claim): callers 1 and 2 submit one coordinate each, the batch
is sent, caller 1 is destroyed and the answer `[5, 7]` arrives.  Caller 2, whose coordinate is at
position 1 of the request, is handed `[5]`, the height of caller 1's coordinate: `currentIndex` is
not advanced over the entry marked destroyed. -/
theorem C2_zombie_entry_shifts_later_slice :
    (timeout (submitAll init [(1, [sampleCoord 1]), (2, [sampleCoord 2])])).2 =
      [Effect.requestCoordinateHeights [sampleCoord 1, sampleCoord 2]] ∧
    (_queryObjectDestroyed
        (timeout (submitAll init [(1, [sampleCoord 1]), (2, [sampleCoord 2])])).1 1)._sentRequests =
      [⟨1, true, 1⟩, ⟨2, false, 1⟩] ∧
    (_coordinateHeights
        (_queryObjectDestroyed
          (timeout (submitAll init [(1, [sampleCoord 1]), (2, [sampleCoord 2])])).1 1)
        true [Double.val 5, Double.val 7]).2 =
      [Effect._signalTerrainData 2 true [Double.val 5]] := by
  decide

/-- C3 (counterexample): one caller submits 51 coordinates; the batch handed to the provider
holds all 51, more than 50. -/
theorem C3_batch_can_exceed_cap :
    (timeout (submitAll init [(1, List.replicate 51 (sampleCoord 1))])).2 =
      [Effect.requestCoordinateHeights (List.replicate 51 (sampleCoord 1))] ∧
    ¬ (List.replicate 51 (sampleCoord 1)).length ≤ 50 := by
  refine ⟨?_, by simp⟩
  have h := foldl_addQuery [(1, List.replicate 51 (sampleCoord 1))] (by simp) init
  rw [h]
  simp [timeout, _sendNextBatch, _sendNextBatch.loop, init, toQueued]

/-- C3 (amended): `_sendNextBatch` hands nothing to the provider when a batch is in flight or the
queue is empty; otherwise it hands over the coordinates of the first `k` queued entries, `k ≥ 1`,
and the entries before the last consumed one hold at most 50 coordinates together: the batch has
at most 50 coordinates plus those of its last entry. -/
theorem C3_batch_bounded_before_last_entry (m : Manager) :
    ((m._state ≠ State.Idle ∨ m._requestQueue = []) ∧ (_sendNextBatch m).2 = []) ∨
    (m._state = State.Idle ∧ m._requestQueue ≠ [] ∧
      ∃ k, 0 < k ∧ k ≤ m._requestQueue.length ∧
        (_sendNextBatch m).2 = [Effect.requestCoordinateHeights
          ((m._requestQueue.take k).flatMap (fun r => r.coordinates))] ∧
        ((m._requestQueue.take (k - 1)).flatMap (fun r => r.coordinates)).length ≤ 50 ∧
        ((m._requestQueue.take k).flatMap (fun r => r.coordinates)).length ≤
          50 + (((m._requestQueue.take k).drop (k - 1)).flatMap
            (fun r => r.coordinates)).length) := by
  by_cases hs : m._state = State.Idle
  · by_cases hq : m._requestQueue = []
    · left
      exact ⟨Or.inr hq, by simp [_sendNextBatch, hs, hq]⟩
    · right
      obtain ⟨k, hk0, hkl, hloop, hbound, -⟩ :=
        sendNextBatch_loop_general m._requestQueue [] [] 0 hq (by simp)
      refine ⟨hs, hq, k, hk0, hkl, ?_, by simpa using hbound, ?_⟩
      · have hlen : m._requestQueue.length ≠ 0 := by
          simpa using hq
        simp [_sendNextBatch, hs, hlen, hloop]
      · have hsplit : m._requestQueue.take k =
            (m._requestQueue.take k).take (k - 1) ++ (m._requestQueue.take k).drop (k - 1) :=
          (List.take_append_drop _ _).symm
        have htt : (m._requestQueue.take k).take (k - 1) = m._requestQueue.take (k - 1) := by
          rw [List.take_take]; congr 1; omega
        have hb : ((m._requestQueue.take (k - 1)).flatMap (fun r => r.coordinates)).length
            ≤ 50 := by simpa using hbound
        rw [htt] at hsplit
        conv_lhs => rw [hsplit, List.flatMap_append, List.length_append]
        omega
  · left
    exact ⟨Or.inl hs, by simp [_sendNextBatch, hs]⟩

theorem removeLoop_eq_filter (c : QObjectPtr) (q : List QueuedRequestInfo_t) :
    _queryObjectDestroyed.removeLoop c q =
      q.filter (fun r => r.terrainAtCoordinateQuery != c) := by
  induction q with
  | nil => rfl
  | cons r rest ih =>
    by_cases h : r.terrainAtCoordinateQuery = c <;>
      simp [_queryObjectDestroyed.removeLoop, h, ih]

theorem markLoop_eq_map (c : QObjectPtr) (l : List SentRequestInfo_t) :
    _queryObjectDestroyed.markLoop c l =
      l.map (fun s => if s.terrainAtCoordinateQuery = c then
        { s with queryObjectDestroyed := true } else s) := by
  induction l with
  | nil => rfl
  | cons s rest ih => simp [_queryObjectDestroyed.markLoop, ih]

/-- C11: `_queryObjectDestroyed(c)` leaves in the pending queue exactly the entries whose caller
is not `c`, in their order and unchanged; in the in-flight record it sets the destroyed flag of
the entries whose caller is `c` and changes no other entry, so the record keeps its length, its
order, its callers and its coordinate counts; state, timer and connections are unchanged.  A
batch formed next by `_sendNextBatch` is made of the first `k` remaining entries, none of which
belongs to `c`. -/
theorem C11_caller_destroyed_effect (m : Manager) (c : QObjectPtr) :
    (_queryObjectDestroyed m c)._requestQueue =
      m._requestQueue.filter (fun r => r.terrainAtCoordinateQuery != c) ∧
    (_queryObjectDestroyed m c)._sentRequests =
      m._sentRequests.map (fun s => if s.terrainAtCoordinateQuery = c then
        { s with queryObjectDestroyed := true } else s) ∧
    (_queryObjectDestroyed m c)._sentRequests.length = m._sentRequests.length ∧
    (_queryObjectDestroyed m c)._sentRequests.map (fun s => s.terrainAtCoordinateQuery) =
      m._sentRequests.map (fun s => s.terrainAtCoordinateQuery) ∧
    (_queryObjectDestroyed m c)._sentRequests.map (fun s => s.cCoord) =
      m._sentRequests.map (fun s => s.cCoord) ∧
    (_queryObjectDestroyed m c)._state = m._state ∧
    (_queryObjectDestroyed m c)._batchTimerActive = m._batchTimerActive ∧
    (_queryObjectDestroyed m c)._destroyedConnections = m._destroyedConnections ∧
    ((_sendNextBatch (_queryObjectDestroyed m c)).2 = [] ∨
      ∃ k, (_sendNextBatch (_queryObjectDestroyed m c)).2 =
          [Effect.requestCoordinateHeights
            (((_queryObjectDestroyed m c)._requestQueue.take k).flatMap
              (fun r => r.coordinates))] ∧
        (_sendNextBatch (_queryObjectDestroyed m c)).1._sentRequests =
          ((_queryObjectDestroyed m c)._requestQueue.take k).map toSent ∧
        ∀ r ∈ (_queryObjectDestroyed m c)._requestQueue.take k,
          r.terrainAtCoordinateQuery ≠ c) := by
  have hq : (_queryObjectDestroyed m c)._requestQueue =
      m._requestQueue.filter (fun r => r.terrainAtCoordinateQuery != c) :=
    removeLoop_eq_filter c m._requestQueue
  have hs : (_queryObjectDestroyed m c)._sentRequests =
      m._sentRequests.map (fun s => if s.terrainAtCoordinateQuery = c then
        { s with queryObjectDestroyed := true } else s) :=
    markLoop_eq_map c m._sentRequests
  refine ⟨hq, hs, by rw [hs]; simp, ?_, ?_, rfl, rfl, rfl, ?_⟩
  · rw [hs, List.map_map]
    apply List.map_congr_left
    intro s _
    by_cases h : s.terrainAtCoordinateQuery = c <;> simp [h]
  · rw [hs, List.map_map]
    apply List.map_congr_left
    intro s _
    by_cases h : s.terrainAtCoordinateQuery = c <;> simp [h]
  · by_cases hidle : (_queryObjectDestroyed m c)._state = State.Idle
    · by_cases hne : (_queryObjectDestroyed m c)._requestQueue = []
      · left
        simp [_sendNextBatch, hidle, hne]
      · right
        obtain ⟨k, -, -, hloop, -, -⟩ :=
          sendNextBatch_loop_general (_queryObjectDestroyed m c)._requestQueue [] [] 0 hne
            (by simp)
        have hlen : (_queryObjectDestroyed m c)._requestQueue.length ≠ 0 := by
          simpa using hne
        refine ⟨k, ?_, ?_, ?_⟩
        · simp [_sendNextBatch, hidle, hlen, hloop]
        · simp [_sendNextBatch, hidle, hlen, hloop]
        · intro r hr
          have hr2 : r ∈ (_queryObjectDestroyed m c)._requestQueue := List.mem_of_mem_take hr
          rw [hq] at hr2
          simpa using (List.mem_filter.mp hr2).2
    · left
      simp [_sendNextBatch, hidle]

theorem batchFailed_loop_signals (l : List SentRequestInfo_t) (connections : List QObjectPtr) :
    (_batchFailed.loop l connections).2 =
      (l.filter (fun s => !s.queryObjectDestroyed)).map
        (fun s => Effect._signalTerrainData s.terrainAtCoordinateQuery false []) := by
  induction l generalizing connections with
  | nil => rfl
  | cons s rest ih =>
    cases h : s.queryObjectDestroyed <;> simp [_batchFailed.loop, h, ih]

/-- C12: when the provider answers `success=false`, `_coordinateHeights` emits exactly one
`(false, empty heights)` to every entry of the in-flight record that is not marked destroyed, in
record order, and nothing to the entries marked destroyed; afterwards the in-flight record is
empty, the coalescer is Idle and the pending queue is as it was. -/
theorem C12_batch_failure_fan_out (m : Manager) (heights : List Double) :
    (_coordinateHeights m false heights).2 =
      (m._sentRequests.filter (fun s => !s.queryObjectDestroyed)).map
        (fun s => Effect._signalTerrainData s.terrainAtCoordinateQuery false []) ∧
    (_coordinateHeights m false heights).1._sentRequests = [] ∧
    (_coordinateHeights m false heights).1._state = State.Idle ∧
    (_coordinateHeights m false heights).1._requestQueue = m._requestQueue := by
  simp [_coordinateHeights, _batchFailed, batchFailed_loop_signals]

/-- C13 (the code departs from the claim): callers 1 and 2 submit 51 coordinates each; the timer
fires and the batch takes the first entry only; the provider answers `success=false`.
`_coordinateHeights` returns from the failure branch without restarting the timer: the entry of
caller 2 is still pending, the timer is not running and no batch is in flight. -/
theorem C13_failed_batch_leaves_queue_unscheduled :
    (timeout (submitAll init [(1, List.replicate 51 (sampleCoord 1)),
        (2, List.replicate 51 (sampleCoord 2))])).2 =
      [Effect.requestCoordinateHeights (List.replicate 51 (sampleCoord 1))] ∧
    (_coordinateHeights
      (timeout (submitAll init [(1, List.replicate 51 (sampleCoord 1)),
        (2, List.replicate 51 (sampleCoord 2))])).1 false [])
      = ({ _state := State.Idle,
           _requestQueue := [⟨2, List.replicate 51 (sampleCoord 2)⟩],
           _sentRequests := [],
           _batchTimerActive := false,
           _destroyedConnections := [2] },
         [Effect._signalTerrainData 1 false []]) := by
  decide

theorem coordinateHeights_success_schedules (m : Manager) (heights : List Double)
    (hq : m._requestQueue ≠ []) :
    (_coordinateHeights m true heights).1._batchTimerActive = true := by
  have hlen : m._requestQueue.length ≠ 0 := by simpa using hq
  simp [_coordinateHeights, hlen]

theorem length_flatMap_take_mono (q : List QueuedRequestInfo_t) (j k : Nat) (h : j ≤ k) :
    ((q.take j).flatMap (fun r => r.coordinates)).length ≤
      ((q.take k).flatMap (fun r => r.coordinates)).length := by
  have hsplit : q.take k = q.take j ++ (q.take k).drop j := by
    have h1 := (List.take_append_drop j (q.take k)).symm
    rwa [List.take_take, Nat.min_eq_left h] at h1
  rw [hsplit, List.flatMap_append, List.length_append]
  omega

/-- C23: for an Idle coalescer with a non-empty pending queue `q`, `_sendNextBatch` consumes the
first `k ≥ 1` entries of `q`, where no shorter part of `q` from its front holds more than 50
coordinates and either these `k` entries hold more than 50 coordinates or `k` is the length of
`q`.  The provider request is the concatenation of the consumed entries' coordinate lists in
queue order; the in-flight record lists, in the same order, each consumed entry's caller and
coordinate count with the destroyed flag cleared; the pending queue becomes the rest of `q`; the
state becomes Downloading. -/
theorem C23_batch_formation (m : Manager) (hidle : m._state = State.Idle)
    (hq : m._requestQueue ≠ []) :
    ∃ k, 0 < k ∧ k ≤ m._requestQueue.length ∧
      (∀ j, j < k → ((m._requestQueue.take j).flatMap (fun r => r.coordinates)).length ≤ 50) ∧
      (k = m._requestQueue.length ∨
        50 < ((m._requestQueue.take k).flatMap (fun r => r.coordinates)).length) ∧
      (_sendNextBatch m).2 = [Effect.requestCoordinateHeights
        ((m._requestQueue.take k).flatMap (fun r => r.coordinates))] ∧
      (_sendNextBatch m).1._sentRequests =
        (m._requestQueue.take k).map
          (fun r => ⟨r.terrainAtCoordinateQuery, false, r.coordinates.length⟩) ∧
      (_sendNextBatch m).1._requestQueue = m._requestQueue.drop k ∧
      (_sendNextBatch m).1._state = State.Downloading := by
  obtain ⟨k, hk0, hkl, hloop, hbound, hmin⟩ :=
    sendNextBatch_loop_general m._requestQueue [] [] 0 hq (by simp)
  have hlen : m._requestQueue.length ≠ 0 := by simpa using hq
  have hb : ((m._requestQueue.take (k - 1)).flatMap (fun r => r.coordinates)).length ≤ 50 := by
    simpa using hbound
  refine ⟨k, hk0, hkl, ?_, ?_, ?_, ?_, ?_, ?_⟩
  · intro j hj
    exact le_trans (length_flatMap_take_mono m._requestQueue j (k - 1) (by omega)) hb
  · by_cases hk : k = m._requestQueue.length
    · exact Or.inl hk
    · right
      have := hmin (by omega)
      simpa using this
  · simp [_sendNextBatch, hidle, hlen, hloop]
  · simp only [_sendNextBatch, hidle, hlen, hloop, ne_eq, not_true_eq_false, if_false,
      List.nil_append]
    rfl
  · simp [_sendNextBatch, hidle, hlen, hloop, QList.midFrom]
  · simp [_sendNextBatch, hidle, hlen]

/-- C23 at a queue of two entries of 30 coordinates each: both are consumed. -/
theorem C23_batch_formation_witness :
    ∃ k, 0 < k ∧
      (_sendNextBatch (submitAll init [(1, List.replicate 30 (sampleCoord 1)),
        (2, List.replicate 30 (sampleCoord 2))])).1._requestQueue =
      (submitAll init [(1, List.replicate 30 (sampleCoord 1)),
        (2, List.replicate 30 (sampleCoord 2))])._requestQueue.drop k :=
  (C23_batch_formation (submitAll init [(1, List.replicate 30 (sampleCoord 1)),
      (2, List.replicate 30 (sampleCoord 2))]) (by decide) (by decide)).elim
    (fun k h => ⟨k, h.1, h.2.2.2.2.2.2.1⟩)

theorem timeout_request_count (m : Manager) :
    ((timeout m).2.filter Effect.isRequest).length +
        (if m._state = State.Downloading then 1 else 0) =
      (if (timeout m).1._state = State.Downloading then 1 else 0) := by
  unfold timeout _sendNextBatch
  cases hs : m._state with
  | Downloading => simp
  | Idle =>
    by_cases hq : m._requestQueue.length = 0
    · simp [hq, hs]
    · simp [hq, Effect.isRequest]

theorem coordinateHeights_state (m : Manager) (success : Bool) (heights : List Double) :
    (_coordinateHeights m success heights).1._state = State.Idle := by
  unfold _coordinateHeights
  cases success
  · simp [_batchFailed]
  · by_cases hq : m._requestQueue.length = 0 <;> simp [hq]

theorem step_outstanding (s s' : System) (e : Event)
    (hinv : s.outstanding = if s.manager._state = State.Downloading then 1 else 0)
    (hstep : step s e = some s') :
    s'.outstanding = if s'.manager._state = State.Downloading then 1 else 0 := by
  cases e with
  | addQuery c coordinates =>
    simp only [step, Option.some.injEq] at hstep
    subst hstep
    have hst : (addQuery s.manager c coordinates)._state = s.manager._state := by
      unfold addQuery
      split <;> rfl
    simp only [hst, hinv]
  | timeout =>
    simp only [step, Option.some.injEq] at hstep
    subst hstep
    have h := timeout_request_count s.manager
    simp only [hinv]
    omega
  | coordinateHeights success heights =>
    by_cases hpos : 0 < s.outstanding
    · simp only [step, hpos, if_true, Option.some.injEq] at hstep
      subst hstep
      have hone : s.outstanding = 1 := by
        split at hinv <;> omega
      simp [coordinateHeights_state, hone]
    · simp [step, hpos] at hstep
  | queryObjectDestroyed c =>
    simp only [step, Option.some.injEq] at hstep
    subst hstep
    exact hinv

theorem run_outstanding (events : List Event) (s s' : System)
    (hinv : s.outstanding = if s.manager._state = State.Downloading then 1 else 0)
    (hrun : run s events = some s') :
    s'.outstanding = if s'.manager._state = State.Downloading then 1 else 0 := by
  induction events generalizing s with
  | nil =>
    simp only [run, Option.some.injEq] at hrun
    subst hrun
    exact hinv
  | cons e rest ih =>
    simp only [run] at hrun
    cases hstep : step s e with
    | none => simp [hstep] at hrun
    | some s1 =>
      rw [hstep] at hrun
      exact ih s1 (step_outstanding s s1 e hinv hstep) hrun

/-- C25: in every state reached from the coalescer as constructed by submissions, timer fires,
answers of the provider to outstanding requests and caller-destroyed notifications, at most one
provider request is outstanding, and one is outstanding exactly when the state is Downloading.
And a timer fire while Downloading issues no provider request, leaves the pending queue and the
in-flight record as they were and leaves the timer running. -/
theorem C25_at_most_one_batch_in_flight (events : List Event) (s : System)
    (hrun : run ⟨init, 0⟩ events = some s) :
    s.outstanding ≤ 1 ∧
    (s.outstanding = 1 ↔ s.manager._state = State.Downloading) ∧
    ∀ m : Manager, m._state = State.Downloading →
      (timeout m).2 = [] ∧ (timeout m).1._requestQueue = m._requestQueue ∧
        (timeout m).1._sentRequests = m._sentRequests ∧
        (timeout m).1._state = State.Downloading ∧
        (timeout m).1._batchTimerActive = true := by
  have h := run_outstanding events ⟨init, 0⟩ s (by simp [init]) hrun
  refine ⟨?_, ?_, ?_⟩
  · rw [h]; split <;> omega
  · rw [h]
    by_cases hs : s.manager._state = State.Downloading <;> simp [hs]
  · intro m hm
    simp [timeout, _sendNextBatch, hm]

/-- C25 at the run: a submission, the timer fires, a second submission, the timer fires while
the batch is in flight, the answer arrives, the timer fires again. -/
theorem C25_at_most_one_batch_in_flight_witness :
    ∃ s, run ⟨init, 0⟩
        [Event.addQuery 1 [sampleCoord 1], Event.timeout, Event.addQuery 2 [sampleCoord 2],
          Event.timeout, Event.coordinateHeights true [Double.val 5], Event.timeout] = some s ∧
      s.outstanding ≤ 1 :=
  ⟨⟨⟨State.Downloading, [], [⟨2, false, 1⟩], false, [2]⟩, 1⟩,
    by decide,
    (C25_at_most_one_batch_in_flight
      [Event.addQuery 1 [sampleCoord 1], Event.timeout, Event.addQuery 2 [sampleCoord 2],
        Event.timeout, Event.coordinateHeights true [Double.val 5], Event.timeout]
      ⟨⟨State.Downloading, [], [⟨2, false, 1⟩], false, [2]⟩, 1⟩ (by decide)).1⟩

/-- C27 (the code departs from the claim): caller 1 submits a query, the timer fires and the
batch is sent; caller 1 submits a second query, which is pending; the answer to the batch
arrives.  The delivery disconnects every connection of caller 1, so caller 1 has a pending entry
and is no longer registered.  When caller 1 is now destroyed the coalescer is not told: the entry
stays in the queue, the next timer fire dispatches it and the answer is delivered to the
destroyed caller. -/
theorem C27_pending_entry_of_unregistered_caller_is_delivered :
    (_coordinateHeights
      (addQuery (timeout (addQuery init 1 [sampleCoord 1])).1 1 [sampleCoord 2]) true
      [Double.val 5]) =
      ({ _state := State.Idle, _requestQueue := [⟨1, [sampleCoord 2]⟩], _sentRequests := [],
         _batchTimerActive := true, _destroyedConnections := [] },
        [Effect._signalTerrainData 1 true [Double.val 5]]) ∧
    callerDestroyed
      (_coordinateHeights
        (addQuery (timeout (addQuery init 1 [sampleCoord 1])).1 1 [sampleCoord 2]) true
        [Double.val 5]).1 1 =
      (_coordinateHeights
        (addQuery (timeout (addQuery init 1 [sampleCoord 1])).1 1 [sampleCoord 2]) true
        [Double.val 5]).1 ∧
    (timeout (callerDestroyed
      (_coordinateHeights
        (addQuery (timeout (addQuery init 1 [sampleCoord 1])).1 1 [sampleCoord 2]) true
        [Double.val 5]).1 1)).2 = [Effect.requestCoordinateHeights [sampleCoord 2]] ∧
    (_coordinateHeights
      (timeout (callerDestroyed
        (_coordinateHeights
          (addQuery (timeout (addQuery init 1 [sampleCoord 1])).1 1 [sampleCoord 2]) true
          [Double.val 5]).1 1)).1 true [Double.val 6]).2 =
      [Effect._signalTerrainData 1 true [Double.val 6]] := by
  decide

end TerrainAtCoordinateBatchManager

/-! ## Properties of TerrainTileManager -/

namespace TerrainTileManager

theorem getAltitudes_loop_hit (ext : Externals) (m : Manager) (coordinates : List QGeoCoordinate)
    (altitudes : List Double) (error : Bool)
    (h : ∀ c ∈ coordinates, cached ext m._tiles c = true) :
    getAltitudesForCoordinates.loop ext m coordinates altitudes error =
      ⟨true, altitudes ++ coordinates.map (elevationAt ext m._tiles),
        error || coordinates.any (fun c => qIsNaN (elevationAt ext m._tiles c)), m, []⟩ := by
  induction coordinates generalizing altitudes error with
  | nil => simp [getAltitudesForCoordinates.loop]
  | cons c rest ih =>
    have hc : cached ext m._tiles c = true := h c (List.mem_cons_self _ _)
    obtain ⟨tile, ht⟩ : ∃ tile, m._tiles (_getTileHash ext c) = some tile := by
      simpa [cached, Option.isSome_iff_exists] using hc
    simp only [getAltitudesForCoordinates.loop, ht]
    rw [ih _ _ (fun d hd => h d (List.mem_cons_of_mem _ hd))]
    cases hn : qIsNaN (tile.elevation c) <;> cases error <;>
      simp [elevationAt, ht, hn]

theorem getAltitudes_loop_miss (ext : Externals) (m : Manager)
    (before : List QGeoCoordinate) (c0 : QGeoCoordinate) (after : List QGeoCoordinate)
    (altitudes : List Double) (error : Bool)
    (h : ∀ c ∈ before, cached ext m._tiles c = true)
    (h0 : m._tiles (_getTileHash ext c0) = none) :
    getAltitudesForCoordinates.loop ext m (before ++ c0 :: after) altitudes error =
      ⟨false, altitudes ++ before.map (elevationAt ext m._tiles),
        error || before.any (fun c => qIsNaN (elevationAt ext m._tiles c)),
        if m._state ≠ State.Downloading then { m with _state := State.Downloading } else m,
        if m._state ≠ State.Downloading then [Effect.fetch (tileSpec ext c0)] else []⟩ := by
  induction before generalizing altitudes error with
  | nil =>
    by_cases hs : m._state = State.Downloading <;>
      simp [getAltitudesForCoordinates.loop, h0, hs]
  | cons c rest ih =>
    have hc : cached ext m._tiles c = true := h c (List.mem_cons_self _ _)
    obtain ⟨tile, ht⟩ : ∃ tile, m._tiles (_getTileHash ext c) = some tile := by
      simpa [cached, Option.isSome_iff_exists] using hc
    simp only [List.cons_append, getAltitudesForCoordinates.loop, ht, List.append_eq]
    rw [ih _ _ (fun d hd => h d (List.mem_cons_of_mem _ hd))]
    cases hn : qIsNaN (tile.elevation c) <;> cases error <;>
      simp [elevationAt, ht, hn]

theorem exists_first_uncached (ext : Externals) (tiles : String → Option TerrainTile)
    (coordinates : List QGeoCoordinate)
    (h : ∃ c ∈ coordinates, tiles (_getTileHash ext c) = none) :
    ∃ before c0 after, coordinates = before ++ c0 :: after ∧
      (∀ c ∈ before, cached ext tiles c = true) ∧ tiles (_getTileHash ext c0) = none := by
  induction coordinates with
  | nil => simp at h
  | cons c rest ih =>
    cases hc : tiles (_getTileHash ext c) with
    | none => exact ⟨[], c, rest, rfl, by simp, hc⟩
    | some tile =>
      obtain ⟨d, hd, hdn⟩ := h
      have hd2 : d ∈ rest := by
        rcases List.mem_cons.mp hd with rfl | hd2
        · rw [hc] at hdn; cases hdn
        · exact hd2
      obtain ⟨before, c0, after, he, hb, h0⟩ := ih ⟨d, hd2, hdn⟩
      refine ⟨c :: before, c0, after, by simp [he], ?_, h0⟩
      intro x hx
      rcases List.mem_cons.mp hx with rfl | hx2
      · simp [cached, hc]
      · exact hb x hx2

theorem terrainDone_loop_step_resolvable (ext : Externals) (s : State)
    (tiles : String → Option TerrainTile) (before : List QueuedRequestInfo_t)
    (r : QueuedRequestInfo_t) (after : List QueuedRequestInfo_t)
    (hr : resolvable ext tiles r = true) :
    _terrainDone.loop ext (before.length + 1) ⟨s, before ++ r :: after, tiles⟩ =
      ((_terrainDone.loop ext before.length ⟨s, before ++ after, tiles⟩).1,
        answer ext tiles r ++
          (_terrainDone.loop ext before.length ⟨s, before ++ after, tiles⟩).2) := by
  have hget : (before ++ r :: after)[before.length]? = some r := by
    rw [List.getElem?_append_right (Nat.le_refl _)]
    simp
  have hall : ∀ c ∈ r.coordinates, cached ext tiles c = true := by
    simpa [resolvable] using hr
  have hg := getAltitudes_loop_hit ext ⟨s, before ++ r :: after, tiles⟩ r.coordinates []
    false hall
  have herase : (before ++ r :: after).eraseIdx before.length = before ++ after := by
    rw [List.eraseIdx_append_of_length_le (Nat.le_refl _)]
    simp
  simp only [_terrainDone.loop, hget, getAltitudesForCoordinates, hg, if_true, herase,
    List.nil_append, Bool.false_or, answer]

theorem terrainDone_loop_step_unresolvable (ext : Externals) (s : State)
    (tiles : String → Option TerrainTile) (before : List QueuedRequestInfo_t)
    (r : QueuedRequestInfo_t) (after : List QueuedRequestInfo_t)
    (hr : resolvable ext tiles r = false) :
    ∃ c0 ∈ r.coordinates, cached ext tiles c0 = false ∧
    _terrainDone.loop ext (before.length + 1) ⟨s, before ++ r :: after, tiles⟩ =
      ((_terrainDone.loop ext before.length
          ⟨State.Downloading, before ++ r :: after, tiles⟩).1,
        (if s ≠ State.Downloading then [Effect.fetch (tileSpec ext c0)] else []) ++
          (_terrainDone.loop ext before.length
            ⟨State.Downloading, before ++ r :: after, tiles⟩).2) := by
  have hget : (before ++ r :: after)[before.length]? = some r := by
    rw [List.getElem?_append_right (Nat.le_refl _)]
    simp
  have hex : ∃ c ∈ r.coordinates, tiles (_getTileHash ext c) = none := by
    have : ∃ c ∈ r.coordinates, cached ext tiles c = false := by
      simpa [resolvable] using hr
    obtain ⟨c, hc, hn⟩ := this
    exact ⟨c, hc, by simpa [cached] using hn⟩
  obtain ⟨b, c0, a, he, hb, h0⟩ := exists_first_uncached ext tiles r.coordinates hex
  have hg := getAltitudes_loop_miss ext ⟨s, before ++ r :: after, tiles⟩ b c0 a [] false hb h0
  refine ⟨c0, by rw [he]; simp, by simp [cached, h0], ?_⟩
  simp only [_terrainDone.loop, hget, getAltitudesForCoordinates, he, hg]
  by_cases hs : s = State.Downloading
  · subst hs
    simp
  · simp [hs]

theorem terrainDone_loop_spec (ext : Externals) (tiles : String → Option TerrainTile)
    (before after : List QueuedRequestInfo_t) (s : State) :
    (_terrainDone.loop ext before.length ⟨s, before ++ after, tiles⟩).1._requestQueue =
      before.filter (fun r => !resolvable ext tiles r) ++ after ∧
    (_terrainDone.loop ext before.length ⟨s, before ++ after, tiles⟩).1._tiles = tiles ∧
    (_terrainDone.loop ext before.length ⟨s, before ++ after, tiles⟩).1._state =
      (if before.all (resolvable ext tiles) then s else State.Downloading) ∧
    (_terrainDone.loop ext before.length ⟨s, before ++ after, tiles⟩).2.filter
        (fun e => !e.isFetch) =
      (before.filter (resolvable ext tiles)).reverse.flatMap (answer ext tiles) ∧
    ((_terrainDone.loop ext before.length ⟨s, before ++ after, tiles⟩).2.filter
        Effect.isFetch).length =
      (if s = State.Idle ∧ before.all (resolvable ext tiles) = false then 1 else 0) := by
  induction before using List.reverseRecOn generalizing after s with
  | nil => simp [_terrainDone.loop]
  | append_singleton front r ih =>
    have hlen : (front ++ [r]).length = front.length + 1 := by simp
    have happ : front ++ [r] ++ after = front ++ r :: after := by simp
    rw [hlen, happ]
    have hans : ∀ e ∈ answer ext tiles r, Effect.isFetch e = false := by
      intro e he
      unfold answer _terrainDone.signal at he
      split at he <;> (try split at he) <;> simp at he <;> subst he <;> rfl
    cases hr : resolvable ext tiles r with
    | true =>
      rw [terrainDone_loop_step_resolvable ext s tiles front r after hr]
      obtain ⟨h1, h2, h3, h4, h5⟩ := ih after s
      refine ⟨?_, h2, ?_, ?_, ?_⟩
      · simp [List.filter_append, hr, h1]
      · simp [List.all_append, hr, h3]
      · have : (answer ext tiles r).filter (fun e => !e.isFetch) = answer ext tiles r :=
          List.filter_eq_self.mpr (fun e he => by simp [hans e he])
        simp [List.filter_append, hr, h4, this]
      · have : (answer ext tiles r).filter Effect.isFetch = [] :=
          List.filter_eq_nil_iff.mpr (fun e he => by simp [hans e he])
        simp [List.filter_append, List.all_append, hr, this, h5]
    | false =>
      obtain ⟨c0, -, -, hstep⟩ :=
        terrainDone_loop_step_unresolvable ext s tiles front r after hr
      rw [hstep]
      obtain ⟨h1, h2, h3, h4, h5⟩ := ih (r :: after) State.Downloading
      have hf : Effect.isFetch (Effect.fetch (tileSpec ext c0)) = true := rfl
      refine ⟨?_, h2, ?_, ?_, ?_⟩
      · simp [List.filter_append, hr, h1]
      · simp [List.all_append, hr, h3]
      · by_cases hs : s = State.Downloading <;>
          simp [List.filter_append, hr, hs, h4, hf]
      · cases s <;> simp [List.filter_append, List.all_append, hr, h5, hf]

/-- C4: when the tile of every coordinate of the list is in the cache,
`getAltitudesForCoordinates`, called with an empty altitude list, returns true with one altitude
per coordinate, the i-th being the elevation the cached tile gives for the i-th coordinate; it
starts no fetch and leaves the manager (state, queue and cache) as it was. -/
theorem C4_cache_hit_returns_all_altitudes (ext : Externals) (m : Manager)
    (coordinates : List QGeoCoordinate)
    (h : ∀ c ∈ coordinates, cached ext m._tiles c = true) :
    (getAltitudesForCoordinates ext m coordinates []).ret = true ∧
    (getAltitudesForCoordinates ext m coordinates []).altitudes.length = coordinates.length ∧
    (∀ (i : Nat) (hi : i < coordinates.length),
      ∃ tile, m._tiles (_getTileHash ext (coordinates.get ⟨i, hi⟩)) = some tile ∧
        (getAltitudesForCoordinates ext m coordinates []).altitudes[i]? =
          some (tile.elevation (coordinates.get ⟨i, hi⟩))) ∧
    (getAltitudesForCoordinates ext m coordinates []).effects = [] ∧
    (getAltitudesForCoordinates ext m coordinates []).manager = m := by
  have hr := getAltitudes_loop_hit ext m coordinates [] false h
  unfold getAltitudesForCoordinates
  rw [hr]
  refine ⟨rfl, by simp, ?_, rfl, rfl⟩
  intro i hi
  have hc : cached ext m._tiles (coordinates.get ⟨i, hi⟩) = true :=
    h _ (List.get_mem _ _ _)
  obtain ⟨tile, ht⟩ : ∃ tile, m._tiles (_getTileHash ext (coordinates.get ⟨i, hi⟩)) =
      some tile := by
    simpa [cached, Option.isSome_iff_exists] using hc
  refine ⟨tile, ht, ?_⟩
  simp only [List.nil_append, List.getElem?_map]
  rw [List.getElem?_eq_getElem hi]
  simp only [Option.map_some', elevationAt]
  have ht2 : m._tiles (_getTileHash ext coordinates[i]) = some tile := ht
  rw [ht2]
  rfl

/-- C4 at two coordinates of the cached tile "A". -/
theorem C4_cache_hit_returns_all_altitudes_witness :
    (getAltitudesForCoordinates sampleExt sampleManager
      [⟨Double.val 10, Double.val 0⟩, ⟨Double.val 12, Double.val 0⟩] []).altitudes.length = 2 :=
  (C4_cache_hit_returns_all_altitudes sampleExt sampleManager
    [⟨Double.val 10, Double.val 0⟩, ⟨Double.val 12, Double.val 0⟩] (by decide)).2.1

/-- C5: when the tile of at least one coordinate of the list is not in the cache,
`getAltitudesForCoordinates` returns false.  With `c0` the first such coordinate in list order: an
Idle manager starts exactly one fetch, for the tile of `c0`, and becomes Downloading; a
Downloading manager starts no fetch and stays Downloading.  Never more than one fetch is started,
and the queue and the cache are left as they were. -/
theorem C5_cache_miss_starts_at_most_one_fetch (ext : Externals) (m : Manager)
    (coordinates : List QGeoCoordinate) (altitudes : List Double)
    (h : ∃ c ∈ coordinates, cached ext m._tiles c = false) :
    ∃ before c0 after, coordinates = before ++ c0 :: after ∧
      (∀ c ∈ before, cached ext m._tiles c = true) ∧ cached ext m._tiles c0 = false ∧
      (getAltitudesForCoordinates ext m coordinates altitudes).ret = false ∧
      (m._state = State.Idle →
        (getAltitudesForCoordinates ext m coordinates altitudes).effects =
            [Effect.fetch (tileSpec ext c0)] ∧
          (getAltitudesForCoordinates ext m coordinates altitudes).manager._state =
            State.Downloading) ∧
      (m._state = State.Downloading →
        (getAltitudesForCoordinates ext m coordinates altitudes).effects = [] ∧
          (getAltitudesForCoordinates ext m coordinates altitudes).manager._state =
            State.Downloading) ∧
      ((getAltitudesForCoordinates ext m coordinates altitudes).effects.filter
        Effect.isFetch).length ≤ 1 ∧
      (getAltitudesForCoordinates ext m coordinates altitudes).manager._requestQueue =
        m._requestQueue ∧
      (getAltitudesForCoordinates ext m coordinates altitudes).manager._tiles = m._tiles := by
  have h2 : ∃ c ∈ coordinates, m._tiles (_getTileHash ext c) = none := by
    obtain ⟨c, hc, hn⟩ := h
    refine ⟨c, hc, ?_⟩
    simpa [cached] using hn
  obtain ⟨before, c0, after, he, hb, h0⟩ := exists_first_uncached ext m._tiles coordinates h2
  refine ⟨before, c0, after, he, hb, by simp [cached, h0], ?_⟩
  have hr := getAltitudes_loop_miss ext m before c0 after altitudes false hb h0
  unfold getAltitudesForCoordinates
  rw [he, hr]
  by_cases hs : m._state = State.Downloading
  · simp [hs]
  · have hi : m._state = State.Idle := by
      cases hm : m._state with
      | Idle => rfl
      | Downloading => exact absurd hm hs
    simp [hi, Effect.isFetch]

/-- C5 at a list with one coordinate of the cached tile "A" followed by two of the uncached
tile "B": one fetch, for tile "B". -/
theorem C5_cache_miss_starts_at_most_one_fetch_witness :
    (∃ c ∈ ([⟨Double.val 10, Double.val 0⟩, ⟨Double.val 20, Double.val 1⟩,
        ⟨Double.val 30, Double.val 2⟩] : List QGeoCoordinate),
      cached sampleExt sampleManager._tiles c = false) ∧
    ((getAltitudesForCoordinates sampleExt sampleManager
      [⟨Double.val 10, Double.val 0⟩, ⟨Double.val 20, Double.val 1⟩,
        ⟨Double.val 30, Double.val 2⟩] []).effects.filter Effect.isFetch).length ≤ 1 :=
  ⟨by decide,
    (C5_cache_miss_starts_at_most_one_fetch sampleExt sampleManager
      [⟨Double.val 10, Double.val 0⟩, ⟨Double.val 20, Double.val 1⟩,
        ⟨Double.val 30, Double.val 2⟩] [] (by decide)).elim
      (fun _ hb => hb.elim (fun _ hc => hc.elim (fun _ hd => hd.2.2.2.2.2.2.1)))⟩

theorem tileFailed_loop_eq_map (q : List QueuedRequestInfo_t)
    (hmodes : ∀ r ∈ q, r.queryMode ≠ QueryMode.QueryModeCarpet) :
    _tileFailed.loop q = q.map failureNotification := by
  induction q with
  | nil => rfl
  | cons r rest ih =>
    have hr := hmodes r (List.mem_cons_self _ _)
    rw [_tileFailed.loop, ih (fun t ht => hmodes t (List.mem_cons_of_mem _ ht))]
    cases hm : r.queryMode <;> simp_all [_tileFailed.signal, failureNotification]

theorem addCoordinateQuery_modes (ext : Externals) (m : Manager) (caller : QObjectPtr)
    (coordinates : List QGeoCoordinate)
    (hmodes : ∀ r ∈ m._requestQueue, r.queryMode ≠ QueryMode.QueryModeCarpet) :
    ∀ r ∈ (addCoordinateQuery ext m caller coordinates).1._requestQueue,
      r.queryMode ≠ QueryMode.QueryModeCarpet := by
  have hq : ∀ (l : List QGeoCoordinate) (a : List Double) (e : Bool),
      (getAltitudesForCoordinates.loop ext m l a e).manager._requestQueue = m._requestQueue := by
    intro l
    induction l with
    | nil => intro a e; rfl
    | cons c rest ih =>
      intro a e
      simp only [getAltitudesForCoordinates.loop]
      split
      · exact ih _ _
      · split <;> rfl
  have hcases : (addCoordinateQuery ext m caller coordinates).1._requestQueue =
        m._requestQueue ∨
      (addCoordinateQuery ext m caller coordinates).1._requestQueue =
        m._requestQueue ++ [⟨caller, QueryMode.QueryModeCoordinates, Double.val 0,
          Double.val 0, coordinates⟩] := by
    unfold addCoordinateQuery
    by_cases hlen : coordinates.length > 0
    · cases hret : (getAltitudesForCoordinates ext m coordinates []).ret
      · right
        simp only [hlen, if_true, hret, Bool.not_false]
        simp only [getAltitudesForCoordinates, hq]
      · left
        cases herr : (getAltitudesForCoordinates ext m coordinates []).error <;>
          simp only [hlen, if_true, hret, herr, Bool.not_true, Bool.false_eq_true, if_false] <;>
          simp only [getAltitudesForCoordinates, hq]
    · left
      simp only [hlen, if_false]
  intro r hr
  rcases hcases with h | h
  · rw [h] at hr
    exact hmodes r hr
  · rw [h] at hr
    rcases List.mem_append.mp hr with hr | hr
    · exact hmodes r hr
    · rw [List.mem_singleton.mp hr]
      simp

/-- C6: an Idle manager with empty queue holds the tile of `C1` (elevation 10 at `C1`) and not
the tile of `C2`.  `addCoordinateQuery(caller, [C1, C2])` emits no signal, queues the request and
starts one fetch, whose tile hash is the cache key of `C2`, becoming Downloading.  When that fetch
completes without error with bytes that decode into a valid tile giving the elevation `e` (not
NaN) at `C2`, `_terrainDone` caches the tile under that key and emits exactly one signal,
`(true, [10, e])`, to the caller; the queue is empty and the manager Idle afterwards. -/
theorem C6_miss_then_retry_delivers (ext : Externals) (m : Manager) (caller : QObjectPtr)
    (C1 C2 : QGeoCoordinate) (tile1 : TerrainTile) (responseBytes : QByteArray) (e : Rat)
    (hidle : m._state = State.Idle) (hq : m._requestQueue = [])
    (h1 : m._tiles (_getTileHash ext C1) = some tile1)
    (h10 : tile1.elevation C1 = Double.val 10)
    (h2 : m._tiles (_getTileHash ext C2) = none)
    (hbytes : responseBytes ≠ [])
    (hvalid : (ext.decodeTile responseBytes).isValid = true)
    (he : (ext.decodeTile responseBytes).elevation C2 = Double.val e) :
    (addCoordinateQuery ext m caller [C1, C2]).2 = [Effect.fetch (tileSpec ext C2)] ∧
    ext.getTileHash "Airmap Elevation" (tileSpec ext C2).x (tileSpec ext C2).y
      (tileSpec ext C2).zoom = _getTileHash ext C2 ∧
    (addCoordinateQuery ext m caller [C1, C2]).1._requestQueue =
      [⟨caller, QueryMode.QueryModeCoordinates, Double.val 0, Double.val 0, [C1, C2]⟩] ∧
    (addCoordinateQuery ext m caller [C1, C2]).1._state = State.Downloading ∧
    (_terrainDone ext (addCoordinateQuery ext m caller [C1, C2]).1 (some (tileSpec ext C2))
      responseBytes NetworkError.NoError).2 =
      [Effect._signalCoordinateHeights caller true [Double.val 10, Double.val e]] ∧
    (_terrainDone ext (addCoordinateQuery ext m caller [C1, C2]).1 (some (tileSpec ext C2))
      responseBytes NetworkError.NoError).1._requestQueue = [] ∧
    (_terrainDone ext (addCoordinateQuery ext m caller [C1, C2]).1 (some (tileSpec ext C2))
      responseBytes NetworkError.NoError).1._state = State.Idle ∧
    (_terrainDone ext (addCoordinateQuery ext m caller [C1, C2]).1 (some (tileSpec ext C2))
      responseBytes NetworkError.NoError).1._tiles (_getTileHash ext C2) =
      some (ext.decodeTile responseBytes) := by
  have hadd : addCoordinateQuery ext m caller [C1, C2] =
      (⟨State.Downloading,
          [⟨caller, QueryMode.QueryModeCoordinates, Double.val 0, Double.val 0, [C1, C2]⟩],
          m._tiles⟩,
        [Effect.fetch (tileSpec ext C2)]) := by
    simp [addCoordinateQuery, getAltitudesForCoordinates, getAltitudesForCoordinates.loop,
      h1, h2, hidle, hq]
  have hkey : ext.getTileHash "Airmap Elevation" (tileSpec ext C2).x (tileSpec ext C2).y
      (tileSpec ext C2).zoom = _getTileHash ext C2 := rfl
  have hne : _getTileHash ext C1 ≠ _getTileHash ext C2 := by
    intro heq
    rw [heq, h2] at h1
    cases h1
  have hempty : responseBytes.isEmpty = false := by
    cases responseBytes with
    | nil => exact absurd rfl hbytes
    | cons b bs => rfl
  have hdone : _terrainDone ext
      ⟨State.Downloading,
        [⟨caller, QueryMode.QueryModeCoordinates, Double.val 0, Double.val 0, [C1, C2]⟩],
        m._tiles⟩ (some (tileSpec ext C2)) responseBytes NetworkError.NoError =
      (⟨State.Idle, [],
          QHash.insert m._tiles (_getTileHash ext C2) (ext.decodeTile responseBytes)⟩,
        [Effect._signalCoordinateHeights caller true [Double.val 10, Double.val e]]) := by
    simp [_terrainDone, hkey, hempty, hvalid, h2, _terrainDone.loop,
      getAltitudesForCoordinates, getAltitudesForCoordinates.loop, QHash.insert, hne, h1, h10,
      he, qIsNaN, _terrainDone.signal]
  rw [hadd, hdone]
  refine ⟨rfl, hkey, rfl, rfl, rfl, rfl, rfl, ?_⟩
  simp [QHash.insert]

/-- C6 with the tile "A" cached and the tile "B" fetched: the caller receives
`(true, [10, 20])`. -/
theorem C6_miss_then_retry_delivers_witness :
    (_terrainDone sampleExt
      (addCoordinateQuery sampleExt sampleManager 7
        [⟨Double.val 10, Double.val 0⟩, ⟨Double.val 20, Double.val 1⟩]).1
      (some (tileSpec sampleExt ⟨Double.val 20, Double.val 1⟩)) [1] NetworkError.NoError).2 =
      [Effect._signalCoordinateHeights 7 true [Double.val 10, Double.val 20]] :=
  (C6_miss_then_retry_delivers sampleExt sampleManager 7 ⟨Double.val 10, Double.val 0⟩
    ⟨Double.val 20, Double.val 1⟩ sampleTile [1] 20 rfl rfl rfl (by decide) rfl (by simp)
    rfl (by decide)).2.2.2.2.1

/-- C7: when a fetch completes with a network error or with an empty response, `_terrainDone`
emits for every queued request (coordinate or path) exactly one failure notification, in queue
order: `success=false` with an empty height list, a path request with its stored spacing values.
The queue is empty afterwards, the cache is unchanged, no fetch is started and the manager is
Idle. -/
theorem C7_fetch_failure_fails_all_pending (ext : Externals) (m : Manager)
    (spec : QGeoTileSpec) (responseBytes : QByteArray) (error : NetworkError)
    (hfail : error ≠ NetworkError.NoError ∨ responseBytes = [])
    (hmodes : ∀ r ∈ m._requestQueue, r.queryMode ≠ QueryMode.QueryModeCarpet) :
    (_terrainDone ext m (some spec) responseBytes error).2 =
      m._requestQueue.map failureNotification ∧
    (_terrainDone ext m (some spec) responseBytes error).1._requestQueue = [] ∧
    (_terrainDone ext m (some spec) responseBytes error).1._tiles = m._tiles ∧
    (_terrainDone ext m (some spec) responseBytes error).1._state = State.Idle ∧
    ∀ e ∈ (_terrainDone ext m (some spec) responseBytes error).2, Effect.isFetch e = false := by
  have hres : _terrainDone ext m (some spec) responseBytes error =
      (⟨State.Idle, [], m._tiles⟩, m._requestQueue.map failureNotification) := by
    rcases hfail with herr | hbytes
    · simp [_terrainDone, herr, _tileFailed, tileFailed_loop_eq_map _ hmodes]
    · subst hbytes
      by_cases herr : error = NetworkError.NoError <;>
        simp [_terrainDone, herr, _tileFailed, tileFailed_loop_eq_map _ hmodes]
  rw [hres]
  refine ⟨rfl, rfl, rfl, rfl, ?_⟩
  intro e he
  obtain ⟨r, -, rfl⟩ := List.mem_map.mp he
  unfold failureNotification
  split <;> rfl

/-- C7 at a queue holding a coordinate request and a path request, the fetch ending with a
network error. -/
theorem C7_fetch_failure_fails_all_pending_witness :
    (_terrainDone sampleExt
      ⟨State.Downloading,
        [⟨7, QueryMode.QueryModeCoordinates, Double.val 0, Double.val 0,
            [⟨Double.val 20, Double.val 1⟩]⟩,
          ⟨8, QueryMode.QueryModePath, Double.val 3, Double.val 2,
            [⟨Double.val 20, Double.val 1⟩, ⟨Double.val 21, Double.val 1⟩]⟩],
        fun _ => none⟩
      (some ⟨1, 0, 1, 0⟩) [] (NetworkError.Error 3)).2 =
      [Effect._signalCoordinateHeights 7 false [],
        Effect._signalPathHeights 8 false (Double.val 3) (Double.val 2) []] :=
  (C7_fetch_failure_fails_all_pending sampleExt
    ⟨State.Downloading,
      [⟨7, QueryMode.QueryModeCoordinates, Double.val 0, Double.val 0,
          [⟨Double.val 20, Double.val 1⟩]⟩,
        ⟨8, QueryMode.QueryModePath, Double.val 3, Double.val 2,
          [⟨Double.val 20, Double.val 1⟩, ⟨Double.val 21, Double.val 1⟩]⟩],
      fun _ => none⟩
    ⟨1, 0, 1, 0⟩ [] (NetworkError.Error 3) (Or.inl (by decide)) (by decide)).1

/-- C8 (the code departs from the claim): a request for a coordinate of the uncached tile "B" is
queued and its tile fetched; the fetch completes without error with bytes that decode into an
invalid tile.  `_terrainDone` caches nothing, but it emits no failure signal, leaves the request
in the queue and starts a new fetch for the same tile, becoming Downloading again. -/
theorem C8_invalid_tile_is_fetched_again :
    (addCoordinateQuery sampleExt init 7 [⟨Double.val 20, Double.val 1⟩]).2 =
      [Effect.fetch (tileSpec sampleExt ⟨Double.val 20, Double.val 1⟩)] ∧
    (sampleExt.decodeTile [0]).isValid = false ∧
    (_terrainDone sampleExt
      (addCoordinateQuery sampleExt init 7 [⟨Double.val 20, Double.val 1⟩]).1
      (some (tileSpec sampleExt ⟨Double.val 20, Double.val 1⟩)) [0] NetworkError.NoError).2 =
      [Effect.fetch (tileSpec sampleExt ⟨Double.val 20, Double.val 1⟩)] ∧
    (_terrainDone sampleExt
      (addCoordinateQuery sampleExt init 7 [⟨Double.val 20, Double.val 1⟩]).1
      (some (tileSpec sampleExt ⟨Double.val 20, Double.val 1⟩)) [0]
      NetworkError.NoError).1._requestQueue =
      [⟨7, QueryMode.QueryModeCoordinates, Double.val 0, Double.val 0,
        [⟨Double.val 20, Double.val 1⟩]⟩] ∧
    (_terrainDone sampleExt
      (addCoordinateQuery sampleExt init 7 [⟨Double.val 20, Double.val 1⟩]).1
      (some (tileSpec sampleExt ⟨Double.val 20, Double.val 1⟩)) [0]
      NetworkError.NoError).1._state = State.Downloading ∧
    cached sampleExt
      (_terrainDone sampleExt
        (addCoordinateQuery sampleExt init 7 [⟨Double.val 20, Double.val 1⟩]).1
        (some (tileSpec sampleExt ⟨Double.val 20, Double.val 1⟩)) [0]
        NetworkError.NoError).1._tiles ⟨Double.val 20, Double.val 1⟩ = false := by
  decide

/-- C9 (counterexample): the tile "A" is cached and has no data at latitude 0, the tile "B" is
not cached.  A request for a no-data coordinate of "A" followed by a coordinate of "B" is not
failed: no signal is emitted, the request is appended to the queue and the tile "B" is
fetched. -/
theorem C9_no_data_with_uncached_tile_is_queued :
    cached sampleExt sampleManager._tiles ⟨Double.val 0, Double.val 0⟩ = true ∧
    qIsNaN (elevationAt sampleExt sampleManager._tiles ⟨Double.val 0, Double.val 0⟩) = true ∧
    (addCoordinateQuery sampleExt sampleManager 7
      [⟨Double.val 0, Double.val 0⟩, ⟨Double.val 20, Double.val 1⟩]).2 =
      [Effect.fetch (tileSpec sampleExt ⟨Double.val 20, Double.val 1⟩)] ∧
    (addCoordinateQuery sampleExt sampleManager 7
      [⟨Double.val 0, Double.val 0⟩, ⟨Double.val 20, Double.val 1⟩]).1._requestQueue =
      [⟨7, QueryMode.QueryModeCoordinates, Double.val 0, Double.val 0,
        [⟨Double.val 0, Double.val 0⟩, ⟨Double.val 20, Double.val 1⟩]⟩] := by
  decide

/-- C9 (amended): for every non-empty coordinate list all of whose tiles are cached and at least
one of whose coordinates yields the no-data (NaN) elevation, `addCoordinateQuery` fails the whole
request: it emits `(success=false, empty heights)` to the caller and nothing else, and leaves the
manager, its queue included, as it was. -/
theorem C9_no_data_fails_fully_cached_request (ext : Externals) (m : Manager)
    (caller : QObjectPtr) (coordinates : List QGeoCoordinate)
    (hne : coordinates ≠ [])
    (hall : ∀ c ∈ coordinates, cached ext m._tiles c = true)
    (hnan : ∃ c ∈ coordinates, qIsNaN (elevationAt ext m._tiles c) = true) :
    addCoordinateQuery ext m caller coordinates =
      (m, [Effect._signalCoordinateHeights caller false []]) := by
  have hr := getAltitudes_loop_hit ext m coordinates [] false hall
  have hlen : coordinates.length > 0 := List.length_pos.mpr hne
  have hany : coordinates.any (fun c => qIsNaN (elevationAt ext m._tiles c)) = true := by
    obtain ⟨c, hc, hn⟩ := hnan
    exact List.any_eq_true.mpr ⟨c, hc, hn⟩
  simp [addCoordinateQuery, hlen, getAltitudesForCoordinates, hr, hany]

/-- C9 (amended) at two coordinates of the cached tile "A", the second without data. -/
theorem C9_no_data_fails_fully_cached_request_witness :
    addCoordinateQuery sampleExt sampleManager 7
        [⟨Double.val 10, Double.val 0⟩, ⟨Double.val 0, Double.val 0⟩] =
      (sampleManager, [Effect._signalCoordinateHeights 7 false []]) :=
  C9_no_data_fails_fully_cached_request sampleExt sampleManager 7
    [⟨Double.val 10, Double.val 0⟩, ⟨Double.val 0, Double.val 0⟩]
    (by simp) (by decide) (by decide)

/-- C10 (counterexample): caller 7 submits a request for latitude 20 and then one for latitude
30, both in the uncached tile "B"; both are queued.  When the tile arrives, `_terrainDone`
notifies the request submitted second (heights `[30]`) before the one submitted first
(heights `[20]`). -/
theorem C10_same_caller_notified_in_reverse_order :
    (addCoordinateQuery sampleExt
      (addCoordinateQuery sampleExt init 7 [⟨Double.val 20, Double.val 1⟩]).1 7
      [⟨Double.val 30, Double.val 1⟩]).1._requestQueue =
      [⟨7, QueryMode.QueryModeCoordinates, Double.val 0, Double.val 0,
          [⟨Double.val 20, Double.val 1⟩]⟩,
        ⟨7, QueryMode.QueryModeCoordinates, Double.val 0, Double.val 0,
          [⟨Double.val 30, Double.val 1⟩]⟩] ∧
    (_terrainDone sampleExt
      (addCoordinateQuery sampleExt
        (addCoordinateQuery sampleExt init 7 [⟨Double.val 20, Double.val 1⟩]).1 7
        [⟨Double.val 30, Double.val 1⟩]).1
      (some (tileSpec sampleExt ⟨Double.val 20, Double.val 1⟩)) [1] NetworkError.NoError).2 =
      [Effect._signalCoordinateHeights 7 true [Double.val 30],
        Effect._signalCoordinateHeights 7 true [Double.val 20]] := by
  decide

/-- C10 (amended): when a fetch completes without error and with a non-empty response,
`_terrainDone` re-evaluates the queued requests from the last queued to the first, so the signals
it emits are those of the requests resolvable from the cache as it then is, in reverse queue
order; the requests that are not resolvable stay queued in their queue order. -/
theorem C10_retry_notifies_in_reverse_queue_order (ext : Externals) (m : Manager)
    (spec : QGeoTileSpec) (responseBytes : QByteArray) (hbytes : responseBytes ≠ []) :
    (_terrainDone ext m (some spec) responseBytes NetworkError.NoError).2.filter
        (fun e => !e.isFetch) =
      ((m._requestQueue.filter (resolvable ext
          (_terrainDone ext m (some spec) responseBytes NetworkError.NoError).1._tiles)).reverse
        ).flatMap (answer ext
          (_terrainDone ext m (some spec) responseBytes NetworkError.NoError).1._tiles) ∧
    (_terrainDone ext m (some spec) responseBytes NetworkError.NoError).1._requestQueue =
      m._requestQueue.filter (fun r => !resolvable ext
        (_terrainDone ext m (some spec) responseBytes NetworkError.NoError).1._tiles r) := by
  have hempty : responseBytes.isEmpty = false := by
    cases responseBytes with
    | nil => exact absurd rfl hbytes
    | cons b bs => rfl
  obtain ⟨tiles, ht⟩ : ∃ tiles, _terrainDone ext m (some spec) responseBytes
      NetworkError.NoError =
      _terrainDone.loop ext m._requestQueue.length ⟨State.Idle, m._requestQueue, tiles⟩ := by
    simp only [_terrainDone, ne_eq, not_true_eq_false, if_false, hempty, Bool.false_eq_true]
    by_cases hv : (ext.decodeTile responseBytes).isValid = true
    · by_cases hc : (!(m._tiles (ext.getTileHash "Airmap Elevation" spec.x spec.y
          spec.zoom)).isSome) = true
      · refine ⟨QHash.insert m._tiles (ext.getTileHash "Airmap Elevation" spec.x spec.y
          spec.zoom) (ext.decodeTile responseBytes), ?_⟩
        simp only [hv, hc, if_true]
      · refine ⟨m._tiles, ?_⟩
        simp only [hv, hc, if_true, if_false, Bool.false_eq_true]
    · refine ⟨m._tiles, ?_⟩
      simp only [hv, if_false, Bool.false_eq_true]
  have hspec := terrainDone_loop_spec ext tiles m._requestQueue [] State.Idle
  simp only [List.append_nil] at hspec
  rw [ht]
  obtain ⟨h1, h2, -, h4, -⟩ := hspec
  rw [h2]
  exact ⟨h4, h1⟩

/-- C10 (amended) at the queue of two requests of caller 7 for the tile "B". -/
theorem C10_retry_notifies_in_reverse_queue_order_witness :
    (_terrainDone sampleExt
      ⟨State.Downloading,
        [⟨7, QueryMode.QueryModeCoordinates, Double.val 0, Double.val 0,
            [⟨Double.val 20, Double.val 1⟩]⟩,
          ⟨7, QueryMode.QueryModeCoordinates, Double.val 0, Double.val 0,
            [⟨Double.val 30, Double.val 1⟩]⟩],
        fun _ => none⟩
      (some ⟨1, 0, 1, 0⟩) [1] NetworkError.NoError).1._requestQueue =
      List.filter (fun r => !resolvable sampleExt
        (_terrainDone sampleExt
          ⟨State.Downloading,
            [⟨7, QueryMode.QueryModeCoordinates, Double.val 0, Double.val 0,
                [⟨Double.val 20, Double.val 1⟩]⟩,
              ⟨7, QueryMode.QueryModeCoordinates, Double.val 0, Double.val 0,
                [⟨Double.val 30, Double.val 1⟩]⟩],
            fun _ => none⟩
          (some ⟨1, 0, 1, 0⟩) [1] NetworkError.NoError).1._tiles r)
        [⟨7, QueryMode.QueryModeCoordinates, Double.val 0, Double.val 0,
            [⟨Double.val 20, Double.val 1⟩]⟩,
          ⟨7, QueryMode.QueryModeCoordinates, Double.val 0, Double.val 0,
            [⟨Double.val 30, Double.val 1⟩]⟩] :=
  (C10_retry_notifies_in_reverse_queue_order sampleExt
    ⟨State.Downloading,
      [⟨7, QueryMode.QueryModeCoordinates, Double.val 0, Double.val 0,
          [⟨Double.val 20, Double.val 1⟩]⟩,
        ⟨7, QueryMode.QueryModeCoordinates, Double.val 0, Double.val 0,
          [⟨Double.val 30, Double.val 1⟩]⟩],
      fun _ => none⟩
    ⟨1, 0, 1, 0⟩ [1] (by simp)).2

theorem interpolate_zero (a b : Rat) (n : Nat) (hn : n ≠ 0) :
    Double.val a + (Double.val b - Double.val a) * Double.val ((0 : Nat) : Rat) /
      Double.val (n : Rat) = Double.val a := by
  have hn2 : (n : Rat) ≠ 0 := by exact_mod_cast hn
  simp [Double.add_def, Double.sub_def, Double.mul_def, Double.div_def, Double.add, Double.sub,
    Double.mul, Double.div, hn2]

theorem steps_ne_zero_valid (g : Geodesy) (A B : QGeoCoordinate)
    (h : (qCeil (g.distanceTo B A / g.tileValueSpacingMeters)).toNat ≠ 0) :
    ∃ a1 a2 b1 b2, A = ⟨Double.val a1, Double.val a2⟩ ∧ B = ⟨Double.val b1, Double.val b2⟩ := by
  have hvalid : ¬ (B.latitude = Double.nan ∨ B.longitude = Double.nan ∨
      A.latitude = Double.nan ∨ A.longitude = Double.nan) := by
    intro hinv
    apply h
    rw [g.distanceTo_invalid B A hinv]
    simp [qCeil]
  obtain ⟨alat, alon⟩ := A
  obtain ⟨blat, blon⟩ := B
  cases alat <;> cases alon <;> cases blat <;> cases blon <;> simp at hvalid
  exact ⟨_, _, _, _, rfl, rfl⟩

/-- C14: the list returned by `pathQueryToCoords(A, B)` has at least two entries, its first
entry is `A` and its last entry is `B` (for every pair of coordinates, `A ≠ B` included). -/
theorem C14_path_keeps_endpoints (g : Geodesy) (A B : QGeoCoordinate) :
    2 ≤ (pathQueryToCoords g A B).1.length ∧
    (pathQueryToCoords g A B).1.head? = some A ∧
    (pathQueryToCoords g A B).1.getLast? = some B := by
  unfold pathQueryToCoords
  by_cases h0 : (qCeil (g.distanceTo B A / g.tileValueSpacingMeters)).toNat = 0
  · simp [h0]
  · obtain ⟨a1, a2, b1, b2, rfl, rfl⟩ := steps_ne_zero_valid g A B h0
    simp only [h0, if_false]
    have key := fun f => QList.setLast_range_map (α := QGeoCoordinate) f _ h0
      ⟨Double.val b1, Double.val b2⟩
    refine ⟨?_, ?_, (key _).2.2⟩
    · rw [(key _).1]
      omega
    · rw [(key _).2.1, Nat.cast_zero, ← Nat.cast_zero (R := Rat),
        interpolate_zero a1 b1 _ h0, interpolate_zero a2 b2 _ h0]

/-- C14 at two coordinates 60 m apart (two steps). -/
theorem C14_path_keeps_endpoints_witness :
    (pathQueryToCoords sampleGeodesy ⟨Double.val 10, Double.val 0⟩
      ⟨Double.val 12, Double.val 1⟩).1.getLast? = some ⟨Double.val 12, Double.val 1⟩ :=
  (C14_path_keeps_endpoints sampleGeodesy ⟨Double.val 10, Double.val 0⟩
    ⟨Double.val 12, Double.val 1⟩).2.2

/-- C15: when the distance the source measures, `B.distanceTo(A)`, is at most one tile value
spacing, `pathQueryToCoords(A, B)` returns exactly `[A, B]` and reports `A.distanceTo(B)` as both
`distanceBetween` and `finalDistanceBetween`, whether `steps` is 0 or 1. -/
theorem C15_short_path_is_two_endpoints (g : Geodesy) (A B : QGeoCoordinate)
    (h : g.distanceTo B A ≤ g.tileValueSpacingMeters) :
    pathQueryToCoords g A B =
      ([A, B], Double.val (g.distanceTo A B), Double.val (g.distanceTo A B)) := by
  have hle : g.distanceTo B A / g.tileValueSpacingMeters ≤ 1 :=
    (div_le_one g.tileValueSpacingMeters_pos).mpr h
  have hceil : qCeil (g.distanceTo B A / g.tileValueSpacingMeters) ≤ 1 := by
    unfold qCeil
    exact Int.ceil_le.mpr (by simpa using hle)
  have hsteps : (qCeil (g.distanceTo B A / g.tileValueSpacingMeters)).toNat ≤ 1 := by
    omega
  unfold pathQueryToCoords
  by_cases h0 : (qCeil (g.distanceTo B A / g.tileValueSpacingMeters)).toNat = 0
  · simp [h0, distanceAt]
  · obtain ⟨a1, a2, b1, b2, rfl, rfl⟩ := steps_ne_zero_valid g A B h0
    have h1 : (qCeil (g.distanceTo ⟨Double.val b1, Double.val b2⟩
        ⟨Double.val a1, Double.val a2⟩ / g.tileValueSpacingMeters)).toNat = 1 := by
      omega
    have i1 := interpolate_zero a1 b1 1 one_ne_zero
    have i2 := interpolate_zero a2 b2 1 one_ne_zero
    simp only [Nat.cast_zero, Nat.cast_one] at i1 i2
    simp [h1, List.range_succ, QList.setLast, distanceAt, i1, i2]

/-- C15 at two coordinates of the same longitude, 20 m apart with a spacing of 30 m. -/
theorem C15_short_path_is_two_endpoints_witness :
    sampleGeodesy.distanceTo ⟨Double.val 12, Double.val 0⟩ ⟨Double.val 10, Double.val 0⟩ ≤
      sampleGeodesy.tileValueSpacingMeters ∧
    pathQueryToCoords sampleGeodesy ⟨Double.val 10, Double.val 0⟩
        ⟨Double.val 12, Double.val 0⟩ =
      ([⟨Double.val 10, Double.val 0⟩, ⟨Double.val 12, Double.val 0⟩],
        Double.val (sampleGeodesy.distanceTo ⟨Double.val 10, Double.val 0⟩
          ⟨Double.val 12, Double.val 0⟩),
        Double.val (sampleGeodesy.distanceTo ⟨Double.val 10, Double.val 0⟩
          ⟨Double.val 12, Double.val 0⟩)) :=
  ⟨by decide,
    C15_short_path_is_two_endpoints sampleGeodesy ⟨Double.val 10, Double.val 0⟩
      ⟨Double.val 12, Double.val 0⟩ (by decide)⟩

theorem getAltitudes_loop_queue (ext : Externals) (m : Manager) (l : List QGeoCoordinate)
    (a : List Double) (e : Bool) :
    (getAltitudesForCoordinates.loop ext m l a e).manager._requestQueue = m._requestQueue := by
  induction l generalizing a e with
  | nil => rfl
  | cons c rest ih =>
    simp only [getAltitudesForCoordinates.loop]
    split
    · exact ih _ _
    · split <;> rfl

/-- C20 (counterexample): the tile "A" is cached, the tile "B" is not.  For the list of a
coordinate of "A" (elevation 10) followed by a coordinate of "B", called with an empty altitude
list, `getAltitudesForCoordinates` returns false and the altitude list it hands back is not
empty: it holds the elevation of the first coordinate.  The same list comes out of
`TerrainAtCoordinateQuery::getAltitudesForCoordinates`. -/
theorem C20_miss_hands_back_partial_altitudes :
    (getAltitudesForCoordinates sampleExt sampleManager
      [⟨Double.val 10, Double.val 0⟩, ⟨Double.val 20, Double.val 1⟩] []).ret = false ∧
    (getAltitudesForCoordinates sampleExt sampleManager
      [⟨Double.val 10, Double.val 0⟩, ⟨Double.val 20, Double.val 1⟩] []).altitudes =
      [Double.val 10] ∧
    (TerrainAtCoordinateQuery.getAltitudesForCoordinates sampleExt sampleManager
      [⟨Double.val 10, Double.val 0⟩, ⟨Double.val 20, Double.val 1⟩] []).altitudes =
      [Double.val 10] := by
  decide

/-- C20 (amended): whenever `getAltitudesForCoordinates` returns false, the coordinate list
splits into coordinates whose tiles are cached, a first coordinate `c0` whose tile is not, and
the rest; the altitude list handed back is the list passed in followed by the elevations of the
coordinates before `c0`.  It is the list passed in exactly when `c0` is the first coordinate. -/
theorem C20_miss_altitudes_are_cached_part (ext : Externals) (m : Manager)
    (coordinates : List QGeoCoordinate) (altitudes : List Double)
    (h : (getAltitudesForCoordinates ext m coordinates altitudes).ret = false) :
    ∃ before c0 after, coordinates = before ++ c0 :: after ∧
      (∀ c ∈ before, cached ext m._tiles c = true) ∧ cached ext m._tiles c0 = false ∧
      (getAltitudesForCoordinates ext m coordinates altitudes).altitudes =
        altitudes ++ before.map (elevationAt ext m._tiles) ∧
      (TerrainAtCoordinateQuery.getAltitudesForCoordinates ext m coordinates
        altitudes).altitudes = altitudes ++ before.map (elevationAt ext m._tiles) ∧
      ((getAltitudesForCoordinates ext m coordinates altitudes).altitudes = altitudes ↔
        before = []) := by
  have hex : ∃ c ∈ coordinates, m._tiles (_getTileHash ext c) = none := by
    by_contra hno
    have hall : ∀ c ∈ coordinates, cached ext m._tiles c = true := by
      intro c hc
      by_contra hcc
      apply hno
      refine ⟨c, hc, ?_⟩
      simpa [cached] using hcc
    have hr := getAltitudes_loop_hit ext m coordinates altitudes false hall
    unfold getAltitudesForCoordinates at h
    rw [hr] at h
    cases h
  obtain ⟨before, c0, after, he, hb, h0⟩ := exists_first_uncached ext m._tiles coordinates hex
  have hr := getAltitudes_loop_miss ext m before c0 after altitudes false hb h0
  refine ⟨before, c0, after, he, hb, by simp [cached, h0], ?_, ?_, ?_⟩
  · unfold getAltitudesForCoordinates
    rw [he, hr]
  · unfold TerrainAtCoordinateQuery.getAltitudesForCoordinates getAltitudesForCoordinates
    rw [he, hr]
  · unfold getAltitudesForCoordinates
    rw [he, hr]
    simp

/-- C20 (amended) at a coordinate of the cached tile "A" followed by one of the uncached
tile "B". -/
theorem C20_miss_altitudes_are_cached_part_witness :
    ∃ before c0 after,
      ([⟨Double.val 10, Double.val 0⟩, ⟨Double.val 20, Double.val 1⟩] : List QGeoCoordinate) =
        before ++ c0 :: after ∧
      (getAltitudesForCoordinates sampleExt sampleManager
        [⟨Double.val 10, Double.val 0⟩, ⟨Double.val 20, Double.val 1⟩] []).altitudes =
        [] ++ before.map (elevationAt sampleExt sampleManager._tiles) :=
  (C20_miss_altitudes_are_cached_part sampleExt sampleManager
    [⟨Double.val 10, Double.val 0⟩, ⟨Double.val 20, Double.val 1⟩] [] (by decide)).elim
    (fun before hb => hb.elim (fun c0 hc => hc.elim (fun after ha =>
      ⟨before, c0, after, ha.1, ha.2.2.2.1⟩)))

/-- C21: when the tile of every coordinate of the list is cached, `getAltitudesForCoordinates`
leaves the manager as it was (cache, pending queue and state), so the same query issued a second
time, again with an empty output list, gives the same return value, the same error flag and the
same altitude list, and again leaves the manager as it was. -/
theorem C21_warm_cache_idempotent (ext : Externals) (m : Manager)
    (coordinates : List QGeoCoordinate)
    (h : ∀ c ∈ coordinates, cached ext m._tiles c = true) :
    (getAltitudesForCoordinates ext m coordinates []).manager = m ∧
    (getAltitudesForCoordinates ext m coordinates []).manager._tiles = m._tiles ∧
    (getAltitudesForCoordinates ext m coordinates []).manager._requestQueue =
      m._requestQueue ∧
    (getAltitudesForCoordinates ext m coordinates []).manager._state = m._state ∧
    (getAltitudesForCoordinates ext
        (getAltitudesForCoordinates ext m coordinates []).manager coordinates []).ret =
      (getAltitudesForCoordinates ext m coordinates []).ret ∧
    (getAltitudesForCoordinates ext
        (getAltitudesForCoordinates ext m coordinates []).manager coordinates []).error =
      (getAltitudesForCoordinates ext m coordinates []).error ∧
    (getAltitudesForCoordinates ext
        (getAltitudesForCoordinates ext m coordinates []).manager coordinates []).altitudes =
      (getAltitudesForCoordinates ext m coordinates []).altitudes ∧
    (getAltitudesForCoordinates ext
        (getAltitudesForCoordinates ext m coordinates []).manager coordinates []).manager =
      m := by
  have hm : (getAltitudesForCoordinates ext m coordinates []).manager = m := by
    unfold getAltitudesForCoordinates
    rw [getAltitudes_loop_hit ext m coordinates [] false h]
  refine ⟨hm, by rw [hm], by rw [hm], by rw [hm], by rw [hm], by rw [hm], by rw [hm], ?_⟩
  rw [hm, hm]

/-- C21 at two coordinates of the cached tile "A". -/
theorem C21_warm_cache_idempotent_witness :
    (getAltitudesForCoordinates sampleExt
        (getAltitudesForCoordinates sampleExt sampleManager
          [⟨Double.val 10, Double.val 0⟩, ⟨Double.val 12, Double.val 0⟩] []).manager
        [⟨Double.val 10, Double.val 0⟩, ⟨Double.val 12, Double.val 0⟩] []).altitudes =
      (getAltitudesForCoordinates sampleExt sampleManager
        [⟨Double.val 10, Double.val 0⟩, ⟨Double.val 12, Double.val 0⟩] []).altitudes :=
  (C21_warm_cache_idempotent sampleExt sampleManager
    [⟨Double.val 10, Double.val 0⟩, ⟨Double.val 12, Double.val 0⟩]
    (by decide)).2.2.2.2.2.2.1

theorem getAltitudes_loop_tiles (ext : Externals) (m : Manager) (l : List QGeoCoordinate)
    (a : List Double) (e : Bool) :
    (getAltitudesForCoordinates.loop ext m l a e).manager._tiles = m._tiles := by
  induction l generalizing a e with
  | nil => rfl
  | cons c rest ih =>
    simp only [getAltitudesForCoordinates.loop]
    split
    · exact ih _ _
    · split <;> rfl

theorem addCoordinateQuery_tiles (ext : Externals) (m : Manager) (caller : QObjectPtr)
    (coordinates : List QGeoCoordinate) :
    (addCoordinateQuery ext m caller coordinates).1._tiles = m._tiles := by
  unfold addCoordinateQuery
  by_cases hlen : coordinates.length > 0
  · cases hret : (getAltitudesForCoordinates ext m coordinates []).ret <;>
      cases herr : (getAltitudesForCoordinates ext m coordinates []).error <;>
      simp only [hlen, if_true, hret, herr, Bool.not_true, Bool.not_false, Bool.false_eq_true,
        if_false] <;>
      simp only [getAltitudesForCoordinates, getAltitudes_loop_tiles]
  · simp only [hlen, if_false]

theorem addPathQuery_tiles (ext : Externals) (g : Geodesy) (m : Manager) (caller : QObjectPtr)
    (startPoint endPoint : QGeoCoordinate) :
    (addPathQuery ext g m caller startPoint endPoint).1._tiles = m._tiles := by
  unfold addPathQuery
  cases hret : (getAltitudesForCoordinates ext m
      (pathQueryToCoords g startPoint endPoint).1 []).ret <;>
    cases herr : (getAltitudesForCoordinates ext m
      (pathQueryToCoords g startPoint endPoint).1 []).error <;>
    simp only [hret, herr, Bool.not_true, Bool.not_false, Bool.false_eq_true, if_true,
      if_false] <;>
    simp only [getAltitudesForCoordinates, getAltitudes_loop_tiles]

theorem terrainDone_tiles (ext : Externals) (m : Manager) (reply : Option QGeoTileSpec)
    (responseBytes : QByteArray) (error : NetworkError) :
    (_terrainDone ext m reply responseBytes error).1._tiles = m._tiles ∨
    ∃ spec, reply = some spec ∧ error = NetworkError.NoError ∧ responseBytes ≠ [] ∧
      (ext.decodeTile responseBytes).isValid = true ∧
      m._tiles (ext.getTileHash "Airmap Elevation" spec.x spec.y spec.zoom) = none ∧
      (_terrainDone ext m reply responseBytes error).1._tiles =
        QHash.insert m._tiles (ext.getTileHash "Airmap Elevation" spec.x spec.y spec.zoom)
          (ext.decodeTile responseBytes) := by
  cases reply with
  | none => left; rfl
  | some spec =>
    by_cases herr : error = NetworkError.NoError
    · subst herr
      cases hb : responseBytes with
      | nil => left; rfl
      | cons b bs =>
        rw [← hb]
        have hne : responseBytes ≠ [] := by rw [hb]; simp
        have hempty : responseBytes.isEmpty = false := by rw [hb]; rfl
        by_cases hv : (ext.decodeTile responseBytes).isValid = true
        · cases hc : m._tiles (ext.getTileHash "Airmap Elevation" spec.x spec.y spec.zoom) with
          | none =>
            right
            refine ⟨spec, rfl, rfl, hne, hv, hc, ?_⟩
            have hs := terrainDone_loop_spec ext
              (QHash.insert m._tiles (ext.getTileHash "Airmap Elevation" spec.x spec.y
                spec.zoom) (ext.decodeTile responseBytes)) m._requestQueue [] State.Idle
            simp only [List.append_nil] at hs
            simp only [_terrainDone, ne_eq, not_true_eq_false, if_false, hempty,
              Bool.false_eq_true, hv, if_true, hc, Option.isSome_none, Bool.not_false]
            exact hs.2.1
          | some tile =>
            left
            have hs := terrainDone_loop_spec ext m._tiles m._requestQueue [] State.Idle
            simp only [List.append_nil] at hs
            simp only [_terrainDone, ne_eq, not_true_eq_false, if_false, hempty,
              Bool.false_eq_true, hv, if_true, hc, Option.isSome_some, Bool.not_true]
            exact hs.2.1
        · left
          have hs := terrainDone_loop_spec ext m._tiles m._requestQueue [] State.Idle
          simp only [List.append_nil] at hs
          simp only [_terrainDone, ne_eq, not_true_eq_false, if_false, hempty,
            Bool.false_eq_true, hv]
          exact hs.2.1
    · left
      simp [_terrainDone, herr, _tileFailed]

/-- C29: `getAltitudesForCoordinates`, `addCoordinateQuery` and `addPathQuery` leave the tile
cache as it was.  `_terrainDone` keeps every key-to-tile mapping the cache had; it either leaves
the cache as it was or adds one entry, the decoded tile under the hash of the reply's tile, and
adds it only when there was no network error, the response was not empty, it decoded into a valid
tile and the hash was not in the cache. -/
theorem C29_cache_only_grows (ext : Externals) (g : Geodesy) (m : Manager)
    (caller : QObjectPtr) (coordinates : List QGeoCoordinate) (altitudes : List Double)
    (startPoint endPoint : QGeoCoordinate) (reply : Option QGeoTileSpec)
    (responseBytes : QByteArray) (error : NetworkError) :
    (getAltitudesForCoordinates ext m coordinates altitudes).manager._tiles = m._tiles ∧
    (addCoordinateQuery ext m caller coordinates).1._tiles = m._tiles ∧
    (addPathQuery ext g m caller startPoint endPoint).1._tiles = m._tiles ∧
    (∀ key tile, m._tiles key = some tile →
      (_terrainDone ext m reply responseBytes error).1._tiles key = some tile) ∧
    ((_terrainDone ext m reply responseBytes error).1._tiles = m._tiles ∨
      ∃ spec, reply = some spec ∧ error = NetworkError.NoError ∧ responseBytes ≠ [] ∧
        (ext.decodeTile responseBytes).isValid = true ∧
        m._tiles (ext.getTileHash "Airmap Elevation" spec.x spec.y spec.zoom) = none ∧
        (_terrainDone ext m reply responseBytes error).1._tiles =
          QHash.insert m._tiles (ext.getTileHash "Airmap Elevation" spec.x spec.y spec.zoom)
            (ext.decodeTile responseBytes)) := by
  refine ⟨getAltitudes_loop_tiles ext m coordinates altitudes false,
    addCoordinateQuery_tiles ext m caller coordinates,
    addPathQuery_tiles ext g m caller startPoint endPoint, ?_,
    terrainDone_tiles ext m reply responseBytes error⟩
  intro key tile hk
  rcases terrainDone_tiles ext m reply responseBytes error with h | ⟨spec, -, -, -, -, hn, h⟩
  · rw [h]; exact hk
  · rw [h]
    unfold QHash.insert
    by_cases hkey : key = ext.getTileHash "Airmap Elevation" spec.x spec.y spec.zoom
    · rw [hkey, hn] at hk
      cases hk
    · simp [hkey, hk]

/-- C29 at the manager holding the tile "A" when a second response for "A" arrives: the cached
tile stays. -/
theorem C29_cache_only_grows_witness :
    (_terrainDone sampleExt sampleManager (some ⟨0, 0, 1, 0⟩) [1]
      NetworkError.NoError).1._tiles "A" = some sampleTile :=
  (C29_cache_only_grows sampleExt sampleGeodesy sampleManager 7 [] []
    ⟨Double.val 10, Double.val 0⟩ ⟨Double.val 12, Double.val 0⟩ (some ⟨0, 0, 1, 0⟩) [1]
    NetworkError.NoError).2.2.2.1 "A" sampleTile rfl

theorem interpolate_value (a b : Rat) (i n : Nat) (hn : n ≠ 0) :
    Double.val a + (Double.val b - Double.val a) * Double.val (i : Rat) /
      Double.val (n : Rat) = Double.val (a + (b - a) * i / n) := by
  have hn2 : (n : Rat) ≠ 0 := by exact_mod_cast hn
  simp [Double.add_def, Double.sub_def, Double.mul_def, Double.div_def, Double.add, Double.sub,
    Double.mul, Double.div, hn2]

theorem rounded_steps_ne_zero_valid (r : Rounding) (g : Geodesy) (A B : QGeoCoordinate)
    (h : (qCeil (r.round (g.distanceTo B A / g.tileValueSpacingMeters))).toNat ≠ 0) :
    ∃ a1 a2 b1 b2, A = ⟨Double.val a1, Double.val a2⟩ ∧ B = ⟨Double.val b1, Double.val b2⟩ := by
  have hvalid : ¬ (B.latitude = Double.nan ∨ B.longitude = Double.nan ∨
      A.latitude = Double.nan ∨ A.longitude = Double.nan) := by
    intro hinv
    apply h
    rw [g.distanceTo_invalid B A hinv, zero_div, r.round_zero]
    simp [qCeil]
  obtain ⟨alat, alon⟩ := A
  obtain ⟨blat, blon⟩ := B
  cases alat <;> cases alon <;> cases blat <;> cases blon <;> simp at hvalid
  exact ⟨_, _, _, _, rfl, rfl⟩

theorem rounded_interpolate_value (r : Rounding) (a b : Rat) (i n : Nat) (hn : n ≠ 0) :
    r.add (Double.val a)
        (r.div (r.mul (r.sub (Double.val b) (Double.val a)) (Double.val (i : Rat)))
          (Double.val (n : Rat))) =
      Double.val (r.round (a + r.round (r.round (r.round (b - a) * i) / n))) := by
  have hn2 : (n : Rat) ≠ 0 := by exact_mod_cast hn
  simp [Rounding.add, Rounding.sub, Rounding.mul, Rounding.div, hn2]

theorem pathQueryToCoords_exact_rounding (g : Geodesy) (A B : QGeoCoordinate) :
    Rounded.pathQueryToCoords Rounding.exact g A B = pathQueryToCoords g A B := by
  have hadd : ∀ a b : Double, Rounding.exact.add a b = a + b := by
    intro a b; cases a <;> cases b <;> rfl
  have hsub : ∀ a b : Double, Rounding.exact.sub a b = a - b := by
    intro a b; cases a <;> cases b <;> rfl
  have hmul : ∀ a b : Double, Rounding.exact.mul a b = a * b := by
    intro a b; cases a <;> cases b <;> rfl
  have hdiv : ∀ a b : Double, Rounding.exact.div a b = a / b := by
    intro a b; cases a <;> cases b <;> rfl
  simp only [Rounded.pathQueryToCoords, pathQueryToCoords, hadd, hsub, hmul, hdiv]
  rfl

/-- C28: the source computes in doubles, every operation rounded (`round`).  When
`steps = ceil(B.distanceTo(A) / tileValueSpacingMeters)`, as the source computes it, is at least
1, both coordinates are valid and `pathQueryToCoords(A, B)` returns exactly `steps + 1` points;
for `i < steps` the `i`-th point is
`(lat_A + (lat_B - lat_A)*i/steps, lon_A + (lon_B - lon_A)*i/steps)` as the source evaluates
it: the difference, the product by `i`, the quotient by `steps` and the sum, each rounded; the
last point is `B` itself; `distanceBetween` is the distance from the first returned point to the
second and `finalDistanceBetween` the distance from the last but one to the last. -/
theorem C28_sample_count_and_interpolation (r : Rounding) (g : Geodesy) (A B : QGeoCoordinate)
    (steps : Nat)
    (hsteps : (steps : Int) = qCeil (r.round (g.distanceTo B A / g.tileValueSpacingMeters)))
    (h1 : 1 ≤ steps) :
    ∃ a1 a2 b1 b2, A = ⟨Double.val a1, Double.val a2⟩ ∧ B = ⟨Double.val b1, Double.val b2⟩ ∧
      (Rounded.pathQueryToCoords r g A B).1.length = steps + 1 ∧
      (∀ i, i < steps → (Rounded.pathQueryToCoords r g A B).1[i]? =
        some ⟨Double.val (r.round (a1 + r.round (r.round (r.round (b1 - a1) * i) / steps))),
          Double.val (r.round (a2 + r.round (r.round (r.round (b2 - a2) * i) / steps)))⟩) ∧
      (Rounded.pathQueryToCoords r g A B).1[steps]? = some B ∧
      (∃ p0 p1, (Rounded.pathQueryToCoords r g A B).1[0]? = some p0 ∧
        (Rounded.pathQueryToCoords r g A B).1[1]? = some p1 ∧
        (Rounded.pathQueryToCoords r g A B).2.1 = Double.val (g.distanceTo p0 p1)) ∧
      (∃ p q, (Rounded.pathQueryToCoords r g A B).1[steps - 1]? = some p ∧
        (Rounded.pathQueryToCoords r g A B).1[steps]? = some q ∧
        (Rounded.pathQueryToCoords r g A B).2.2 = Double.val (g.distanceTo p q)) := by
  have hnat : (qCeil (r.round (g.distanceTo B A / g.tileValueSpacingMeters))).toNat = steps := by
    rw [← hsteps]
    exact Int.toNat_natCast steps
  have h0 : steps ≠ 0 := by omega
  obtain ⟨a1, a2, b1, b2, rfl, rfl⟩ :=
    rounded_steps_ne_zero_valid r g A B (by rw [hnat]; exact h0)
  refine ⟨a1, a2, b1, b2, rfl, rfl, ?_⟩
  have hform : Rounded.pathQueryToCoords r g ⟨Double.val a1, Double.val a2⟩
        ⟨Double.val b1, Double.val b2⟩ =
      ((List.range steps).map (fun (i : Nat) =>
          (⟨Double.val (r.round (a1 + r.round (r.round (r.round (b1 - a1) * i) / steps))),
            Double.val (r.round (a2 + r.round (r.round (r.round (b2 - a2) * i) / steps)))⟩ :
            QGeoCoordinate)) ++
          [⟨Double.val b1, Double.val b2⟩],
        distanceAt g ((List.range steps).map (fun (i : Nat) =>
          (⟨Double.val (r.round (a1 + r.round (r.round (r.round (b1 - a1) * i) / steps))),
            Double.val (r.round (a2 + r.round (r.round (r.round (b2 - a2) * i) / steps)))⟩ :
            QGeoCoordinate)) ++
          [⟨Double.val b1, Double.val b2⟩]) 0 1,
        distanceAt g ((List.range steps).map (fun (i : Nat) =>
          (⟨Double.val (r.round (a1 + r.round (r.round (r.round (b1 - a1) * i) / steps))),
            Double.val (r.round (a2 + r.round (r.round (r.round (b2 - a2) * i) / steps)))⟩ :
            QGeoCoordinate)) ++
          [⟨Double.val b1, Double.val b2⟩]) (steps - 1) steps) := by
    unfold Rounded.pathQueryToCoords
    simp only [hnat, h0, if_false, QList.setLast_range_map_eq, List.length_append,
      List.length_map, List.length_range, List.length_singleton, Nat.add_sub_cancel]
    have hf : (fun (i : Nat) => (⟨r.add (Double.val a1)
          (r.div (r.mul (r.sub (Double.val b1) (Double.val a1)) (Double.val (i : Rat)))
            (Double.val (steps : Rat))),
        r.add (Double.val a2)
          (r.div (r.mul (r.sub (Double.val b2) (Double.val a2)) (Double.val (i : Rat)))
            (Double.val (steps : Rat)))⟩ : QGeoCoordinate)) =
        (fun (i : Nat) =>
          (⟨Double.val (r.round (a1 + r.round (r.round (r.round (b1 - a1) * i) / steps))),
            Double.val (r.round (a2 + r.round (r.round (r.round (b2 - a2) * i) / steps)))⟩ :
            QGeoCoordinate)) := by
      funext i
      rw [rounded_interpolate_value r a1 b1 i steps h0,
        rounded_interpolate_value r a2 b2 i steps h0]
    rw [hf]
    have e : steps + 1 - 2 = steps - 1 := by omega
    rw [e]
  rw [hform]
  have hget : ∀ i, i < steps → ((List.range steps).map (fun (i : Nat) =>
          (⟨Double.val (r.round (a1 + r.round (r.round (r.round (b1 - a1) * i) / steps))),
            Double.val (r.round (a2 + r.round (r.round (r.round (b2 - a2) * i) / steps)))⟩ :
            QGeoCoordinate)) ++
          [⟨Double.val b1, Double.val b2⟩])[i]? =
      some ⟨Double.val (r.round (a1 + r.round (r.round (r.round (b1 - a1) * i) / steps))),
        Double.val (r.round (a2 + r.round (r.round (r.round (b2 - a2) * i) / steps)))⟩ := by
    intro i hi
    rw [List.getElem?_append_left (by simpa using hi)]
    simp [hi]
  have hlast : ((List.range steps).map (fun (i : Nat) =>
          (⟨Double.val (r.round (a1 + r.round (r.round (r.round (b1 - a1) * i) / steps))),
            Double.val (r.round (a2 + r.round (r.round (r.round (b2 - a2) * i) / steps)))⟩ :
            QGeoCoordinate)) ++
          [⟨Double.val b1, Double.val b2⟩])[steps]? =
      some ⟨Double.val b1, Double.val b2⟩ := by
    rw [List.getElem?_append_right (by simp)]
    simp
  have hprev := hget (steps - 1) (by omega)
  have hfirst := hget 0 (by omega)
  refine ⟨by simp, hget, hlast, ?_, ?_⟩
  · by_cases hs1 : steps = 1
    · subst hs1
      exact ⟨_, _, hfirst, hlast, by simp only [distanceAt, hfirst, hlast]⟩
    · have hsecond := hget 1 (by omega)
      exact ⟨_, _, hfirst, hsecond, by simp only [distanceAt, hfirst, hsecond]⟩
  · exact ⟨_, _, hprev, hlast, by simp only [distanceAt, hprev, hlast]⟩

/-- C28 at two coordinates 60 m apart with a spacing of 30 m, rounding down to eighths: two
steps, three points, and the middle point is the rounded interpolation. -/
theorem C28_sample_count_and_interpolation_witness :
    (Rounded.pathQueryToCoords Rounding.sampleRounding sampleGeodesy
      ⟨Double.val 10, Double.val 0⟩ ⟨Double.val 12, Double.val 1⟩).1.length = 2 + 1 ∧
    (Rounded.pathQueryToCoords Rounding.sampleRounding sampleGeodesy
      ⟨Double.val 10, Double.val 0⟩ ⟨Double.val 12, Double.val 1⟩).1[1]? =
      some ⟨Double.val 11, Double.val (1 / 2)⟩ :=
  (C28_sample_count_and_interpolation Rounding.sampleRounding sampleGeodesy
    ⟨Double.val 10, Double.val 0⟩ ⟨Double.val 12, Double.val 1⟩ 2
    (by simp [qCeil, sampleGeodesy, Rounding.sampleRounding]; norm_num) (by decide)).elim
    (fun a1 h => h.elim (fun a2 h => h.elim (fun b1 h => h.elim (fun b2 h =>
      ⟨h.2.2.1, by
        have hA := h.1
        have hB := h.2.1
        have hp := h.2.2.2.1 1 (by decide)
        simp only [QGeoCoordinate.mk.injEq, Double.val.injEq] at hA hB
        obtain ⟨rfl, rfl⟩ := hA
        obtain ⟨rfl, rfl⟩ := hB
        rw [hp]
        simp [Rounding.sampleRounding]
        norm_num⟩))))

theorem answer_eq_retryNotification (ext : Externals) (tiles : String → Option TerrainTile)
    (r : QueuedRequestInfo_t) (h : r.queryMode ≠ QueryMode.QueryModeCarpet) :
    answer ext tiles r = [retryNotification ext tiles r] := by
  unfold answer retryNotification _terrainDone.signal
  cases hm : r.queryMode with
  | QueryModeCarpet => exact absurd hm h
  | QueryModeCoordinates =>
    cases hn : r.coordinates.any (fun c => qIsNaN (elevationAt ext tiles c)) <;> simp
  | QueryModePath =>
    cases hn : r.coordinates.any (fun c => qIsNaN (elevationAt ext tiles c)) <;> simp

theorem not_all_eq_any_not {α : Type} (l : List α) (p : α → Bool) :
    (!l.all p) = l.any (fun c => !p c) := by
  induction l with
  | nil => rfl
  | cons a t ih => simp [List.all_cons, List.any_cons, Bool.not_and, ih]

theorem flatMap_answer_eq_map (ext : Externals) (tiles : String → Option TerrainTile)
    (l : List QueuedRequestInfo_t)
    (hmodes : ∀ r ∈ l, r.queryMode ≠ QueryMode.QueryModeCarpet) :
    l.flatMap (answer ext tiles) = l.map (retryNotification ext tiles) := by
  induction l with
  | nil => rfl
  | cons r rest ih =>
    rw [List.flatMap_cons, List.map_cons,
      answer_eq_retryNotification ext tiles r (hmodes r (List.mem_cons_self _ _)),
      ih (fun t ht => hmodes t (List.mem_cons_of_mem _ ht))]
    rfl

theorem terrainDone_valid_form (ext : Externals) (m : Manager) (spec : QGeoTileSpec)
    (responseBytes : QByteArray) (hbytes : responseBytes ≠ [])
    (hvalid : (ext.decodeTile responseBytes).isValid = true) :
    _terrainDone ext m (some spec) responseBytes NetworkError.NoError =
      _terrainDone.loop ext m._requestQueue.length
        ⟨State.Idle, m._requestQueue,
          if (m._tiles (ext.getTileHash "Airmap Elevation" spec.x spec.y spec.zoom)).isSome
          then m._tiles
          else QHash.insert m._tiles
            (ext.getTileHash "Airmap Elevation" spec.x spec.y spec.zoom)
            (ext.decodeTile responseBytes)⟩ := by
  have hempty : responseBytes.isEmpty = false := by
    cases responseBytes with
    | nil => exact absurd rfl hbytes
    | cons b bs => rfl
  cases hc : (m._tiles (ext.getTileHash "Airmap Elevation" spec.x spec.y spec.zoom)).isSome <;>
    simp [_terrainDone, hempty, hvalid, hc]

/-- C24: when a fetch completes without error with a non-empty response that decodes into a
valid tile, the cache afterwards is the old cache with the tile added under the reply's hash if
that hash was absent.  After `_terrainDone` the pending queue is the sub-list, in queue order, of
the queued requests with a coordinate whose tile is not in that cache; every other queued request
has been removed and notified exactly once, `(true, one altitude per coordinate)` when no
elevation is NaN and `(false, empty heights)` otherwise, a path request with its stored spacing
values (the notifications come last queued first); nothing else is signalled. -/
theorem C24_retry_after_valid_tile (ext : Externals) (m : Manager) (spec : QGeoTileSpec)
    (responseBytes : QByteArray) (hbytes : responseBytes ≠ [])
    (hvalid : (ext.decodeTile responseBytes).isValid = true)
    (hmodes : ∀ r ∈ m._requestQueue, r.queryMode ≠ QueryMode.QueryModeCarpet) :
    (_terrainDone ext m (some spec) responseBytes NetworkError.NoError).1._tiles =
      (if (m._tiles (ext.getTileHash "Airmap Elevation" spec.x spec.y spec.zoom)).isSome
        then m._tiles
        else QHash.insert m._tiles (ext.getTileHash "Airmap Elevation" spec.x spec.y spec.zoom)
          (ext.decodeTile responseBytes)) ∧
    (_terrainDone ext m (some spec) responseBytes NetworkError.NoError).1._requestQueue =
      m._requestQueue.filter (fun r => r.coordinates.any (fun c => !cached ext
        (_terrainDone ext m (some spec) responseBytes NetworkError.NoError).1._tiles c)) ∧
    (_terrainDone ext m (some spec) responseBytes NetworkError.NoError).2.filter
        (fun e => !e.isFetch) =
      ((m._requestQueue.filter (fun r => r.coordinates.all (cached ext
        (_terrainDone ext m (some spec) responseBytes NetworkError.NoError).1._tiles))).reverse
        ).map (retryNotification ext
          (_terrainDone ext m (some spec) responseBytes NetworkError.NoError).1._tiles) := by
  rw [terrainDone_valid_form ext m spec responseBytes hbytes hvalid]
  have hs := terrainDone_loop_spec ext
    (if (m._tiles (ext.getTileHash "Airmap Elevation" spec.x spec.y spec.zoom)).isSome
      then m._tiles
      else QHash.insert m._tiles (ext.getTileHash "Airmap Elevation" spec.x spec.y spec.zoom)
        (ext.decodeTile responseBytes)) m._requestQueue [] State.Idle
  simp only [List.append_nil] at hs
  obtain ⟨h1, h2, -, h4, -⟩ := hs
  refine ⟨h2, ?_, ?_⟩
  · rw [h1, h2]
    apply List.filter_congr
    intro r _
    exact not_all_eq_any_not r.coordinates _
  · rw [h4, h2]
    exact flatMap_answer_eq_map ext _ _
      (fun r hr => hmodes r (List.mem_of_mem_filter (List.mem_reverse.mp hr)))

/-- C24 at a queue with a request for the tile "B" and one for a tile still missing, when the
tile "B" arrives. -/
theorem C24_retry_after_valid_tile_witness :
    (_terrainDone sampleExt
      ⟨State.Downloading,
        [⟨7, QueryMode.QueryModeCoordinates, Double.val 0, Double.val 0,
            [⟨Double.val 20, Double.val 1⟩]⟩,
          ⟨8, QueryMode.QueryModePath, Double.val 3, Double.val 2,
            [⟨Double.val 20, Double.val 1⟩, ⟨Double.val 21, Double.val 0⟩]⟩],
        fun _ => none⟩
      (some ⟨1, 0, 1, 0⟩) [1] NetworkError.NoError).1._tiles =
      (if ((fun _ => none : String → Option TerrainTile)
          (sampleExt.getTileHash "Airmap Elevation" 1 0 1)).isSome
        then (fun _ => none)
        else QHash.insert (fun _ => none) (sampleExt.getTileHash "Airmap Elevation" 1 0 1)
          (sampleExt.decodeTile [1])) :=
  (C24_retry_after_valid_tile sampleExt
    ⟨State.Downloading,
      [⟨7, QueryMode.QueryModeCoordinates, Double.val 0, Double.val 0,
          [⟨Double.val 20, Double.val 1⟩]⟩,
        ⟨8, QueryMode.QueryModePath, Double.val 3, Double.val 2,
          [⟨Double.val 20, Double.val 1⟩, ⟨Double.val 21, Double.val 0⟩]⟩],
      fun _ => none⟩
    ⟨1, 0, 1, 0⟩ [1] (by simp) rfl (by decide)).1

theorem fetches_length (effects : List Effect) :
    (fetches effects).length = (effects.filter Effect.isFetch).length := by
  induction effects with
  | nil => rfl
  | cons e rest ih => cases e <;> simp [fetches, Effect.isFetch, ih]

theorem fetches_append (a b : List Effect) : fetches (a ++ b) = fetches a ++ fetches b := by
  induction a with
  | nil => rfl
  | cons e rest ih => cases e <;> simp [fetches, ih]

theorem getAltitudes_loop_fetches (ext : Externals) (m : Manager) (l : List QGeoCoordinate)
    (a : List Double) (e : Bool) :
    (fetches (getAltitudesForCoordinates.loop ext m l a e).effects).length +
        (if m._state = State.Downloading then 1 else 0) =
      (if (getAltitudesForCoordinates.loop ext m l a e).manager._state = State.Downloading
        then 1 else 0) := by
  induction l generalizing a e with
  | nil => simp [getAltitudesForCoordinates.loop, fetches]
  | cons c rest ih =>
    cases ht : m._tiles (_getTileHash ext c) with
    | some tile =>
      simp only [getAltitudesForCoordinates.loop, ht]
      exact ih _ _
    | none =>
      by_cases hs : m._state = State.Downloading <;>
        simp [getAltitudesForCoordinates.loop, ht, hs, fetches]

theorem addCoordinateQuery_fetches (ext : Externals) (m : Manager) (caller : QObjectPtr)
    (coordinates : List QGeoCoordinate) :
    (fetches (addCoordinateQuery ext m caller coordinates).2).length +
        (if m._state = State.Downloading then 1 else 0) =
      (if (addCoordinateQuery ext m caller coordinates).1._state = State.Downloading
        then 1 else 0) := by
  have h := getAltitudes_loop_fetches ext m coordinates [] false
  unfold addCoordinateQuery
  by_cases hlen : coordinates.length > 0
  · cases hret : (getAltitudesForCoordinates ext m coordinates []).ret <;>
      cases herr : (getAltitudesForCoordinates ext m coordinates []).error <;>
      simp only [hlen, if_true, hret, herr, Bool.not_true, Bool.not_false, Bool.false_eq_true,
        if_false, fetches_append, List.length_append] <;>
      simp only [getAltitudesForCoordinates, fetches, List.length_nil, Nat.add_zero] <;>
      exact h
  · simp [hlen, fetches]

theorem addPathQuery_fetches (ext : Externals) (g : Geodesy) (m : Manager)
    (caller : QObjectPtr) (startPoint endPoint : QGeoCoordinate) :
    (fetches (addPathQuery ext g m caller startPoint endPoint).2).length +
        (if m._state = State.Downloading then 1 else 0) =
      (if (addPathQuery ext g m caller startPoint endPoint).1._state = State.Downloading
        then 1 else 0) := by
  have h := getAltitudes_loop_fetches ext m (pathQueryToCoords g startPoint endPoint).1 []
    false
  unfold addPathQuery
  cases hret : (getAltitudesForCoordinates ext m
      (pathQueryToCoords g startPoint endPoint).1 []).ret <;>
    cases herr : (getAltitudesForCoordinates ext m
      (pathQueryToCoords g startPoint endPoint).1 []).error <;>
    simp only [hret, herr, Bool.not_true, Bool.not_false, Bool.false_eq_true, if_true,
      if_false, fetches_append, List.length_append] <;>
    simp only [getAltitudesForCoordinates, fetches, List.length_nil, Nat.add_zero] <;>
    exact h

theorem tileFailed_loop_fetches (q : List QueuedRequestInfo_t) :
    fetches (_tileFailed.loop q) = [] := by
  induction q with
  | nil => rfl
  | cons r rest ih =>
    rw [_tileFailed.loop, fetches_append, ih]
    unfold _tileFailed.signal
    cases r.queryMode <;> rfl

theorem terrainDone_fetches (ext : Externals) (m : Manager) (spec : QGeoTileSpec)
    (responseBytes : QByteArray) (error : NetworkError) :
    (fetches (_terrainDone ext m (some spec) responseBytes error).2).length =
      (if (_terrainDone ext m (some spec) responseBytes error).1._state = State.Downloading
        then 1 else 0) := by
  by_cases herr : error = NetworkError.NoError
  · subst herr
    cases hb : responseBytes with
    | nil => simp [_terrainDone, _tileFailed, tileFailed_loop_fetches]
    | cons b bs =>
      rw [← hb]
      have hempty : responseBytes.isEmpty = false := by rw [hb]; rfl
      obtain ⟨tiles, ht⟩ : ∃ tiles, _terrainDone ext m (some spec) responseBytes
          NetworkError.NoError =
          _terrainDone.loop ext m._requestQueue.length
            ⟨State.Idle, m._requestQueue, tiles⟩ := by
        simp only [_terrainDone, ne_eq, not_true_eq_false, if_false, hempty,
          Bool.false_eq_true]
        by_cases hv : (ext.decodeTile responseBytes).isValid = true
        · by_cases hc : (!(m._tiles (ext.getTileHash "Airmap Elevation" spec.x spec.y
              spec.zoom)).isSome) = true
          · refine ⟨QHash.insert m._tiles (ext.getTileHash "Airmap Elevation" spec.x spec.y
              spec.zoom) (ext.decodeTile responseBytes), ?_⟩
            simp only [hv, hc, if_true]
          · refine ⟨m._tiles, ?_⟩
            simp only [hv, hc, if_true, if_false, Bool.false_eq_true]
        · refine ⟨m._tiles, ?_⟩
          simp only [hv, if_false, Bool.false_eq_true]
      have hs := terrainDone_loop_spec ext tiles m._requestQueue [] State.Idle
      simp only [List.append_nil] at hs
      obtain ⟨-, -, h3, -, h5⟩ := hs
      rw [ht, fetches_length, h5, h3]
      cases hall : m._requestQueue.all (resolvable ext tiles) <;> simp
  · simp [_terrainDone, herr, _tileFailed, tileFailed_loop_fetches]

theorem step_fetches_outstanding (ext : Externals) (g : Geodesy) (s s' : System) (e : Event)
    (hinv : s.outstanding.length = if s.manager._state = State.Downloading then 1 else 0)
    (hstep : step ext g s e = some s') :
    s'.outstanding.length = if s'.manager._state = State.Downloading then 1 else 0 := by
  cases e with
  | addCoordinateQuery c coordinates =>
    simp only [step, Option.some.injEq] at hstep
    subst hstep
    have h := addCoordinateQuery_fetches ext s.manager c coordinates
    simp only [List.length_append, hinv]
    omega
  | addPathQuery c startPoint endPoint =>
    simp only [step, Option.some.injEq] at hstep
    subst hstep
    have h := addPathQuery_fetches ext g s.manager c startPoint endPoint
    simp only [List.length_append, hinv]
    omega
  | getAltitudesForCoordinates coordinates altitudes =>
    simp only [step, Option.some.injEq] at hstep
    subst hstep
    have h := getAltitudes_loop_fetches ext s.manager coordinates altitudes false
    simp only [List.length_append, hinv, getAltitudesForCoordinates]
    omega
  | terrainDone spec responseBytes error =>
    by_cases hmem : spec ∈ s.outstanding
    · simp only [step, hmem, if_true, Option.some.injEq] at hstep
      subst hstep
      have h := terrainDone_fetches ext s.manager spec responseBytes error
      have hpos : 0 < s.outstanding.length := List.length_pos_of_mem hmem
      have hone : s.outstanding.length = 1 := by
        split at hinv <;> omega
      simp only [List.length_append, List.length_erase_of_mem hmem, hone, h]
      omega
    · simp [step, hmem] at hstep

theorem run_fetches_outstanding (ext : Externals) (g : Geodesy) (events : List Event) (s s' : System)
    (hinv : s.outstanding.length = if s.manager._state = State.Downloading then 1 else 0)
    (hrun : run ext g s events = some s') :
    s'.outstanding.length = if s'.manager._state = State.Downloading then 1 else 0 := by
  induction events generalizing s with
  | nil =>
    simp only [run, Option.some.injEq] at hrun
    subst hrun
    exact hinv
  | cons e rest ih =>
    simp only [run] at hrun
    cases hstep : step ext g s e with
    | none => simp [hstep] at hrun
    | some s1 =>
      rw [hstep] at hrun
      exact ih s1 (step_fetches_outstanding ext g s s1 e hinv hstep) hrun

/-- C26: in every state reached from the tile manager as constructed by calls of
`addCoordinateQuery`, `addPathQuery` and `getAltitudesForCoordinates` and by completions of
outstanding fetches (`_terrainDone`, the fetches its retry loop starts being counted), at most one
tile fetch is outstanding, and one is outstanding exactly when the state is Downloading. -/
theorem C26_single_outstanding_fetch (ext : Externals) (g : Geodesy) (events : List Event)
    (s : System) (hrun : run ext g ⟨init, []⟩ events = some s) :
    s.outstanding.length ≤ 1 ∧
    (s.outstanding.length = 1 ↔ s.manager._state = State.Downloading) := by
  have h := run_fetches_outstanding ext g events ⟨init, []⟩ s (by simp [init]) hrun
  refine ⟨?_, ?_⟩
  · rw [h]; split <;> omega
  · rw [h]
    by_cases hs : s.manager._state = State.Downloading <;> simp [hs]

/-- C26 at a run: a query for the uncached tile "A" starts a fetch, a query for the uncached tile
"B" is queued while that fetch is outstanding, the fetch of "A" completes and the retry starts
the fetch of "B". -/
theorem C26_single_outstanding_fetch_witness :
    ∃ s, run sampleExt sampleGeodesy ⟨init, []⟩
        [Event.addCoordinateQuery 7 [⟨Double.val 10, Double.val 0⟩],
          Event.addCoordinateQuery 8 [⟨Double.val 10, Double.val 1⟩],
          Event.terrainDone ⟨0, 0, 1, 0⟩ [1] NetworkError.NoError] = some s ∧
      s.outstanding = [⟨1, 0, 1, 0⟩] ∧ s.outstanding.length ≤ 1 :=
  ⟨_, rfl, rfl,
    (C26_single_outstanding_fetch sampleExt sampleGeodesy
      [Event.addCoordinateQuery 7 [⟨Double.val 10, Double.val 0⟩],
        Event.addCoordinateQuery 8 [⟨Double.val 10, Double.val 1⟩],
        Event.terrainDone ⟨0, 0, 1, 0⟩ [1] NetworkError.NoError] _ rfl).1⟩

end TerrainTileManager

/-! ## Properties of the query classes -/

theorem requestCarpetHeights_rows_exhausted (a b : Rat) :
    Double.lt (Double.val a + Double.val ((UnitTestTerrainQuery.requestCarpetHeights.rows
      (Double.val a) (Double.val b) : Nat) : Rat)) (Double.val b) = false := by
  have h1 : b - a ≤ ((⌈b - a⌉ : Int) : Rat) := Int.le_ceil _
  have h2 : ((⌈b - a⌉ : Int) : Rat) ≤ (((⌈b - a⌉).toNat : Nat) : Rat) := by
    have : (⌈b - a⌉ : Int) ≤ (((⌈b - a⌉).toNat : Nat) : Int) := Int.self_le_toNat _
    exact_mod_cast this
  simp only [UnitTestTerrainQuery.requestCarpetHeights.rows, Double.add_def, Double.add,
    Double.lt, decide_eq_false_iff_not, not_lt]
  linarith

/-- C16 (counterexample): with both corners equal (so the south-west corner is not strictly
south-west of the north-east one), `UnitTestTerrainQuery::requestCarpetHeights` answers
`success=true` with an empty grid; and outside unit tests `TerrainAirMapQuery` sends a region whose
south-west corner lies north-east of the other corner to the network as it is. -/
theorem C16_malformed_region_not_rejected :
    UnitTestTerrainQuery.requestCarpetHeights TerrainTileManager.sampleGeodesy sampleTerrain
        ⟨Double.val 10, Double.val 20⟩ ⟨Double.val 10, Double.val 20⟩ false =
      [UnitTestTerrainQuery.Emission.onParent
        (Signal.carpetHeightsReceived true (Double.val DBL_MAX) (Double.val DBL_MIN) [])] ∧
    (TerrainAirMapQuery.requestCarpetHeights false TerrainTileManager.sampleGeodesy
        sampleTerrain ⟨TerrainAirMapQuery.QueryMode.QueryModeCoordinates, false⟩
        ⟨Double.val 10, Double.val 20⟩ ⟨Double.val 5, Double.val 15⟩ false).2 =
      [TerrainAirMapQuery.Effect._sendQuery "/carpet"
        [⟨Double.val 10, Double.val 20⟩, ⟨Double.val 5, Double.val 15⟩]] := by
  constructor
  · simp [UnitTestTerrainQuery.requestCarpetHeights, Double.gt, Double.lt,
      UnitTestTerrainQuery.requestCarpetHeights.rows, UnitTestTerrainQuery.requestCarpetHeights.loop]
  · rfl

/-- C16 (amended): when `sw.longitude > ne.longitude` or `sw.latitude > ne.latitude`,
`UnitTestTerrainQuery::requestCarpetHeights` emits through its parent exactly one
`(success=false, NaN, NaN, empty grid)`, whatever the terrain: no height is computed; and a
`TerrainAirMapQuery` running unit tests answers with that emission and sends nothing to the
network. -/
theorem C16_unit_test_rejects_inverted_region (g : Geodesy)
    (heightsOf : List QGeoCoordinate → List Double) (q : TerrainAirMapQuery.Query)
    (swCoord neCoord : QGeoCoordinate) (statsOnly : Bool)
    (h : Double.gt swCoord.longitude neCoord.longitude = true ∨
      Double.gt swCoord.latitude neCoord.latitude = true) :
    UnitTestTerrainQuery.requestCarpetHeights g heightsOf swCoord neCoord statsOnly =
      [UnitTestTerrainQuery.Emission.onParent
        (Signal.carpetHeightsReceived false Double.nan Double.nan [])] ∧
    TerrainAirMapQuery.requestCarpetHeights true g heightsOf q swCoord neCoord statsOnly =
      (q, [TerrainAirMapQuery.Effect.unitTest (UnitTestTerrainQuery.Emission.onParent
        (Signal.carpetHeightsReceived false Double.nan Double.nan []))]) := by
  have hc : (Double.gt swCoord.longitude neCoord.longitude ||
      Double.gt swCoord.latitude neCoord.latitude) = true := by
    rcases h with h | h <;> simp [h]
  have h1 : UnitTestTerrainQuery.requestCarpetHeights g heightsOf swCoord neCoord statsOnly =
      [UnitTestTerrainQuery.Emission.onParent
        (Signal.carpetHeightsReceived false Double.nan Double.nan [])] := by
    simp only [UnitTestTerrainQuery.requestCarpetHeights, hc, if_true]
  refine ⟨h1, ?_⟩
  simp only [TerrainAirMapQuery.requestCarpetHeights, if_true, h1, List.map_cons, List.map_nil]

/-- C16 (amended) at a region whose south-west corner lies east of the other corner. -/
theorem C16_unit_test_rejects_inverted_region_witness :
    UnitTestTerrainQuery.requestCarpetHeights TerrainTileManager.sampleGeodesy (fun _ => [])
        ⟨Double.val 10, Double.val 20⟩ ⟨Double.val 11, Double.val 15⟩ false =
      [UnitTestTerrainQuery.Emission.onParent
        (Signal.carpetHeightsReceived false Double.nan Double.nan [])] :=
  (C16_unit_test_rejects_inverted_region TerrainTileManager.sampleGeodesy (fun _ => [])
    ⟨TerrainAirMapQuery.QueryMode.QueryModeCoordinates, false⟩
    ⟨Double.val 10, Double.val 20⟩ ⟨Double.val 11, Double.val 15⟩ false
    (Or.inl (by decide))).1

/-- C17 (counterexample): outside unit tests, `TerrainOfflineAirMapQuery::requestCoordinateHeights`
and `TerrainAtCoordinateQuery::requestData` called with an empty coordinate list, and
`TerrainOfflineAirMapQuery::requestCarpetHeights` called with any region, return without emitting
a signal and without recording the request: the managers are as they were. -/
theorem C17_empty_and_carpet_requests_are_dropped :
    TerrainOfflineAirMapQuery.requestCoordinateHeights false TerrainTileManager.sampleExt
        sampleTerrain TerrainTileManager.init 7 [] = (TerrainTileManager.init, []) ∧
    TerrainOfflineAirMapQuery.requestCarpetHeights false TerrainTileManager.sampleGeodesy
        sampleTerrain TerrainTileManager.init ⟨Double.val 10, Double.val 20⟩
        ⟨Double.val 11, Double.val 21⟩ false = (TerrainTileManager.init, []) ∧
    TerrainAtCoordinateQuery.requestData TerrainAtCoordinateBatchManager.init 7 [] =
      TerrainAtCoordinateBatchManager.init :=
  ⟨rfl, rfl, rfl⟩

/-- C17 (amended): outside unit tests, a point query with a non-empty coordinate list and a path
query never return with the request neither answered nor recorded.
`TerrainOfflineAirMapQuery::requestCoordinateHeights` either emits a coordinate result to the
caller or appends the caller's request to the tile manager's queue;
`TerrainOfflineAirMapQuery::requestPathHeights` either emits a path result to the caller or
appends the caller's path request to that queue; `TerrainAtCoordinateQuery::requestData` appends
the caller's request to the batch manager's queue and the batch timer is running. -/
theorem C17_nonempty_requests_answered_or_queued (ext : Externals) (g : Geodesy)
    (heightsOf : List QGeoCoordinate → List Double) (m : TerrainTileManager.Manager)
    (bm : TerrainAtCoordinateBatchManager.Manager) (this : QObjectPtr)
    (coordinates : List QGeoCoordinate) (fromCoord toCoord : QGeoCoordinate)
    (hne : coordinates ≠ []) :
    ((∃ success heights, TerrainOfflineAirMapQuery.Effect.tileManager
          (TerrainTileManager.Effect._signalCoordinateHeights this success heights) ∈
        (TerrainOfflineAirMapQuery.requestCoordinateHeights false ext heightsOf m this
          coordinates).2) ∨
      (TerrainOfflineAirMapQuery.requestCoordinateHeights false ext heightsOf m this
          coordinates).1._requestQueue =
        m._requestQueue ++ [⟨this, TerrainTileManager.QueryMode.QueryModeCoordinates,
          Double.val 0, Double.val 0, coordinates⟩]) ∧
    ((∃ success distanceBetween finalDistanceBetween heights,
        TerrainOfflineAirMapQuery.Effect.tileManager
          (TerrainTileManager.Effect._signalPathHeights this success distanceBetween
            finalDistanceBetween heights) ∈
        (TerrainOfflineAirMapQuery.requestPathHeights false ext g heightsOf m this fromCoord
          toCoord).2) ∨
      (TerrainOfflineAirMapQuery.requestPathHeights false ext g heightsOf m this fromCoord
          toCoord).1._requestQueue =
        m._requestQueue ++ [⟨this, TerrainTileManager.QueryMode.QueryModePath,
          (TerrainTileManager.pathQueryToCoords g fromCoord toCoord).2.1,
          (TerrainTileManager.pathQueryToCoords g fromCoord toCoord).2.2,
          (TerrainTileManager.pathQueryToCoords g fromCoord toCoord).1⟩]) ∧
    (TerrainAtCoordinateQuery.requestData bm this coordinates)._requestQueue =
      bm._requestQueue ++ [⟨this, coordinates⟩] ∧
    (TerrainAtCoordinateQuery.requestData bm this coordinates)._batchTimerActive = true := by
  have hlen : coordinates.length ≠ 0 := by simpa using hne
  have hpos : coordinates.length > 0 := Nat.pos_of_ne_zero hlen
  refine ⟨?_, ?_, ?_, ?_⟩
  · simp only [TerrainOfflineAirMapQuery.requestCoordinateHeights, Bool.false_eq_true,
      if_false, hlen, TerrainTileManager.addCoordinateQuery, hpos, if_true]
    cases hret : (TerrainTileManager.getAltitudesForCoordinates ext m coordinates []).ret
    · right
      simp only [Bool.not_false, if_true]
      simp only [TerrainTileManager.getAltitudesForCoordinates,
        TerrainTileManager.getAltitudes_loop_queue]
    · left
      cases herr : (TerrainTileManager.getAltitudesForCoordinates ext m coordinates []).error
      · simp only [Bool.not_true, Bool.false_eq_true, if_false]
        exact ⟨_, _, List.mem_map_of_mem _
          (List.mem_append_right _ (List.mem_singleton_self _))⟩
      · simp only [Bool.not_true, Bool.false_eq_true, if_false, if_true]
        exact ⟨_, _, List.mem_map_of_mem _
          (List.mem_append_right _ (List.mem_singleton_self _))⟩
  · simp only [TerrainOfflineAirMapQuery.requestPathHeights, Bool.false_eq_true, if_false,
      TerrainTileManager.addPathQuery]
    cases hret : (TerrainTileManager.getAltitudesForCoordinates ext m
      (TerrainTileManager.pathQueryToCoords g fromCoord toCoord).1 []).ret
    · right
      simp only [Bool.not_false, if_true]
      simp only [TerrainTileManager.getAltitudesForCoordinates,
        TerrainTileManager.getAltitudes_loop_queue]
    · left
      cases herr : (TerrainTileManager.getAltitudesForCoordinates ext m
        (TerrainTileManager.pathQueryToCoords g fromCoord toCoord).1 []).error
      · simp only [Bool.not_true, Bool.false_eq_true, if_false]
        exact ⟨_, _, _, _, List.mem_map_of_mem _
          (List.mem_append_right _ (List.mem_singleton_self _))⟩
      · simp only [Bool.not_true, Bool.false_eq_true, if_false, if_true]
        exact ⟨_, _, _, _, List.mem_map_of_mem _
          (List.mem_append_right _ (List.mem_singleton_self _))⟩
  · simp [TerrainAtCoordinateQuery.requestData, hlen, TerrainAtCoordinateBatchManager.addQuery,
      hpos]
  · simp [TerrainAtCoordinateQuery.requestData, hlen, TerrainAtCoordinateBatchManager.addQuery,
      hpos]

/-- C17 (amended) at a request for one coordinate of an uncached tile: it is queued. -/
theorem C17_nonempty_requests_answered_or_queued_witness :
    (TerrainAtCoordinateQuery.requestData TerrainAtCoordinateBatchManager.init 7
      [⟨Double.val 20, Double.val 1⟩])._requestQueue =
      TerrainAtCoordinateBatchManager.init._requestQueue ++
        [⟨7, [⟨Double.val 20, Double.val 1⟩]⟩] :=
  (C17_nonempty_requests_answered_or_queued TerrainTileManager.sampleExt
    TerrainTileManager.sampleGeodesy sampleTerrain TerrainTileManager.init
    TerrainAtCoordinateBatchManager.init 7 [⟨Double.val 20, Double.val 1⟩]
    ⟨Double.val 10, Double.val 0⟩ ⟨Double.val 12, Double.val 1⟩ (by simp)).2.2.1

namespace TerrainPolyPathQuery

theorem deliverAll_cons (q : Query) (result : Bool × TerrainPathQuery.PathHeightInfo_t)
    (rest : List (Bool × TerrainPathQuery.PathHeightInfo_t)) :
    deliverAll q (result :: rest) =
      ((deliverAll (_terrainDataReceived q result.1 result.2).1 rest).1,
        (_terrainDataReceived q result.1 result.2).2 ::
          (deliverAll (_terrainDataReceived q result.1 result.2).1 rest).2) := rfl

theorem terrainDataReceived_more (P : List QGeoCoordinate) (auto : Bool) (k : Nat)
    (acc : List TerrainPathQuery.PathHeightInfo_t) (info : TerrainPathQuery.PathHeightInfo_t)
    (h : k + 2 < P.length) :
    _terrainDataReceived ⟨auto, P, k, acc⟩ true info =
      (⟨auto, P, k + 1, acc ++ [info]⟩,
        [Effect.pathQuery_requestData P[k + 1]? P[k + 2]?]) := by
  have hk : ¬ ((k + 1 : Nat) : Int) ≥ (P.length : Int) - 1 := by omega
  simp only [_terrainDataReceived, Bool.not_true, Bool.false_eq_true, if_false, hk]

theorem terrainDataReceived_last (P : List QGeoCoordinate) (auto : Bool) (k : Nat)
    (acc : List TerrainPathQuery.PathHeightInfo_t) (info : TerrainPathQuery.PathHeightInfo_t)
    (h : P.length ≤ k + 2) :
    _terrainDataReceived ⟨auto, P, k, acc⟩ true info =
      (⟨auto, P, k + 1, acc ++ [info]⟩,
        Effect.terrainDataReceived true (acc ++ [info]) ::
          (if auto then [Effect.deleteLater] else [])) := by
  have hk : ((k + 1 : Nat) : Int) ≥ (P.length : Int) - 1 := by omega
  simp only [_terrainDataReceived, Bool.not_true, Bool.false_eq_true, if_false, hk, if_true]

theorem deliverAll_success_chain (P : List QGeoCoordinate) (auto : Bool)
    (infos : List TerrainPathQuery.PathHeightInfo_t) (k : Nat)
    (acc : List TerrainPathQuery.PathHeightInfo_t)
    (hne : infos ≠ []) (hlen : k + infos.length + 1 = P.length) :
    deliverAll ⟨auto, P, k, acc⟩ (infos.map (fun i => (true, i))) =
      (⟨auto, P, k + infos.length, acc ++ infos⟩,
        (List.range (infos.length - 1)).map
            (fun i => [Effect.pathQuery_requestData P[k + 1 + i]? P[k + 2 + i]?]) ++
          [Effect.terrainDataReceived true (acc ++ infos) ::
            (if auto then [Effect.deleteLater] else [])]) := by
  induction infos generalizing k acc with
  | nil => exact absurd rfl hne
  | cons info rest ih =>
    rw [List.map_cons, deliverAll_cons]
    cases rest with
    | nil =>
      simp only [List.length_singleton] at hlen
      rw [terrainDataReceived_last P auto k acc info (by omega)]
      simp [deliverAll]
    | cons info2 rest2 =>
      simp only [List.length_cons] at hlen
      rw [terrainDataReceived_more P auto k acc info (by omega)]
      have ih2 := ih (k + 1) (acc ++ [info]) (by simp)
        (by simp only [List.length_cons]; omega)
      rw [ih2]
      refine Prod.ext ?_ ?_
      · simp only [List.length_cons, List.append_assoc, List.singleton_append,
          Query.mk.injEq, true_and, and_true]
        omega
      · simp only [List.length_cons, Nat.add_sub_cancel, List.append_assoc,
          List.singleton_append]
        rw [List.range_succ_eq_map (rest2.length), List.map_cons, List.map_map]
        simp only [List.cons_append, Nat.add_zero, List.cons.injEq, true_and]
        congr 1
        apply List.map_congr_left
        intro i _
        simp only [Function.comp_apply, Nat.succ_eq_add_one]
        have e1 : k + 1 + 1 + i = k + 1 + (i + 1) := by omega
        have e2 : k + 1 + 2 + i = k + 2 + (i + 1) := by omega
        rw [e1, e2]

theorem polyPath_success_chain_fresh (q : Query) (P : List QGeoCoordinate)
    (infos : List TerrainPathQuery.PathHeightInfo_t)
    (hfresh : q._rgPathHeightInfo = []) (hN : 2 ≤ P.length)
    (hlen : infos.length + 1 = P.length) :
    (requestData q P).2 = [Effect.pathQuery_requestData P[0]? P[1]?] ∧
    (deliverAll (requestData q P).1 (infos.map (fun i => (true, i)))).2 =
      (List.range (P.length - 2)).map
          (fun i => [Effect.pathQuery_requestData P[i + 1]? P[i + 2]?]) ++
        [Effect.terrainDataReceived true infos ::
          (if q._autoDelete then [Effect.deleteLater] else [])] := by
  refine ⟨rfl, ?_⟩
  have hne : infos ≠ [] := by
    intro h
    rw [h] at hlen
    simp at hlen
    omega
  have h := deliverAll_success_chain P q._autoDelete infos 0 [] hne (by omega)
  have hq : (requestData q P).1 = ⟨q._autoDelete, P, 0, []⟩ := by
    simp [requestData, hfresh]
  rw [hq, h]
  have hl : infos.length - 1 = P.length - 2 := by omega
  simp only [List.nil_append, hl]
  congr 2
  funext i
  have e1 : 0 + 1 + i = i + 1 := by omega
  have e2 : 0 + 2 + i = i + 2 := by omega
  rw [e1, e2]

/-- C18 (the code departs from the claim): an object constructed with `autoDelete = false`
resolves the polyline `[c1, c2]` and delivers `(true, [r1])`; no request is in progress.  It is
then given the polyline `[c3, c4]`, N = 2: one segment query is issued, its result `r2` arrives,
and the object delivers `(true, [r1, r2])`, two entries instead of N-1 = 1: `requestData` does not
clear `_rgPathHeightInfo`. -/
theorem C18_reused_object_delivers_stale_segments :
    (_terrainDataReceived (requestData (init false) [TerrainAtCoordinateBatchManager.sampleCoord 1, TerrainAtCoordinateBatchManager.sampleCoord 2]).1 true
      ⟨Double.val 5, Double.val 5, [Double.val 1]⟩).2 =
      [Effect.terrainDataReceived true [⟨Double.val 5, Double.val 5, [Double.val 1]⟩]] ∧
    (requestData
      (_terrainDataReceived (requestData (init false) [TerrainAtCoordinateBatchManager.sampleCoord 1, TerrainAtCoordinateBatchManager.sampleCoord 2]).1 true
        ⟨Double.val 5, Double.val 5, [Double.val 1]⟩).1
      [TerrainAtCoordinateBatchManager.sampleCoord 3, TerrainAtCoordinateBatchManager.sampleCoord 4]).2 =
      [Effect.pathQuery_requestData (some (TerrainAtCoordinateBatchManager.sampleCoord 3)) (some (TerrainAtCoordinateBatchManager.sampleCoord 4))] ∧
    (_terrainDataReceived
      (requestData
        (_terrainDataReceived (requestData (init false) [TerrainAtCoordinateBatchManager.sampleCoord 1, TerrainAtCoordinateBatchManager.sampleCoord 2]).1 true
          ⟨Double.val 5, Double.val 5, [Double.val 1]⟩).1
        [TerrainAtCoordinateBatchManager.sampleCoord 3, TerrainAtCoordinateBatchManager.sampleCoord 4]).1 true
      ⟨Double.val 6, Double.val 6, [Double.val 2]⟩).2 =
      [Effect.terrainDataReceived true
        [⟨Double.val 5, Double.val 5, [Double.val 1]⟩,
          ⟨Double.val 6, Double.val 6, [Double.val 2]⟩]] := by
  decide

/-- C19: whatever the state of the object (so after any number of successful segments of any
polyline), when a segment result arrives with `success=false`, `_terrainDataReceived` emits
exactly one signal, `terrainDataReceived(false, empty list)`, issues no segment query, and the
segment results collected so far are discarded; the polyline and the index are left as they
were. -/
theorem C19_failed_segment_aborts_chain (q : Query)
    (pathHeightInfo : TerrainPathQuery.PathHeightInfo_t) :
    (_terrainDataReceived q false pathHeightInfo).2 = [Effect.terrainDataReceived false []] ∧
    (_terrainDataReceived q false pathHeightInfo).1._rgPathHeightInfo = [] ∧
    (_terrainDataReceived q false pathHeightInfo).1._rgCoords = q._rgCoords ∧
    (_terrainDataReceived q false pathHeightInfo).1._curIndex = q._curIndex :=
  ⟨rfl, rfl, rfl, rfl⟩

end TerrainPolyPathQuery

namespace TerrainAirMapQuery

/-- C22 (counterexample): the reply has no error, its body is the JSON object
`{"status": "success"}`, which has no `data` field.  In each of the three query modes
`_requestFinished` emits a success outcome: `(true, empty heights)` for a point query,
`(true, 0, 0, empty heights)` for a path query and `(true, 0, 0, empty grid)` for a region
query. -/
theorem C22_missing_data_gives_success_outcome :
    _requestFinished sampleFromJson ⟨QueryMode.QueryModeCoordinates, false⟩
        NetworkError.NoError [1] = [Signal.coordinateHeightsReceived true []] ∧
    _requestFinished sampleFromJson ⟨QueryMode.QueryModePath, false⟩
        NetworkError.NoError [1] =
      [Signal.pathHeightsReceived true (Double.val 0) (Double.val 0) []] ∧
    _requestFinished sampleFromJson ⟨QueryMode.QueryModeCarpet, false⟩
        NetworkError.NoError [1] =
      [Signal.carpetHeightsReceived true (Double.val 0) (Double.val 0) []] := by
  decide

/-- C22 (amended): when the reply reports an error, or its body is not valid JSON, or the
`status` field of the document is not the string "success", `_requestFinished` emits exactly one
signal, the failed outcome of the current query mode: `(false, empty heights)` for a point query,
`(false, NaN, NaN, empty heights)` for a path query, `(false, NaN, NaN, empty grid)` for a region
query. -/
theorem C22_failed_response_gives_failed_outcome (fromJson : QByteArray → Option QJsonValue)
    (q : Query) (replyError : NetworkError) (responseBytes : QByteArray)
    (h : replyError ≠ NetworkError.NoError ∨ fromJson responseBytes = none ∨
      ∃ responseJson, fromJson responseBytes = some responseJson ∧
        (QJsonObject.value responseJson.toObject "status").toString ≠ "success") :
    _requestFinished fromJson q replyError responseBytes =
      [match q._queryMode with
        | QueryMode.QueryModeCoordinates => Signal.coordinateHeightsReceived false []
        | QueryMode.QueryModePath => Signal.pathHeightsReceived false Double.nan Double.nan []
        | QueryMode.QueryModeCarpet =>
          Signal.carpetHeightsReceived false Double.nan Double.nan []] := by
  have hfailed : _requestFailed q =
      [match q._queryMode with
        | QueryMode.QueryModeCoordinates => Signal.coordinateHeightsReceived false []
        | QueryMode.QueryModePath => Signal.pathHeightsReceived false Double.nan Double.nan []
        | QueryMode.QueryModeCarpet =>
          Signal.carpetHeightsReceived false Double.nan Double.nan []] := by
    unfold _requestFailed
    cases q._queryMode <;> rfl
  rw [← hfailed]
  unfold _requestFinished
  by_cases herr : replyError = NetworkError.NoError
  · rcases h with h | h | ⟨responseJson, hj, hs⟩
    · exact absurd herr h
    · simp only [herr, ne_eq, not_true_eq_false, if_false, h]
    · simp only [herr, ne_eq, not_true_eq_false, if_false, hj]
      rw [if_pos hs]
  · simp only [ne_eq, herr, not_false_eq_true, if_true]

/-- C22 (amended) at a path query whose reply has the status "error". -/
theorem C22_failed_response_gives_failed_outcome_witness :
    _requestFinished sampleFromJson ⟨QueryMode.QueryModePath, false⟩ NetworkError.NoError [2] =
      [Signal.pathHeightsReceived false Double.nan Double.nan []] :=
  C22_failed_response_gives_failed_outcome sampleFromJson ⟨QueryMode.QueryModePath, false⟩
    NetworkError.NoError [2]
    (Or.inr (Or.inr ⟨QJsonValue.object [("status", QJsonValue.string "error")], rfl,
      by decide⟩))

end TerrainAirMapQuery

namespace UnitTestTerrainQuery

theorem minMax_append (l1 l2 : List Double) (min max : Double) :
    requestCarpetHeights.minMax (l1 ++ l2) min max =
      requestCarpetHeights.minMax l2 (requestCarpetHeights.minMax l1 min max).1
        (requestCarpetHeights.minMax l1 min max).2 := by
  induction l1 generalizing min max with
  | nil => rfl
  | cons h rest ih =>
    simp only [List.cons_append, requestCarpetHeights.minMax]
    exact ih _ _

theorem minMax_fst (l : List Double) (m0 : Rat) (M : Double)
    (hl : ∀ h ∈ l, ∃ v, h = Double.val v) :
    ∃ m1, (requestCarpetHeights.minMax l (Double.val m0) M).1 = Double.val m1 ∧ m1 ≤ m0 ∧
      (∀ v, Double.val v ∈ l → m1 ≤ v) ∧ (m1 = m0 ∨ Double.val m1 ∈ l) := by
  induction l generalizing m0 M with
  | nil => exact ⟨m0, rfl, le_refl _, by simp, Or.inl rfl⟩
  | cons h rest ih =>
    obtain ⟨v, rfl⟩ := hl h (List.mem_cons_self _ _)
    have hrest : ∀ h ∈ rest, ∃ v, h = Double.val v :=
      fun h hh => hl h (List.mem_cons_of_mem _ hh)
    by_cases hlt : v < m0
    · obtain ⟨m1, h1, h2, h3, h4⟩ := ih v (qMax (Double.val v) M) hrest
      refine ⟨m1, ?_, le_trans h2 (le_of_lt hlt), ?_, ?_⟩
      · simp only [requestCarpetHeights.minMax, qMin, Double.lt, hlt, decide_True, if_true]
        exact h1
      · intro w hw
        rcases List.mem_cons.mp hw with hw | hw
        · cases hw; exact h2
        · exact h3 w hw
      · rcases h4 with h4 | h4
        · right; rw [h4]; exact List.mem_cons_self _ _
        · right; exact List.mem_cons_of_mem _ h4
    · obtain ⟨m1, h1, h2, h3, h4⟩ := ih m0 (qMax (Double.val v) M) hrest
      refine ⟨m1, ?_, h2, ?_, ?_⟩
      · simp only [requestCarpetHeights.minMax, qMin, Double.lt, hlt, decide_False,
          Bool.false_eq_true, if_false]
        exact h1
      · intro w hw
        rcases List.mem_cons.mp hw with hw | hw
        · cases hw; exact le_trans h2 (not_lt.mp hlt)
        · exact h3 w hw
      · rcases h4 with h4 | h4
        · left; exact h4
        · right; exact List.mem_cons_of_mem _ h4

theorem requestCarpetHeights_loop_success (g : Geodesy)
    (heightsOf : List QGeoCoordinate → List Double) (swCoord neCoord : QGeoCoordinate) (n : Nat)
    (lat min max : Double) (carpet : List (List Double)) (m M : Double)
    (c : List (List Double))
    (h : Emission.onParent (Signal.carpetHeightsReceived true m M c) ∈
      requestCarpetHeights.loop g heightsOf swCoord neCoord n lat min max carpet) :
    ∃ rows, c = carpet ++ rows ∧ (∀ r ∈ rows, r ≠ [] ∧ ∃ cs, r = heightsOf cs) ∧
      m = (requestCarpetHeights.minMax rows.flatten min max).1 ∧
      M = (requestCarpetHeights.minMax rows.flatten min max).2 ∧
      (rows ≠ [] ↔ (n ≠ 0 ∧ Double.lt lat neCoord.latitude = true)) := by
  induction n generalizing lat min max carpet with
  | zero =>
    simp only [requestCarpetHeights.loop, List.mem_singleton, Emission.onParent.injEq,
      Signal.carpetHeightsReceived.injEq, true_and] at h
    obtain ⟨rfl, rfl, rfl⟩ := h
    exact ⟨[], by simp, by simp, rfl, rfl, by simp⟩
  | succ n ih =>
    rw [requestCarpetHeights.loop] at h
    by_cases hlt : Double.lt lat neCoord.latitude = true
    · simp only [hlt, if_true] at h
      by_cases hrow : (_requestPathHeights g heightsOf ⟨lat, swCoord.longitude⟩
          ⟨lat, neCoord.longitude⟩).rgHeights.length = 0
      · simp [hrow] at h
      · simp only [hrow, if_false] at h
        obtain ⟨rows, h1, h2, h3, h4, -⟩ := ih _ _ _ _ h
        refine ⟨(_requestPathHeights g heightsOf ⟨lat, swCoord.longitude⟩
          ⟨lat, neCoord.longitude⟩).rgHeights :: rows, ?_, ?_, ?_, ?_, ?_⟩
        · rw [h1, List.append_assoc]; rfl
        · intro r hr
          rcases List.mem_cons.mp hr with hr | hr
          · subst hr
            refine ⟨?_, _, rfl⟩
            intro hnil
            exact hrow (by rw [hnil]; rfl)
          · exact h2 r hr
        · rw [h3, List.flatten_cons, minMax_append]
        · rw [h4, List.flatten_cons, minMax_append]
        · simp [hlt]
    · rw [if_neg hlt] at h
      simp only [List.mem_singleton, Emission.onParent.injEq,
        Signal.carpetHeightsReceived.injEq, true_and] at h
      obtain ⟨rfl, rfl, rfl⟩ := h
      exact ⟨[], by simp, by simp, rfl, rfl, by simp [hlt]⟩

theorem rows_ne_zero_iff (swLatitude neLatitude : Double) :
    (requestCarpetHeights.rows swLatitude neLatitude ≠ 0 ∧
      Double.lt swLatitude neLatitude = true) ↔ Double.lt swLatitude neLatitude = true := by
  constructor
  · exact fun h => h.2
  · intro h
    refine ⟨?_, h⟩
    cases swLatitude with
    | nan => simp [Double.lt] at h
    | val a =>
      cases neLatitude with
      | nan => simp [Double.lt] at h
      | val b =>
        simp only [Double.lt, decide_eq_true_eq] at h
        simp only [requestCarpetHeights.rows]
        have hpos : 0 < ⌈b - a⌉ := Int.ceil_pos.mpr (by linarith)
        omega

end UnitTestTerrainQuery

namespace UnitTestTerrainQuery

theorem pathQueryToCoords_sample_length (lat : Rat) :
    (TerrainTileManager.pathQueryToCoords TerrainTileManager.sampleGeodesy
      ⟨Double.val lat, Double.val 20⟩ ⟨Double.val lat, Double.val 21⟩).1.length = 3 := by
  have hsteps : (qCeil (TerrainTileManager.sampleGeodesy.distanceTo
      ⟨Double.val lat, Double.val 21⟩ ⟨Double.val lat, Double.val 20⟩ /
      TerrainTileManager.sampleGeodesy.tileValueSpacingMeters)).toNat = 2 := by
    simp [qCeil, TerrainTileManager.sampleGeodesy]
    norm_num
    rfl
  simp only [TerrainTileManager.pathQueryToCoords, hsteps]
  simp [QList.setLast_range_map_eq]

/-- Where the synthetic terrain lies below sea level the reported maximum is not a height of the
grid: over one row of three points of height -5, `requestCarpetHeights` reports the minimum -5
and the maximum `std::numeric_limits<double>::min()`, the value `max` starts from. -/
theorem requestCarpetHeights_negative_grid :
    requestCarpetHeights TerrainTileManager.sampleGeodesy sampleNegativeTerrain
        ⟨Double.val 10, Double.val 20⟩ ⟨Double.val 11, Double.val 21⟩ false =
      [Emission.onParent (Signal.carpetHeightsReceived true (Double.val (-5))
        (Double.val DBL_MIN) [[Double.val (-5), Double.val (-5), Double.val (-5)]])] := by
  have hrow : (_requestPathHeights TerrainTileManager.sampleGeodesy sampleNegativeTerrain
      ⟨Double.val 10, Double.val 20⟩ ⟨Double.val 10, Double.val 21⟩).rgHeights =
      [Double.val (-5), Double.val (-5), Double.val (-5)] := by
    have hlen := pathQueryToCoords_sample_length 10
    simp only [_requestPathHeights, sampleNegativeTerrain]
    generalize (TerrainTileManager.pathQueryToCoords TerrainTileManager.sampleGeodesy
      ⟨Double.val 10, Double.val 20⟩ ⟨Double.val 10, Double.val 21⟩).1 = l at hlen
    match l, hlen with
    | [_, _, _], _ => rfl
  have hrows : requestCarpetHeights.rows (Double.val 10) (Double.val 11) = 1 := by
    simp [requestCarpetHeights.rows]
  have hmin : (-5 : Rat) < DBL_MAX := by norm_num [DBL_MAX]
  have hmax2 : (-5 : Rat) < DBL_MIN := by norm_num [DBL_MIN]
  simp [requestCarpetHeights, Double.gt, Double.lt, hrows, requestCarpetHeights.loop, hrow,
    requestCarpetHeights.minMax, qMin, qMax, hmin, hmax2]
  norm_num

/-- C30 (counterexample): for a region whose two corners have the same latitude the loop over the
latitudes does not run, and `requestCarpetHeights` reports success with an empty grid (and the
statistics `max()` and `min()` of `std::numeric_limits<double>`). -/
theorem C30_success_with_empty_grid :
    requestCarpetHeights TerrainTileManager.sampleGeodesy sampleTerrain
        ⟨Double.val 10, Double.val 20⟩ ⟨Double.val 10, Double.val 21⟩ true =
      [Emission.onParent (Signal.carpetHeightsReceived true (Double.val DBL_MAX)
        (Double.val DBL_MIN) [])] := by
  simp [requestCarpetHeights, Double.gt, Double.lt, requestCarpetHeights.rows,
    requestCarpetHeights.loop]
  norm_num

/-- C30 (amended): when the synthetic terrain yields only numbers (no NaN, none above the largest
double) and `UnitTestTerrainQuery::requestCarpetHeights` reports success, every row of the
returned grid is non-empty, the grid is non-empty exactly when the south-west latitude is smaller
than the north-east latitude, and for a non-empty grid the reported minimum is the smallest
height occurring in the grid: it occurs in the grid and no height of the grid is smaller. -/
theorem C30_carpet_rows_and_minimum (g : Geodesy)
    (heightsOf : List QGeoCoordinate → List Double) (swCoord neCoord : QGeoCoordinate)
    (statsOnly : Bool) (min max : Double) (carpet : List (List Double))
    (hfinite : ∀ cs h, h ∈ heightsOf cs → ∃ v, h = Double.val v ∧ v ≤ DBL_MAX)
    (hsucc : Emission.onParent (Signal.carpetHeightsReceived true min max carpet) ∈
      requestCarpetHeights g heightsOf swCoord neCoord statsOnly) :
    (∀ row ∈ carpet, row ≠ []) ∧
    (carpet ≠ [] ↔ Double.lt swCoord.latitude neCoord.latitude = true) ∧
    (carpet ≠ [] → min ∈ carpet.flatten ∧ ∀ h ∈ carpet.flatten, Double.lt h min = false) := by
  unfold requestCarpetHeights at hsucc
  split at hsucc
  · simp at hsucc
  · obtain ⟨rows, h1, h2, h3, -, h5⟩ := requestCarpetHeights_loop_success _ _ _ _ _ _ _ _ _ _ _ _
      hsucc
    rw [List.nil_append] at h1
    subst h1
    have hall : ∀ h ∈ carpet.flatten, ∃ v, h = Double.val v ∧ v ≤ DBL_MAX := by
      intro h hh
      obtain ⟨row, hrow, hmem⟩ := List.mem_flatten.mp hh
      obtain ⟨-, cs, rfl⟩ := h2 row hrow
      exact hfinite cs h hmem
    refine ⟨fun row hrow => (h2 row hrow).1, ?_, ?_⟩
    · rw [h5, rows_ne_zero_iff]
    · intro hne
      obtain ⟨m1, e1, -, e3, e4⟩ := minMax_fst carpet.flatten DBL_MAX (Double.val DBL_MIN)
        (fun h hh => (hall h hh).imp (fun _ hv => hv.1))
      rw [h3, e1]
      refine ⟨?_, ?_⟩
      · rcases e4 with e4 | e4
        · obtain ⟨row, rest, rfl⟩ := List.exists_cons_of_ne_nil hne
          obtain ⟨x, xs, hx⟩ := List.exists_cons_of_ne_nil
            (h2 row (List.mem_cons_self _ _)).1
          have hxmem : x ∈ (row :: rest).flatten := by
            rw [List.flatten_cons, hx]; exact List.mem_append_left _ (List.mem_cons_self _ _)
          obtain ⟨v, rfl, hv⟩ := hall x hxmem
          have hle := e3 v hxmem
          have hv1 : v = m1 := le_antisymm (by rw [e4]; exact hv) hle
          rw [← hv1]; exact hxmem
        · exact e4
      · intro h hh
        obtain ⟨v, rfl, -⟩ := hall h hh
        simp only [Double.lt, decide_eq_false_iff_not, not_lt]
        exact e3 v hh

/-- C30 at a region one degree high over terrain of height -5: one row of three points, and the
reported minimum -5 is the smallest height of the grid. -/
theorem C30_carpet_rows_and_minimum_witness :
    Double.val (-5) ∈
      [[Double.val (-5), Double.val (-5), Double.val (-5)]].flatten ∧
    ∀ h ∈ [[Double.val (-5), Double.val (-5), Double.val (-5)]].flatten,
      Double.lt h (Double.val (-5)) = false :=
  (C30_carpet_rows_and_minimum TerrainTileManager.sampleGeodesy sampleNegativeTerrain
    ⟨Double.val 10, Double.val 20⟩ ⟨Double.val 11, Double.val 21⟩ false (Double.val (-5))
    (Double.val DBL_MIN) [[Double.val (-5), Double.val (-5), Double.val (-5)]]
    (fun cs h hh => by
      simp only [sampleNegativeTerrain, List.mem_map] at hh
      obtain ⟨_, _, rfl⟩ := hh
      exact ⟨-5, rfl, by norm_num [DBL_MAX]⟩)
    (by rw [requestCarpetHeights_negative_grid]; exact List.mem_singleton_self _)).2.2
    (by decide)

end UnitTestTerrainQuery

end TerrainQuery
